import Mathlib

/-!
Verification of the pKVM EL2 memory-ownership core (`mem_protect.c`).

This file gives a shallow embedding of the ownership / stage-2 page-table
transition protocol of the hypervisor memory-protection unit: the
`find_mem_range` resolver, the per-page ownership state tracked in the host
vmemmap and in the hyp / guest page tables, the two-phase
(check-then-commit) Share / Unshare / Donate transition engine, the
relinquish and reclaim paths, the MMIO-guard annotation hypercall and the
`host_stage2_try` allocation-recovery wrapper.  Theorems at the end settle
the specification claims about this code.

Modelling conventions, stated once here:
  * Physical addresses, hypervisor VAs and guest IPAs are `Nat` byte
    addresses; a page is `PAGE_SIZE = 4096` bytes and page frames are
    indexed by `pfn = addr / PAGE_SIZE`.  The hypervisor linear map is
    modelled as the identity (`__hyp_va phys = phys`), so hyp VA page
    indices coincide with pfns; none of the verified properties depend on
    the actual linear-map offset.
  * The generic stage-2 page-table library (`kvm_pgtable_*`, treated by the
    code as an external collaborator) is modelled at page granularity:
    each component's table is a function from page index to a PTE value.
    All mappings are page-granular, which is faithful here because the
    guest tables use a force-page policy that always returns true and the
    transition engine only ever installs page mappings on the paths
    modelled.  Table-node allocation is modelled as infallible; allocator
    exhaustion and the recovery retry are modelled separately and
    generically by `host_stage2_try`.
  * Machine integers are `Nat` (addresses, sizes, bitmasks) and `Int`
    (error returns, negative errnos exactly as in the kernel).
-/

namespace MemProtect

/-! ### Basic constants -/

def PAGE_SHIFT : Nat := 12

def PAGE_SIZE : Nat := 4096

/-- `ULONG_MAX` on a 64-bit target. -/
def ULONG_MAX : Nat := 2 ^ 64 - 1

/-- Linux errno values (the code returns their negations). -/
def EPERM : Int := 1

def ENOENT : Int := 2

def E2BIG : Int := 7

def EAGAIN : Int := 11

def ENOMEM : Int := 12

def EFAULT : Int := 14

def EBUSY : Int := 16

def EINVAL : Int := 22

/-! ### Page protection bits

`enum kvm_pgtable_prot` software/permission bits.  The numeric layout is
taken from the arm64 `kvm_pgtable.h` header (not part of the sources under
verification); only the distinctions between the bits matter below. -/

def KVM_PGTABLE_PROT_R : Nat := 1

def KVM_PGTABLE_PROT_W : Nat := 2

def KVM_PGTABLE_PROT_X : Nat := 4

def KVM_PGTABLE_PROT_DEVICE : Nat := 8

def KVM_PGTABLE_PROT_NORMAL_NC : Nat := 16

def KVM_PGTABLE_PROT_PXN : Nat := 32

def KVM_PGTABLE_PROT_UXN : Nat := 64

def KVM_PGTABLE_PROT_SW0 : Nat := 128

def KVM_PGTABLE_PROT_SW1 : Nat := 256

def KVM_PGTABLE_PROT_RW : Nat := 3

def KVM_PGTABLE_PROT_RWX : Nat := 7

/-- Host stage-2 default protection for memory: RWX. -/
def PKVM_HOST_MEM_PROT : Nat := KVM_PGTABLE_PROT_RWX

/-- Host stage-2 default protection for MMIO: RW. -/
def PKVM_HOST_MMIO_PROT : Nat := KVM_PGTABLE_PROT_RW

/-- Hyp stage-1 default protection for normal memory: RW. -/
def PAGE_HYP : Nat := KVM_PGTABLE_PROT_RW

/-- Hyp stage-1 default protection for device memory: RW + DEVICE. -/
def PAGE_HYP_DEVICE : Nat := KVM_PGTABLE_PROT_RW + KVM_PGTABLE_PROT_DEVICE

/-! ### Page states

`enum pkvm_page_state` (from `nvhe/memory.h`, not under `src/`): the two
shared states are encoded in the PTE software bits SW0/SW1, while
`PKVM_NOPAGE`, `PKVM_PAGE_RESTRICTED_PROT` and `PKVM_MODULE_OWNED_PAGE` are
meta-states stored only in the vmemmap `host_state` field.  Mirroring the
header, the shared states reuse the numeric values of the SW prot bits. -/

def PKVM_PAGE_OWNED : Nat := 0

def PKVM_PAGE_SHARED_OWNED : Nat := KVM_PGTABLE_PROT_SW0

def PKVM_PAGE_SHARED_BORROWED : Nat := KVM_PGTABLE_PROT_SW1

def PKVM_NOPAGE : Nat := 1

def PKVM_PAGE_RESTRICTED_PROT : Nat := 2

def PKVM_MODULE_OWNED_PAGE : Nat := 4

/-- Mask of the two software (page-state) bits in a prot value. -/
def PKVM_PAGE_STATE_PROT_MASK : Nat := KVM_PGTABLE_PROT_SW0 + KVM_PGTABLE_PROT_SW1

/-- Mask of all prot bits that are not page-state bits (bits 0..6). -/
def PKVM_PAGE_NONSTATE_PROT_MASK : Nat := 127

/-- `pkvm_mkstate(prot, state)`: install a page state in a prot value. -/
def pkvm_mkstate (prot state : Nat) : Nat :=
  Nat.lor (Nat.land prot PKVM_PAGE_NONSTATE_PROT_MASK) state

/-- `pkvm_getstate(prot)`: extract the page state of a prot value. -/
def pkvm_getstate (prot : Nat) : Nat :=
  Nat.land prot PKVM_PAGE_STATE_PROT_MASK

/-! ### Component identifiers

`enum pkvm_component_id`.  The numeric owner ids are those used for
invalid-PTE owner annotations. -/

inductive ComponentId where
  | host
  | hyp
  | ffa
  | guest
  deriving DecidableEq, Repr

/-- Numeric owner id of a component, as written into owner annotations. -/
def ComponentId.ownerId : ComponentId → Nat
  | .host => 0
  | .hyp => 1
  | .ffa => 2
  | .guest => 3

def PKVM_ID_PROTECTED : Nat := 4

def KVM_MAX_OWNER_ID : Nat := 7

/-! ### Memblock regions and `find_mem_range` -/

/-- One entry of the sorted `hyp_memory` memblock table.  `nomap` models the
`MEMBLOCK_NOMAP` flag bit. -/
structure MemblockRegion where
  base : Nat
  size : Nat
  nomap : Bool
  deriving DecidableEq, Repr

/-- `struct kvm_mem_range`.  The C field `end` is called `stop` here
(`end` is a Lean keyword). -/
structure KvmMemRange where
  start : Nat
  stop : Nat
  deriving DecidableEq, Repr

/-- Region lookup with a default, mirroring the C array access
`&hyp_memory[cur]`. -/
def regAt (mem : List MemblockRegion) (i : Nat) : MemblockRegion :=
  mem.getD i ⟨0, 0, false⟩

/-- Exclusive end address of a region. -/
def regEnd (r : MemblockRegion) : Nat := r.base + r.size

/-- The binary-search loop of `find_mem_range`, with the loop state
(`left`, `right`, the accumulated `range`) made explicit.  The first
`Nat` argument is structural-recursion fuel; it is always called with at
least `right - left`, which strictly decreases on every iteration, so the
fuel is never exhausted. -/
def findMemRangeAux (mem : List MemblockRegion) (addr : Nat) :
    Nat → Nat → Nat → KvmMemRange → Option MemblockRegion × KvmMemRange
  | 0, _, _, range => (none, range)
  | fuel + 1, left, right, range =>
    if left < right then
      let cur := (left + right) / 2
      let reg := regAt mem cur
      if addr < reg.base then
        findMemRangeAux mem addr fuel left cur { range with stop := reg.base }
      else if regEnd reg ≤ addr then
        findMemRangeAux mem addr fuel (cur + 1) right
          { range with start := regEnd reg }
      else
        (some reg, { start := reg.base, stop := regEnd reg })
    else
      (none, range)

/-- `find_mem_range(addr, range)`: binary search of the sorted memblock
list; returns the containing region (or `none`) and writes the resolved
range. -/
def find_mem_range (mem : List MemblockRegion) (addr : Nat) :
    Option MemblockRegion × KvmMemRange :=
  findMemRangeAux mem addr mem.length 0 mem.length ⟨0, ULONG_MAX⟩

/-- `addr_is_memory(phys)`. -/
def addr_is_memory (mem : List MemblockRegion) (phys : Nat) : Bool :=
  (find_mem_range mem phys).1.isSome

/-- `addr_is_allowed_memory(phys)`: memory and not `MEMBLOCK_NOMAP`. -/
def addr_is_allowed_memory (mem : List MemblockRegion) (phys : Nat) : Bool :=
  match (find_mem_range mem phys).1 with
  | some reg => !reg.nomap
  | none => false

/-- `is_in_mem_range(addr, range)`. -/
def is_in_mem_range (addr : Nat) (range : KvmMemRange) : Bool :=
  decide (range.start ≤ addr ∧ addr < range.stop)

/-- `range_is_memory(start, end)`: the whole span lies in one region. -/
def range_is_memory (mem : List MemblockRegion) (start stop : Nat) : Bool :=
  match find_mem_range mem start with
  | (none, _) => false
  | (some _, r) => is_in_mem_range (stop - 1) r

/-- A region contains an address. -/
def regContains (r : MemblockRegion) (addr : Nat) : Prop :=
  r.base ≤ addr ∧ addr < regEnd r

instance (r : MemblockRegion) (addr : Nat) : Decidable (regContains r addr) := by
  unfold regContains; infer_instance

/-- The memblock list is sorted and non-overlapping (index form). -/
def MemSorted (mem : List MemblockRegion) : Prop :=
  ∀ i, i < mem.length → ∀ j, j < mem.length → i < j →
    regEnd (regAt mem i) ≤ (regAt mem j).base

instance (mem : List MemblockRegion) : Decidable (MemSorted mem) := by
  unfold MemSorted; infer_instance

/-! ### Correctness of `find_mem_range` -/

/-- Full functional specification of `find_mem_range`: either the returned
region contains `addr` and the range is its exact bounds, or no declared
region contains `addr` and the returned range is the maximal region-free
gap around `addr` (bounded by the nearest region ends/bases, or by
`0` / `ULONG_MAX`). -/
def FindPost (mem : List MemblockRegion) (addr : Nat) :
    Option MemblockRegion × KvmMemRange → Prop
  | (some reg, r) =>
      (∃ i, i < mem.length ∧ reg = regAt mem i) ∧ regContains reg addr ∧
        r = ⟨reg.base, regEnd reg⟩
  | (none, r) =>
      (∀ i, i < mem.length → ¬ regContains (regAt mem i) addr) ∧
      (r.start = 0 ∨ ∃ i, i < mem.length ∧ r.start = regEnd (regAt mem i) ∧
        regEnd (regAt mem i) ≤ addr) ∧
      (r.stop = ULONG_MAX ∨ ∃ i, i < mem.length ∧ r.stop = (regAt mem i).base ∧
        addr < (regAt mem i).base) ∧
      (∀ i, i < mem.length → regEnd (regAt mem i) ≤ addr →
        regEnd (regAt mem i) ≤ r.start) ∧
      (∀ i, i < mem.length → addr < (regAt mem i).base →
        r.stop ≤ (regAt mem i).base) ∧
      r.start ≤ addr ∧ (addr < r.stop ∨ r.stop = ULONG_MAX)

/-! ### System state

Static configuration: the declared memory map and the immutable per-VM
metadata (protected flag, MMIO-guard flag, reserved pvmfw IPA range), plus
the architectural bounds used to quantify the invariants (number of VM
slots, IPA space size in pages). -/

structure Config where
  mem : List MemblockRegion
  nrGuests : Nat
  ipaLimit : Nat
  vmProtected : Nat → Bool
  vmMmioGuard : Nat → Bool
  vmPvmfw : Nat → Option (Nat × Nat)

/-- A host stage-2 PTE at page granularity: empty, an invalid entry
annotated with an owner id, or a valid id-mapping with a prot value. -/
inductive HostPTE where
  | zero
  | annot (owner : Nat)
  | valid (prot : Nat)
  deriving DecidableEq, Repr

/-- A guest stage-2 PTE at page granularity: empty, an invalid annotated
entry (owner tag or the MMIO-guard note), or a valid mapping of a physical
byte address with a prot value. -/
inductive GuestPTE where
  | zero
  | annot (tag : Nat)
  | valid (phys : Nat) (prot : Nat)
  deriving DecidableEq, Repr

/-- The mutable state: the vmemmap `host_state` field per pfn, the host
stage-2 table, the hyp stage-1 table (by hyp VA page = pfn under the
identity linear map), the vmemmap refcounts used by `hyp_pin_shared_mem`,
every guest's stage-2 table (VM index, IPA page), and the
`psci_mem_protect` count. -/
@[ext]
structure SysState where
  hostState : Nat → Nat
  hostPT : Nat → HostPTE
  hypPT : Nat → Option Nat
  hypRef : Nat → Nat
  guestPt : Nat → Nat → GuestPTE
  psciCount : Nat

def pfn_of (addr : Nat) : Nat := addr / PAGE_SIZE

def hyp_pfn_to_phys (pfn : Nat) : Nat := pfn * PAGE_SIZE

/-- The hyp linear map, modelled as the identity. -/
def hyp_va (phys : Nat) : Nat := phys

def hyp_virt_to_phys (va : Nat) : Nat := va

/-- Update a function on the page range `[p0, p0 + n)`. -/
def updRange {α : Type} (f : Nat → α) (p0 n : Nat) (g : Nat → α) : Nat → α :=
  fun p => if p0 ≤ p ∧ p < p0 + n then g p else f p

/-- Boolean check over the page range `[p0, p0 + n)`. -/
def allPfns (p0 n : Nat) (P : Nat → Bool) : Bool :=
  (List.range n).all fun i => P (p0 + i)

def KVM_PGTABLE_LAST_LEVEL : Nat := 3

/-- `KVM_INVALID_PTE_MMIO_NOTE` (from the pgtable header, not under
`src/`): the software annotation marking guest-declared MMIO. -/
def KVM_INVALID_PTE_MMIO_NOTE : Nat := 512

/-- `CONFIG_NVHE_EL2_DEBUG`: production configuration.  When set, the
completer-side page-table checks are not skipped for host/hyp-initiated
transitions. -/
def CONFIG_NVHE_EL2_DEBUG : Bool := false

/-! ### Page-state getters -/

def default_host_prot (is_memory : Bool) : Nat :=
  if is_memory then PKVM_HOST_MEM_PROT else PKVM_HOST_MMIO_PROT

def default_hyp_prot (mem : List MemblockRegion) (phys : Nat) : Nat :=
  if addr_is_memory mem phys then PAGE_HYP else PAGE_HYP_DEVICE

/-- `host_get_mmio_page_state`: page state of a host stage-2 PTE covering
an MMIO address. -/
def host_get_mmio_page_state : HostPTE → Nat
  | .zero => pkvm_getstate 0
  | .annot _ => PKVM_NOPAGE
  | .valid prot =>
      Nat.lor
        (if Nat.land prot KVM_PGTABLE_PROT_RWX ≠ PKVM_HOST_MMIO_PROT then
          PKVM_PAGE_RESTRICTED_PROT else 0)
        (pkvm_getstate prot)

/-- `hyp_get_page_state`: page state of a hyp stage-1 PTE. -/
def hyp_get_page_state : Option Nat → Nat
  | none => PKVM_NOPAGE
  | some prot =>
      Nat.lor
        (if Nat.land prot KVM_PGTABLE_PROT_RWX ≠ PAGE_HYP then
          PKVM_PAGE_RESTRICTED_PROT else 0)
        (pkvm_getstate prot)

/-- `guest_get_page_state`: page state of a guest stage-2 PTE. -/
def guest_get_page_state : GuestPTE → Nat
  | .zero => PKVM_NOPAGE
  | .annot _ => PKVM_NOPAGE
  | .valid _ prot =>
      Nat.lor
        (if Nat.land prot KVM_PGTABLE_PROT_RWX ≠ KVM_PGTABLE_PROT_RWX then
          PKVM_PAGE_RESTRICTED_PROT else 0)
        (pkvm_getstate prot)

def GuestPTE.physOf : GuestPTE → Nat
  | .valid ph _ => ph
  | _ => 0

def GuestPTE.protOf : GuestPTE → Nat
  | .valid _ pr => pr
  | _ => 0

def GuestPTE.isValid : GuestPTE → Bool
  | .valid _ _ => true
  | _ => false

/-! ### Page-table primitives

These model the external stage-2/stage-1 table library (`kvm_pgtable_*`,
`pkvm_create_mappings_locked`) at page granularity.  Table-node allocation
is infallible in this model (its failure/recovery policy is modelled
separately by `host_stage2_try`). -/

/-- `__host_update_page_state`: write the vmemmap state of a range. -/
def __host_update_page_state (addr size state : Nat) (s : SysState) : SysState :=
  { s with hostState :=
      updRange s.hostState (pfn_of addr) (size / PAGE_SIZE) fun _ => state }

/-- `host_stage2_idmap_locked`: id-map a range in the host stage-2 with the
given prot (via `host_stage2_try`; allocation modelled infallible). -/
def host_stage2_idmap_locked (addr size prot : Nat) (s : SysState) :
    Int × SysState :=
  (0, { s with hostPT :=
          updRange s.hostPT (pfn_of addr) (size / PAGE_SIZE) fun _ => .valid prot })

/-- `kvm_pgtable_stage2_annotate` on the host stage-2: install invalid
owner-annotated entries. -/
def host_stage2_annotate (addr size owner_id : Nat) (s : SysState) :
    Int × SysState :=
  (0, { s with hostPT :=
          updRange s.hostPT (pfn_of addr) (size / PAGE_SIZE) fun _ => .annot owner_id })

/-- `pkvm_create_mappings_locked` (hyp stage-1 map; from `mm.c`, not under
`src/`, modelled as an infallible page-granular map). -/
def pkvm_create_mappings_locked (start stop prot : Nat) (s : SysState) :
    Int × SysState :=
  (0, { s with hypPT :=
          updRange s.hypPT (pfn_of start) ((stop - start) / PAGE_SIZE) fun _ => some prot })

/-- `kvm_pgtable_hyp_unmap`: unmap a hyp stage-1 range, returning the
number of bytes actually unmapped. -/
def kvm_pgtable_hyp_unmap (addr size : Nat) (s : SysState) : Nat × SysState :=
  let p0 := pfn_of addr
  let n := size / PAGE_SIZE
  ((((List.range n).filter fun i => (s.hypPT (p0 + i)).isSome).length) * PAGE_SIZE,
    { s with hypPT := updRange s.hypPT p0 n fun _ => none })

/-- `kvm_pgtable_stage2_map` on a guest stage-2: install valid mappings of
consecutive physical pages. -/
def guest_stage2_map (vm ipa size phys prot : Nat) (s : SysState) :
    Int × SysState :=
  let p0 := pfn_of ipa
  (0, { s with guestPt := fun g =>
          if g = vm then
            updRange (s.guestPt g) p0 (size / PAGE_SIZE) fun p =>
              .valid (phys + (p - p0) * PAGE_SIZE) prot
          else s.guestPt g })

/-- `kvm_pgtable_stage2_unmap` on a guest stage-2 (also zaps annotated
invalid entries, which are refcounted). -/
def guest_stage2_unmap (vm ipa size : Nat) (s : SysState) : Int × SysState :=
  (0, { s with guestPt := fun g =>
          if g = vm then
            updRange (s.guestPt g) (pfn_of ipa) (size / PAGE_SIZE) fun _ => .zero
          else s.guestPt g })

/-- `kvm_pgtable_stage2_annotate` on a guest stage-2. -/
def guest_stage2_annotate (vm ipa size tag : Nat) (s : SysState) :
    Int × SysState :=
  (0, { s with guestPt := fun g =>
          if g = vm then
            updRange (s.guestPt g) (pfn_of ipa) (size / PAGE_SIZE) fun _ => .annot tag
          else s.guestPt g })

/-- `kvm_pgtable_get_leaf` on a guest stage-2 (modelled total; every leaf
sits at the last level because the guest force-page policy always forces
page mappings). -/
def guest_get_leaf (s : SysState) (vm ipa : Nat) : GuestPTE :=
  s.guestPt vm (pfn_of ipa)

def hyp_page_count (s : SysState) (va : Nat) : Nat := s.hypRef (pfn_of va)

/-- `psci_mem_protect_inc` (psci-relay, not under `src/`): bump the
protected-range count. -/
def psci_mem_protect_inc (n : Nat) (s : SysState) : SysState :=
  { s with psciCount := s.psciCount + n }

/-- `psci_mem_protect_dec` (psci-relay, not under `src/`). -/
def psci_mem_protect_dec (n : Nat) (s : SysState) : SysState :=
  { s with psciCount := s.psciCount - n }

/-- `hyp_poison_page`: zero + CMO of a physical page; page contents are
outside the model, so this is the identity on the modelled state. -/
def hyp_poison_page (_phys : Nat) (s : SysState) : SysState := s

/-! ### Host state checks and owner updates -/

/-- `___host_check_page_state_range`: with the containing region already
resolved.  For MMIO the state is read from the page table, for memory from
the vmemmap; `MEMBLOCK_NOMAP` regions always refuse. -/
def ___host_check_page_state_range (addr size state : Nat)
    (reg : Option MemblockRegion) (s : SysState) : Int :=
  match reg with
  | none =>
      if allPfns (pfn_of addr) (size / PAGE_SIZE)
          (fun p => host_get_mmio_page_state (s.hostPT p) == state) then 0
      else -EPERM
  | some r =>
      if r.nomap then -EPERM
      else if allPfns (pfn_of addr) (size / PAGE_SIZE)
          (fun p => s.hostState p == state) then 0
      else -EPERM

/-- `__host_check_page_state_range`: resolve the range (refusing spans that
mix memory and MMIO) and check every page's state. -/
def __host_check_page_state_range (mem : List MemblockRegion)
    (addr size state : Nat) (s : SysState) : Int :=
  let fr := find_mem_range mem addr
  if ¬ is_in_mem_range (addr + size - 1) fr.2 then -EINVAL
  else ___host_check_page_state_range addr size state fr.1 s

/-- `__host_set_page_state_range`: restore the identity mapping first if
the range was unmapped, then update the vmemmap state. -/
def __host_set_page_state_range (addr size state : Nat) (s : SysState) :
    Int × SysState :=
  let s1 :=
    if Nat.land (s.hostState (pfn_of addr)) PKVM_NOPAGE ≠ 0 then
      (host_stage2_idmap_locked addr size PKVM_HOST_MEM_PROT s).2
    else s
  (0, __host_update_page_state addr size state s1)

/-- `__host_stage2_set_owner_locked`: record a new owner for a host range,
as an identity mapping (host owner) or an owner annotation, then update the
vmemmap tracking when the range is memory. -/
def __host_stage2_set_owner_locked (mem : List MemblockRegion)
    (addr size owner_id : Nat) (is_memory : Bool) (nopage_state : Nat)
    (s : SysState) : Int × SysState :=
  if owner_id > KVM_MAX_OWNER_ID then (-EINVAL, s)
  else
    let s1 :=
      if owner_id = ComponentId.host.ownerId then
        (host_stage2_idmap_locked addr size
          (default_host_prot (addr_is_memory mem addr)) s).2
      else
        (host_stage2_annotate addr size owner_id s).2
    if ¬ is_memory then (0, s1)
    else if owner_id = ComponentId.host.ownerId then
      (0, __host_update_page_state addr size PKVM_PAGE_OWNED s1)
    else
      (0, __host_update_page_state addr size
        (Nat.lor PKVM_NOPAGE nopage_state) s1)

def host_stage2_set_owner_locked (mem : List MemblockRegion)
    (addr size owner_id : Nat) (s : SysState) : Int × SysState :=
  __host_stage2_set_owner_locked mem addr size owner_id
    (addr_is_memory mem addr) 0 s

/-! ### Hyp and guest state checks -/

def __hyp_check_page_state_range (addr size state : Nat) (s : SysState) : Int :=
  if allPfns (pfn_of addr) (size / PAGE_SIZE)
      (fun p => hyp_get_page_state (s.hypPT p) == state) then 0
  else -EPERM

def __guest_check_page_state_range (vm addr size state : Nat) (s : SysState) :
    Int :=
  if allPfns (pfn_of addr) (size / PAGE_SIZE)
      (fun p => guest_get_page_state (s.guestPt vm p) == state) then 0
  else -EPERM

/-! ### The mem-transition record

`struct pkvm_mem_transition`, with the C unions flattened: the
`initiator.host.completer_addr` / `initiator.hyp.completer_addr` union slot
becomes one field, and the `hyp_vcpu` pointers become the indices of the
vCPU's VM (per-vCPU state other than the VM is not needed by the modelled
paths). -/
structure PkvmMemTransition where
  nr_pages : Nat
  initiator_id : ComponentId
  initiator_addr : Nat
  initiator_completer_addr : Nat
  initiator_guest : Nat
  completer_id : ComponentId
  completer_prot : Nat
  completer_guest : Nat
  completer_guest_phys : Nat
  deriving DecidableEq, Repr

def txSize (tx : PkvmMemTransition) : Nat := tx.nr_pages * PAGE_SIZE

/-! ### Host transition phases -/

def host_request_owned_transition (mem : List MemblockRegion)
    (tx : PkvmMemTransition) (s : SysState) : Int × Nat :=
  (__host_check_page_state_range mem tx.initiator_addr (txSize tx)
      PKVM_PAGE_OWNED s,
    tx.initiator_completer_addr)

def host_request_unshare (mem : List MemblockRegion)
    (tx : PkvmMemTransition) (s : SysState) : Int × Nat :=
  (__host_check_page_state_range mem tx.initiator_addr (txSize tx)
      PKVM_PAGE_SHARED_OWNED s,
    tx.initiator_completer_addr)

def host_initiate_share (tx : PkvmMemTransition) (s : SysState) :
    Int × Nat × SysState :=
  let r := __host_set_page_state_range tx.initiator_addr (txSize tx)
    PKVM_PAGE_SHARED_OWNED s
  (r.1, tx.initiator_completer_addr, r.2)

def host_initiate_unshare (tx : PkvmMemTransition) (s : SysState) :
    Int × Nat × SysState :=
  let r := __host_set_page_state_range tx.initiator_addr (txSize tx)
    PKVM_PAGE_OWNED s
  (r.1, tx.initiator_completer_addr, r.2)

def host_initiate_donation (mem : List MemblockRegion)
    (tx : PkvmMemTransition) (s : SysState) : Int × Nat × SysState :=
  let r := host_stage2_set_owner_locked mem tx.initiator_addr (txSize tx)
    tx.completer_id.ownerId s
  (r.1, tx.initiator_completer_addr, r.2)

def __host_ack_skip_pgtable_check (tx : PkvmMemTransition) : Bool :=
  !(CONFIG_NVHE_EL2_DEBUG || tx.initiator_id ≠ ComponentId.hyp)

def __host_ack_transition (mem : List MemblockRegion) (addr : Nat)
    (tx : PkvmMemTransition) (state : Nat) (s : SysState) : Int :=
  if __host_ack_skip_pgtable_check tx then 0
  else __host_check_page_state_range mem addr (txSize tx) state s

def host_ack_share (mem : List MemblockRegion) (addr : Nat)
    (tx : PkvmMemTransition) (perms : Nat) (s : SysState) : Int :=
  if perms ≠ PKVM_HOST_MEM_PROT then -EPERM
  else __host_ack_transition mem addr tx PKVM_NOPAGE s

def host_ack_donation (mem : List MemblockRegion) (addr : Nat)
    (tx : PkvmMemTransition) (s : SysState) : Int :=
  __host_ack_transition mem addr tx PKVM_NOPAGE s

def host_ack_unshare (mem : List MemblockRegion) (addr : Nat)
    (tx : PkvmMemTransition) (s : SysState) : Int :=
  __host_check_page_state_range mem addr (txSize tx)
    PKVM_PAGE_SHARED_BORROWED s

def host_complete_share (addr : Nat) (tx : PkvmMemTransition) (_perms : Nat)
    (s : SysState) : Int × SysState :=
  let r := __host_set_page_state_range addr (txSize tx)
    PKVM_PAGE_SHARED_BORROWED s
  if r.1 ≠ 0 then r
  else if tx.initiator_id = ComponentId.guest then
    (0, psci_mem_protect_dec tx.nr_pages r.2)
  else (0, r.2)

def host_complete_unshare (mem : List MemblockRegion) (addr : Nat)
    (tx : PkvmMemTransition) (s : SysState) : Int × SysState :=
  let s1 :=
    if tx.initiator_id = ComponentId.guest then psci_mem_protect_inc tx.nr_pages s
    else s
  host_stage2_set_owner_locked mem addr (txSize tx) tx.initiator_id.ownerId s1

def host_complete_donation (mem : List MemblockRegion) (addr : Nat)
    (tx : PkvmMemTransition) (s : SysState) : Int × SysState :=
  host_stage2_set_owner_locked mem addr (txSize tx) tx.completer_id.ownerId s

/-! ### Hyp transition phases -/

def hyp_request_donation (tx : PkvmMemTransition) (s : SysState) : Int × Nat :=
  (__hyp_check_page_state_range tx.initiator_addr (txSize tx)
      PKVM_PAGE_OWNED s,
    tx.initiator_completer_addr)

def hyp_initiate_donation (tx : PkvmMemTransition) (s : SysState) :
    Int × Nat × SysState :=
  let r := kvm_pgtable_hyp_unmap tx.initiator_addr (txSize tx) s
  (if r.1 ≠ txSize tx then -EFAULT else 0, tx.initiator_completer_addr, r.2)

def __hyp_ack_skip_pgtable_check (tx : PkvmMemTransition) : Bool :=
  !(CONFIG_NVHE_EL2_DEBUG || tx.initiator_id ≠ ComponentId.host)

def hyp_ack_share (mem : List MemblockRegion) (addr : Nat)
    (tx : PkvmMemTransition) (perms : Nat) (s : SysState) : Int :=
  let phys := hyp_virt_to_phys addr
  let prot := default_hyp_prot mem phys
  if ¬ addr_is_memory mem phys ∨ perms ≠ prot then -EPERM
  else if __hyp_ack_skip_pgtable_check tx then 0
  else __hyp_check_page_state_range addr (txSize tx) PKVM_NOPAGE s

def hyp_ack_unshare (addr : Nat) (tx : PkvmMemTransition) (s : SysState) : Int :=
  if tx.initiator_id = ComponentId.host ∧ hyp_page_count s addr ≠ 0 then -EBUSY
  else __hyp_check_page_state_range addr (txSize tx)
    PKVM_PAGE_SHARED_BORROWED s

def hyp_ack_donation (addr : Nat) (tx : PkvmMemTransition) (s : SysState) : Int :=
  if __hyp_ack_skip_pgtable_check tx then 0
  else __hyp_check_page_state_range addr (txSize tx) PKVM_NOPAGE s

def hyp_complete_share (addr : Nat) (tx : PkvmMemTransition) (perms : Nat)
    (s : SysState) : Int × SysState :=
  pkvm_create_mappings_locked addr (addr + txSize tx)
    (pkvm_mkstate perms PKVM_PAGE_SHARED_BORROWED) s

def hyp_complete_unshare (addr : Nat) (tx : PkvmMemTransition) (s : SysState) :
    Int × SysState :=
  let r := kvm_pgtable_hyp_unmap addr (txSize tx) s
  (if r.1 ≠ txSize tx then -EFAULT else 0, r.2)

def hyp_complete_donation (addr : Nat) (tx : PkvmMemTransition) (s : SysState) :
    Int × SysState :=
  pkvm_create_mappings_locked addr (addr + txSize tx)
    (pkvm_mkstate tx.completer_prot PKVM_PAGE_OWNED) s

/-! ### Guest transition phases -/

def guest_ack_share (mem : List MemblockRegion) (addr : Nat)
    (tx : PkvmMemTransition) (perms : Nat) (s : SysState) : Int :=
  if ¬ addr_is_memory mem tx.completer_guest_phys ∨
      Nat.land perms 504 ≠ 0 then -EPERM
  else __guest_check_page_state_range tx.completer_guest addr (txSize tx)
    PKVM_NOPAGE s

def guest_ack_donation (mem : List MemblockRegion) (addr : Nat)
    (tx : PkvmMemTransition) (s : SysState) : Int :=
  if ¬ addr_is_memory mem tx.completer_guest_phys then -EPERM
  else __guest_check_page_state_range tx.completer_guest addr (txSize tx)
    PKVM_NOPAGE s

def guest_complete_share (addr : Nat) (tx : PkvmMemTransition) (perms : Nat)
    (s : SysState) : Int × SysState :=
  guest_stage2_map tx.completer_guest addr (txSize tx) tx.completer_guest_phys
    (pkvm_mkstate perms PKVM_PAGE_SHARED_BORROWED) s

/-- `pkvm_ipa_range_has_pvmfw` (from `pkvm.c`, not under `src/`).
Modelled from the spec: tests whether the IPA range overlaps the region
previously designated to hold the protected-firmware-VM boot data. -/
def pkvm_ipa_range_has_pvmfw (cfg : Config) (vm ipa_start ipa_stop : Nat) :
    Bool :=
  match cfg.vmPvmfw vm with
  | none => false
  | some (base, sz) => decide (ipa_start < base + sz ∧ base < ipa_stop)

/-- `pkvm_hyp_vcpu_is_protected` (from `pkvm.h`, not under `src/`).
Modelled from the spec: whether the vCPU belongs to a protected VM. -/
def pkvm_hyp_vcpu_is_protected (cfg : Config) (vm : Nat) : Bool :=
  cfg.vmProtected vm

/-- `pkvm_load_pvmfw_pages` (from `pkvm.c`, not under `src/`).  Modelled
from the spec: the one-shot copy of the firmware image into the donated
pages; page contents are outside the model, so it succeeds without a state
change. -/
def pkvm_load_pvmfw_pages (_vm _ipa _phys _size : Nat) (s : SysState) :
    Int × SysState :=
  (0, s)

def guest_complete_donation (cfg : Config) (addr : Nat)
    (tx : PkvmMemTransition) (s : SysState) : Int × SysState :=
  let prot := pkvm_mkstate KVM_PGTABLE_PROT_RWX PKVM_PAGE_OWNED
  let vm := tx.completer_guest
  let phys := tx.completer_guest_phys
  let s1 :=
    if tx.initiator_id = ComponentId.host then psci_mem_protect_inc tx.nr_pages s
    else s
  if pkvm_ipa_range_has_pvmfw cfg vm addr (addr + txSize tx) then
    if !pkvm_hyp_vcpu_is_protected cfg vm then
      -- WARN_ON fires; undo the psci accounting and fail
      (-EPERM,
        if tx.initiator_id = ComponentId.host then
          psci_mem_protect_dec tx.nr_pages s1
        else s1)
    else
      -- WARN_ON(initiator != host) is only a warning
      let r := pkvm_load_pvmfw_pages vm addr phys (txSize tx) s1
      if r.1 ≠ 0 then
        (r.1,
          if tx.initiator_id = ComponentId.host then
            psci_mem_protect_dec tx.nr_pages r.2
          else r.2)
      else guest_stage2_map vm addr (txSize tx) phys prot r.2
  else guest_stage2_map vm addr (txSize tx) phys prot s1

def __guest_get_completer_addr (tx : PkvmMemTransition) (phys : Nat) :
    Int × Nat :=
  match tx.completer_id with
  | .host => (0, phys)
  | .hyp => (0, hyp_va phys)
  | _ => (-EINVAL, 0)

def __guest_request_page_transition (mem : List MemblockRegion)
    (tx : PkvmMemTransition) (desired : Nat) (s : SysState) : Int × Nat :=
  if tx.nr_pages ≠ 1 then (-E2BIG, 0)
  else
    let pte := guest_get_leaf s tx.initiator_guest tx.initiator_addr
    let level := KVM_PGTABLE_LAST_LEVEL
    let state := guest_get_page_state pte
    if state = PKVM_NOPAGE then (-EFAULT, 0)
    else if state ≠ desired then (-EPERM, 0)
    else if level ≠ KVM_PGTABLE_LAST_LEVEL then (-EINVAL, 0)
    else
      let phys := pte.physOf
      if ¬ addr_is_allowed_memory mem phys then (-EINVAL, 0)
      else __guest_get_completer_addr tx phys

def guest_request_share (mem : List MemblockRegion) (tx : PkvmMemTransition)
    (s : SysState) : Int × Nat :=
  __guest_request_page_transition mem tx PKVM_PAGE_OWNED s

def guest_request_unshare (mem : List MemblockRegion) (tx : PkvmMemTransition)
    (s : SysState) : Int × Nat :=
  __guest_request_page_transition mem tx PKVM_PAGE_SHARED_OWNED s

def __guest_initiate_page_transition (tx : PkvmMemTransition) (state : Nat)
    (s : SysState) : Int × Nat × SysState :=
  let pte := guest_get_leaf s tx.initiator_guest tx.initiator_addr
  let phys := pte.physOf
  let prot := pkvm_mkstate pte.protOf state
  let r := guest_stage2_map tx.initiator_guest tx.initiator_addr (txSize tx)
    phys prot s
  let ca := __guest_get_completer_addr tx phys
  (ca.1, ca.2, r.2)

def guest_initiate_share (tx : PkvmMemTransition) (s : SysState) :
    Int × Nat × SysState :=
  __guest_initiate_page_transition tx PKVM_PAGE_SHARED_OWNED s

def guest_initiate_unshare (tx : PkvmMemTransition) (s : SysState) :
    Int × Nat × SysState :=
  __guest_initiate_page_transition tx PKVM_PAGE_OWNED s

/-! ### The three protocols: check phase, commit phase, entry -/

def check_share (cfg : Config) (tx : PkvmMemTransition) (s : SysState) : Int :=
  let req : Int × Nat :=
    match tx.initiator_id with
    | .host => host_request_owned_transition cfg.mem tx s
    | .guest => guest_request_share cfg.mem tx s
    | _ => (-EINVAL, 0)
  if req.1 ≠ 0 then req.1
  else
    match tx.completer_id with
    | .host => host_ack_share cfg.mem req.2 tx tx.completer_prot s
    | .hyp => hyp_ack_share cfg.mem req.2 tx tx.completer_prot s
    | .ffa => 0
    | .guest => guest_ack_share cfg.mem req.2 tx tx.completer_prot s

def __do_share (_cfg : Config) (tx : PkvmMemTransition) (s : SysState) :
    Int × SysState :=
  let ini : Int × Nat × SysState :=
    match tx.initiator_id with
    | .host => host_initiate_share tx s
    | .guest => guest_initiate_share tx s
    | _ => (-EINVAL, 0, s)
  if ini.1 ≠ 0 then (ini.1, ini.2.2)
  else
    match tx.completer_id with
    | .host => host_complete_share ini.2.1 tx tx.completer_prot ini.2.2
    | .hyp => hyp_complete_share ini.2.1 tx tx.completer_prot ini.2.2
    | .ffa => (0, ini.2.2)
    | .guest => guest_complete_share ini.2.1 tx tx.completer_prot ini.2.2

/-- `do_share`: two-phase share.  A commit-phase failure is returned after
a kernel warning (`WARN_ON`). -/
def do_share (cfg : Config) (tx : PkvmMemTransition) (s : SysState) :
    Int × SysState :=
  let r := check_share cfg tx s
  if r ≠ 0 then (r, s)
  else __do_share cfg tx s

def check_unshare (cfg : Config) (tx : PkvmMemTransition) (s : SysState) : Int :=
  let req : Int × Nat :=
    match tx.initiator_id with
    | .host => host_request_unshare cfg.mem tx s
    | .guest => guest_request_unshare cfg.mem tx s
    | _ => (-EINVAL, 0)
  if req.1 ≠ 0 then req.1
  else
    match tx.completer_id with
    | .host => host_ack_unshare cfg.mem req.2 tx s
    | .hyp => hyp_ack_unshare req.2 tx s
    | .ffa => 0
    | _ => -EINVAL

def __do_unshare (cfg : Config) (tx : PkvmMemTransition) (s : SysState) :
    Int × SysState :=
  let ini : Int × Nat × SysState :=
    match tx.initiator_id with
    | .host => host_initiate_unshare tx s
    | .guest => guest_initiate_unshare tx s
    | _ => (-EINVAL, 0, s)
  if ini.1 ≠ 0 then (ini.1, ini.2.2)
  else
    match tx.completer_id with
    | .host => host_complete_unshare cfg.mem ini.2.1 tx ini.2.2
    | .hyp => hyp_complete_unshare ini.2.1 tx ini.2.2
    | .ffa => (0, ini.2.2)
    | _ => (-EINVAL, ini.2.2)

/-- `do_unshare`: two-phase unshare. -/
def do_unshare (cfg : Config) (tx : PkvmMemTransition) (s : SysState) :
    Int × SysState :=
  let r := check_unshare cfg tx s
  if r ≠ 0 then (r, s)
  else __do_unshare cfg tx s

def check_donation (cfg : Config) (tx : PkvmMemTransition) (s : SysState) :
    Int :=
  let req : Int × Nat :=
    match tx.initiator_id with
    | .host => host_request_owned_transition cfg.mem tx s
    | .hyp => hyp_request_donation tx s
    | _ => (-EINVAL, 0)
  if req.1 ≠ 0 then req.1
  else
    match tx.completer_id with
    | .host => host_ack_donation cfg.mem req.2 tx s
    | .hyp => hyp_ack_donation req.2 tx s
    | .guest => guest_ack_donation cfg.mem req.2 tx s
    | _ => -EINVAL

def __do_donate (cfg : Config) (tx : PkvmMemTransition) (s : SysState) :
    Int × SysState :=
  let ini : Int × Nat × SysState :=
    match tx.initiator_id with
    | .host => host_initiate_donation cfg.mem tx s
    | .hyp => hyp_initiate_donation tx s
    | _ => (-EINVAL, 0, s)
  if ini.1 ≠ 0 then (ini.1, ini.2.2)
  else
    match tx.completer_id with
    | .host => host_complete_donation cfg.mem ini.2.1 tx ini.2.2
    | .hyp => hyp_complete_donation ini.2.1 tx ini.2.2
    | .guest => guest_complete_donation cfg ini.2.1 tx ini.2.2
    | _ => (-EINVAL, ini.2.2)

/-- `do_donate`: two-phase donate. -/
def do_donate (cfg : Config) (tx : PkvmMemTransition) (s : SysState) :
    Int × SysState :=
  let r := check_donation cfg tx s
  if r ≠ 0 then (r, s)
  else __do_donate cfg tx s

/-! ### Hypercall entry points -/

/-- The transition built by `__pkvm_host_share_hyp` / `__pkvm_host_unshare_hyp`.
Unused union slots of the C struct are zero. -/
def host_hyp_tx (mem : List MemblockRegion) (pfn : Nat) : PkvmMemTransition :=
  let host_addr := hyp_pfn_to_phys pfn
  { nr_pages := 1
    initiator_id := .host
    initiator_addr := host_addr
    initiator_completer_addr := hyp_va host_addr
    initiator_guest := 0
    completer_id := .hyp
    completer_prot := default_hyp_prot mem host_addr
    completer_guest := 0
    completer_guest_phys := 0 }

def __pkvm_host_share_hyp (cfg : Config) (pfn : Nat) (s : SysState) :
    Int × SysState :=
  do_share cfg (host_hyp_tx cfg.mem pfn) s

def __pkvm_host_unshare_hyp (cfg : Config) (pfn : Nat) (s : SysState) :
    Int × SysState :=
  do_unshare cfg (host_hyp_tx cfg.mem pfn) s

/-- The transition built by `__pkvm_guest_share_host` /
`__pkvm_guest_unshare_host`. -/
def guest_host_tx (vm ipa : Nat) : PkvmMemTransition :=
  { nr_pages := 1
    initiator_id := .guest
    initiator_addr := ipa
    initiator_completer_addr := 0
    initiator_guest := vm
    completer_id := .host
    completer_prot := PKVM_HOST_MEM_PROT
    completer_guest := 0
    completer_guest_phys := 0 }

def __pkvm_guest_share_host (cfg : Config) (vm ipa : Nat) (s : SysState) :
    Int × SysState :=
  do_share cfg (guest_host_tx vm ipa) s

def __pkvm_guest_unshare_host (cfg : Config) (vm ipa : Nat) (s : SysState) :
    Int × SysState :=
  do_unshare cfg (guest_host_tx vm ipa) s

/-- The transition built by `__pkvm_host_share_ffa` /
`__pkvm_host_unshare_ffa`. -/
def host_ffa_tx (pfn nr_pages : Nat) : PkvmMemTransition :=
  { nr_pages := nr_pages
    initiator_id := .host
    initiator_addr := hyp_pfn_to_phys pfn
    initiator_completer_addr := 0
    initiator_guest := 0
    completer_id := .ffa
    completer_prot := 0
    completer_guest := 0
    completer_guest_phys := 0 }

def __pkvm_host_share_ffa (cfg : Config) (pfn nr_pages : Nat) (s : SysState) :
    Int × SysState :=
  do_share cfg (host_ffa_tx pfn nr_pages) s

def __pkvm_host_unshare_ffa (cfg : Config) (pfn nr_pages : Nat) (s : SysState) :
    Int × SysState :=
  do_unshare cfg (host_ffa_tx pfn nr_pages) s

/-- The transition built by `__pkvm_host_share_guest`. -/
def host_guest_share_tx (pfn gfn vm prot : Nat) : PkvmMemTransition :=
  let host_addr := hyp_pfn_to_phys pfn
  { nr_pages := 1
    initiator_id := .host
    initiator_addr := host_addr
    initiator_completer_addr := hyp_pfn_to_phys gfn
    initiator_guest := 0
    completer_id := .guest
    completer_prot := prot
    completer_guest := vm
    completer_guest_phys := host_addr }

def __pkvm_host_share_guest (cfg : Config) (pfn gfn vm prot : Nat)
    (s : SysState) : Int × SysState :=
  do_share cfg (host_guest_share_tx pfn gfn vm prot) s

/-- The transition built by `__pkvm_host_donate_hyp_locked`. -/
def host_donate_hyp_tx (pfn nr_pages prot : Nat) : PkvmMemTransition :=
  let host_addr := hyp_pfn_to_phys pfn
  { nr_pages := nr_pages
    initiator_id := .host
    initiator_addr := host_addr
    initiator_completer_addr := hyp_va host_addr
    initiator_guest := 0
    completer_id := .hyp
    completer_prot := prot
    completer_guest := 0
    completer_guest_phys := 0 }

def __pkvm_host_donate_hyp_locked (cfg : Config) (pfn nr_pages prot : Nat)
    (s : SysState) : Int × SysState :=
  do_donate cfg (host_donate_hyp_tx pfn nr_pages prot) s

/-- `___pkvm_host_donate_hyp_prot`, "the swiss knife of memory donation". -/
def ___pkvm_host_donate_hyp_prot (cfg : Config) (pfn nr_pages : Nat)
    (accept_mmio : Bool) (prot : Nat) (s : SysState) : Int × SysState :=
  let start := hyp_pfn_to_phys pfn
  let stop := start + nr_pages * PAGE_SIZE
  if ¬ accept_mmio ∧ ¬ range_is_memory cfg.mem start stop then (-EPERM, s)
  else __pkvm_host_donate_hyp_locked cfg pfn nr_pages prot s

def ___pkvm_host_donate_hyp (cfg : Config) (pfn nr_pages : Nat)
    (accept_mmio : Bool) (s : SysState) : Int × SysState :=
  ___pkvm_host_donate_hyp_prot cfg pfn nr_pages accept_mmio
    (default_hyp_prot cfg.mem (hyp_pfn_to_phys pfn)) s

def __pkvm_host_donate_hyp (cfg : Config) (pfn nr_pages : Nat) (s : SysState) :
    Int × SysState :=
  ___pkvm_host_donate_hyp cfg pfn nr_pages false s

/-- The transition built by `__pkvm_hyp_donate_host`. -/
def hyp_host_donate_tx (pfn nr_pages : Nat) : PkvmMemTransition :=
  let host_addr := hyp_pfn_to_phys pfn
  { nr_pages := nr_pages
    initiator_id := .hyp
    initiator_addr := hyp_va host_addr
    initiator_completer_addr := host_addr
    initiator_guest := 0
    completer_id := .host
    completer_prot := 0
    completer_guest := 0
    completer_guest_phys := 0 }

def __pkvm_hyp_donate_host (cfg : Config) (pfn nr_pages : Nat) (s : SysState) :
    Int × SysState :=
  do_donate cfg (hyp_host_donate_tx pfn nr_pages) s

/-- The transition built by `__pkvm_host_donate_guest`. -/
def host_guest_donate_tx (pfn gfn vm : Nat) : PkvmMemTransition :=
  let host_addr := hyp_pfn_to_phys pfn
  { nr_pages := 1
    initiator_id := .host
    initiator_addr := host_addr
    initiator_completer_addr := hyp_pfn_to_phys gfn
    initiator_guest := 0
    completer_id := .guest
    completer_prot := 0
    completer_guest := vm
    completer_guest_phys := host_addr }

def __pkvm_host_donate_guest (cfg : Config) (pfn gfn vm : Nat) (s : SysState) :
    Int × SysState :=
  do_donate cfg (host_guest_donate_tx pfn gfn vm) s

/-! ### Host-unshare-guest, relinquish and reclaim paths -/

def PMD_SIZE : Nat := 2097152

/-- `ARM64_HW_PGTABLE_LEVEL_SHIFT`-derived granule size of a level. -/
def kvm_granule_size (level : Nat) : Nat :=
  2 ^ ((3 - level) * 9 + PAGE_SHIFT)

/-- `guest_get_valid_pte`: fetch a valid leaf of the expected order.
Returns (ret, pte, phys). -/
def guest_get_valid_pte (s : SysState) (vm ipa order : Nat) :
    Int × GuestPTE × Nat :=
  let size := PAGE_SIZE * 2 ^ order
  if order ≠ 0 ∧ size ≠ PMD_SIZE then (-EINVAL, .zero, 0)
  else
    let pte := guest_get_leaf s vm ipa
    if kvm_granule_size KVM_PGTABLE_LAST_LEVEL ≠ size then (-E2BIG, pte, 0)
    else if ¬ pte.isValid then (-ENOENT, pte, 0)
    else (0, pte, pte.physOf)

/-- Mask clearing `PKVM_PAGE_RESTRICTED_PROT` from a page state (the
states live in bits 0..8). -/
def NOT_RESTRICTED_MASK : Nat := 509

/-- `__check_host_unshare_guest`: the guest leaf must be a shared borrow
and the host side must be shared-owned.  Returns (ret, phys). -/
def __check_host_unshare_guest (cfg : Config) (vm ipa : Nat) (s : SysState) :
    Int × Nat :=
  let r := guest_get_valid_pte s vm ipa 0
  if r.1 ≠ 0 then (r.1, 0)
  else
    let state := Nat.land (guest_get_page_state r.2.1) NOT_RESTRICTED_MASK
    if state ≠ PKVM_PAGE_SHARED_BORROWED then (-EPERM, 0)
    else
      (__host_check_page_state_range cfg.mem r.2.2 PAGE_SIZE
        PKVM_PAGE_SHARED_OWNED s, r.2.2)

def __pkvm_host_unshare_guest (cfg : Config) (gfn vm : Nat) (s : SysState) :
    Int × SysState :=
  let ipa := hyp_pfn_to_phys gfn
  let c := __check_host_unshare_guest cfg vm ipa s
  if c.1 ≠ 0 then (c.1, s)
  else
    let s1 := (guest_stage2_unmap vm ipa PAGE_SIZE s).2
    (0, (__host_set_page_state_range c.2 PAGE_SIZE PKVM_PAGE_OWNED s1).2)

/-- `__pkvm_guest_relinquish_to_host`: walk the guest leaf at `ipa`, poison
an owned page, and return it to the host.  Returns (ret, pa, state).
`relinquish_walker` compares `pkvm_getstate(kvm_pgtable_stage2_pte_prot(pte))`
— the bare SW-bit state of the PTE's prot, without the
`PKVM_PAGE_RESTRICTED_PROT` annotation that `guest_get_page_state` adds for
reduced permissions. -/
def __pkvm_guest_relinquish_to_host (cfg : Config) (vm ipa : Nat)
    (s : SysState) : Int × Nat × SysState :=
  let expected_state :=
    if pkvm_hyp_vcpu_is_protected cfg vm then PKVM_PAGE_OWNED
    else PKVM_PAGE_SHARED_BORROWED
  let pte := s.guestPt vm (pfn_of ipa)
  -- the walker skips invalid leaves, leaving data.pa = 0
  if ¬ pte.isValid then (0, 0, s)
  else
    let state := pkvm_getstate pte.protOf
    if state ≠ expected_state then (-EPERM, 0, s)
    else
      let phys := pte.physOf
      let s1 :=
        if state = PKVM_PAGE_OWNED then
          psci_mem_protect_dec 1 (hyp_poison_page phys s)
        else s
      -- zap the PTE and return ownership iff a page was found (pa != 0)
      if phys ≠ 0 then
        let s2 := (host_stage2_set_owner_locked cfg.mem phys PAGE_SIZE
          ComponentId.host.ownerId s1).2
        (0, phys, (guest_stage2_unmap vm ipa PAGE_SIZE s2).2)
      else (0, phys, s1)

/-- `__pkvm_host_reclaim_page`: tear one page out of a (dying) guest and
hand it back to the host.  The `BUG_ON(1)` default branch of the state
switch is modelled as stopping before the owner update (it is unreachable
from invariant states). -/
def __pkvm_host_reclaim_page (cfg : Config) (vm pfn ipa : Nat) (s : SysState) :
    Int × SysState :=
  let phys := hyp_pfn_to_phys pfn
  let pte := s.guestPt vm (pfn_of ipa)
  if ¬ pte.isValid then (-EINVAL, s)
  else if phys ≠ pte.physOf then (-EPERM, s)
  else
    let s1 := (guest_stage2_unmap vm ipa PAGE_SIZE s).2
    let st := guest_get_page_state pte
    if st = PKVM_PAGE_OWNED then
      let s2 := psci_mem_protect_dec 1 (hyp_poison_page phys s1)
      (0, (host_stage2_set_owner_locked cfg.mem phys PAGE_SIZE
        ComponentId.host.ownerId s2).2)
    else if st = PKVM_PAGE_SHARED_BORROWED ∨ st = PKVM_PAGE_SHARED_OWNED then
      (0, (host_stage2_set_owner_locked cfg.mem phys PAGE_SIZE
        ComponentId.host.ownerId s1).2)
    else (0, s1)

/-! ### MMIO guard -/

/-- `__check_ioguard_page`: the leaf must be a page-size mapping carrying
the MMIO-guard annotation. -/
def __check_ioguard_page (_cfg : Config) (vm ipa : Nat) (s : SysState) : Bool :=
  let pte := s.guestPt vm (pfn_of ipa)
  kvm_granule_size KVM_PGTABLE_LAST_LEVEL == PAGE_SIZE &&
    pte == .annot KVM_INVALID_PTE_MMIO_NOTE

def __pkvm_install_ioguard_page (cfg : Config) (vm ipa : Nat) (s : SysState) :
    Int × SysState :=
  if ¬ cfg.vmMmioGuard vm then (-EINVAL, s)
  else if ipa % PAGE_SIZE ≠ 0 then (-EINVAL, s)
  else
    let pte := s.guestPt vm (pfn_of ipa)
    if pte ≠ .zero ∧ kvm_granule_size KVM_PGTABLE_LAST_LEVEL = PAGE_SIZE then
      (if pte ≠ .annot KVM_INVALID_PTE_MMIO_NOTE then -EBUSY else 0, s)
    else
      guest_stage2_annotate vm ipa PAGE_SIZE KVM_INVALID_PTE_MMIO_NOTE s

def __pkvm_remove_ioguard_page (cfg : Config) (vm ipa : Nat) (s : SysState) :
    Int × SysState :=
  if ¬ cfg.vmMmioGuard vm then (-EINVAL, s)
  else if __check_ioguard_page cfg vm ipa s then
    (0, (guest_stage2_unmap vm ((ipa / PAGE_SIZE) * PAGE_SIZE) PAGE_SIZE s).2)
  else (0, s)

/-! ### Pinning shared memory -/

def hyp_pin_shared_mem (cfg : Config) (vfrom vto : Nat) (s : SysState) :
    Int × SysState :=
  let start := (vfrom / PAGE_SIZE) * PAGE_SIZE
  let stop := ((vto + PAGE_SIZE - 1) / PAGE_SIZE) * PAGE_SIZE
  let size := stop - start
  let r1 := __host_check_page_state_range cfg.mem (hyp_virt_to_phys start) size
    PKVM_PAGE_SHARED_OWNED s
  if r1 ≠ 0 then (r1, s)
  else
    let r2 := __hyp_check_page_state_range start size
      PKVM_PAGE_SHARED_BORROWED s
    if r2 ≠ 0 then (r2, s)
    else
      let newRef := updRange s.hypRef (pfn_of start) (size / PAGE_SIZE) fun p => s.hypRef p + 1
      (0, { s with hypRef := newRef })

def hyp_unpin_shared_mem (vfrom vto : Nat) (s : SysState) : SysState :=
  let start := (vfrom / PAGE_SIZE) * PAGE_SIZE
  let stop := ((vto + PAGE_SIZE - 1) / PAGE_SIZE) * PAGE_SIZE
  let newRef := updRange s.hypRef (pfn_of start) ((stop - start) / PAGE_SIZE) fun p => s.hypRef p - 1
  { s with hypRef := newRef }

/-! ### The `host_stage2_try` recovery wrapper

The C macro, generic in the wrapped operation: run `fn`; on `-ENOMEM`,
unmap the unmoveable regions to recycle page-table pages and retry `fn`
exactly once.  `fn` and `unmap_unmoveable` are state transformers over an
arbitrary state type (instantiated in the code with
`__host_stage2_idmap` / `kvm_pgtable_stage2_annotate` and
`host_stage2_unmap_unmoveable_regs`). -/
def host_stage2_try {A : Type} (fn : A → Int × A) (unmap_unmoveable : A → Int × A)
    (s : A) : Int × A :=
  let r := fn s
  if r.1 = -ENOMEM then
    let r2 := unmap_unmoveable r.2
    if r2.1 = 0 then fn r2.2 else r2
  else r

/-- Instrumentation used to count how many times the wrapped operation
runs under `host_stage2_try`. -/
def countCalls {A : Type} (fn : A → Int × A) : Nat × A → Int × (Nat × A) :=
  fun ns => ((fn ns.2).1, (ns.1 + 1, (fn ns.2).2))

/-! ### Ownership invariant definitions

The single-owner claim is settled through an inductive invariant `Inv`
over the reachable states of the operation set (share, unshare, donate,
relinquish, reclaim).  States are quiescent-point snapshots: each modelled
operation is one atomic step, which is faithful because the code performs
each whole check+commit sequence under the component locks. -/

def isMemPfn (mem : List MemblockRegion) (p : Nat) : Bool :=
  addr_is_memory mem (hyp_pfn_to_phys p)

/-- The configuration assumptions: the declared region list is sorted and
non-overlapping (it is built once at init from the sorted memblock
table). -/
def ValidCfg (cfg : Config) : Prop := MemSorted cfg.mem

instance (cfg : Config) : Decidable (ValidCfg cfg) := by
  unfold ValidCfg; infer_instance

/-- A guest PTE maps physical page `p`. -/
def guestMapsPhys (pte : GuestPTE) (p : Nat) : Prop :=
  match pte with
  | .valid ph _ => ph = hyp_pfn_to_phys p
  | _ => False

instance (pte : GuestPTE) (p : Nat) : Decidable (guestMapsPhys pte p) := by
  unfold guestMapsPhys; cases pte <;> infer_instance

/-- A guest PTE holds physical page `p` in the `Owned` state. -/
def guestPteOwned (pte : GuestPTE) (p : Nat) : Prop :=
  match pte with
  | .valid ph pr => ph = hyp_pfn_to_phys p ∧ pkvm_getstate pr = PKVM_PAGE_OWNED
  | _ => False

instance (pte : GuestPTE) (p : Nat) : Decidable (guestPteOwned pte p) := by
  unfold guestPteOwned; cases pte <;> infer_instance

/-- A guest PTE holds physical page `p` as a shared borrow with
permissions within RWX (the shape installed by `guest_complete_share`). -/
def guestPteSharedBorrowed (pte : GuestPTE) (p : Nat) : Prop :=
  match pte with
  | .valid ph pr =>
      ph = hyp_pfn_to_phys p ∧ pr = Nat.lor (Nat.land pr KVM_PGTABLE_PROT_RWX)
        KVM_PGTABLE_PROT_SW1
  | _ => False

instance (pte : GuestPTE) (p : Nat) : Decidable (guestPteSharedBorrowed pte p) := by
  unfold guestPteSharedBorrowed; cases pte <;> infer_instance

/-- A hyp stage-1 entry holding its page in the `Owned` state. -/
def hypStateOwned (e : Option Nat) : Prop :=
  match e with
  | some pr => pkvm_getstate pr = PKVM_PAGE_OWNED
  | none => False

instance (e : Option Nat) : Decidable (hypStateOwned e) := by
  unfold hypStateOwned; cases e <;> infer_instance

/-- No guest (within the architectural bounds) maps physical page `p`. -/
def NoGuestMaps (cfg : Config) (s : SysState) (p : Nat) : Prop :=
  ∀ g, g < cfg.nrGuests → ∀ ipa, ipa < cfg.ipaLimit →
    ¬ guestMapsPhys (s.guestPt g ipa) p

/-- `(g, ipa)` is the only guest mapping of physical page `p`. -/
def GuestSole (cfg : Config) (s : SysState) (g ipa p : Nat) : Prop :=
  g < cfg.nrGuests ∧ ipa < cfg.ipaLimit ∧
    ∀ g', g' < cfg.nrGuests → ∀ ipa', ipa' < cfg.ipaLimit →
      guestMapsPhys (s.guestPt g' ipa') p → g' = g ∧ ipa' = ipa

/-- Every guest mapping (within bounds) is of a page-aligned physical
address; all mappings installed by the engine have this shape. -/
def GuestPtesAligned (cfg : Config) (s : SysState) : Prop :=
  ∀ g, g < cfg.nrGuests → ∀ ipa, ipa < cfg.ipaLimit → ∀ ph pr,
    s.guestPt g ipa = .valid ph pr → ph % PAGE_SIZE = 0

/-- The per-page ownership pattern: each physical page of declared memory
is, at any quiescent point, in exactly one of these configurations:
free/leaked, exclusively owned (host / hyp / one guest), shared by the
host with the hyp, one guest or the secure world, or shared by a guest
with the host. -/
def PageInv (cfg : Config) (s : SysState) (p : Nat) : Prop :=
  (s.hostState p = PKVM_NOPAGE ∧ s.hypPT p = none ∧ NoGuestMaps cfg s p)
  ∨ (s.hostState p = PKVM_PAGE_OWNED ∧ s.hypPT p = none ∧ NoGuestMaps cfg s p)
  ∨ (s.hostState p = PKVM_NOPAGE ∧ hypStateOwned (s.hypPT p) ∧ NoGuestMaps cfg s p)
  ∨ (s.hostState p = PKVM_NOPAGE ∧ s.hypPT p = none ∧
      ∃ g, g < cfg.nrGuests ∧ ∃ ipa, ipa < cfg.ipaLimit ∧
        s.guestPt g ipa = .valid (hyp_pfn_to_phys p) KVM_PGTABLE_PROT_RWX ∧
        GuestSole cfg s g ipa p)
  ∨ (s.hostState p = PKVM_PAGE_SHARED_OWNED ∧
      s.hypPT p = some (pkvm_mkstate PAGE_HYP PKVM_PAGE_SHARED_BORROWED) ∧
      NoGuestMaps cfg s p)
  ∨ (s.hostState p = PKVM_PAGE_SHARED_OWNED ∧ s.hypPT p = none ∧
      ∃ g, g < cfg.nrGuests ∧ ∃ ipa, ipa < cfg.ipaLimit ∧
        guestPteSharedBorrowed (s.guestPt g ipa) p ∧ GuestSole cfg s g ipa p)
  ∨ (s.hostState p = PKVM_PAGE_SHARED_OWNED ∧ s.hypPT p = none ∧
      NoGuestMaps cfg s p)
  ∨ (s.hostState p = PKVM_PAGE_SHARED_BORROWED ∧ s.hypPT p = none ∧
      ∃ g, g < cfg.nrGuests ∧ ∃ ipa, ipa < cfg.ipaLimit ∧
        s.guestPt g ipa = .valid (hyp_pfn_to_phys p)
          (pkvm_mkstate KVM_PGTABLE_PROT_RWX PKVM_PAGE_SHARED_OWNED) ∧
        GuestSole cfg s g ipa p)

/-- The inductive invariant. -/
def Inv (cfg : Config) (s : SysState) : Prop :=
  (∀ p, isMemPfn cfg.mem p = true → PageInv cfg s p) ∧ GuestPtesAligned cfg s

def hostOwnsPage (s : SysState) (p : Nat) : Prop :=
  s.hostState p = PKVM_PAGE_OWNED

def hypOwnsPage (s : SysState) (p : Nat) : Prop := hypStateOwned (s.hypPT p)

def guestOwnsPage (cfg : Config) (s : SysState) (g p : Nat) : Prop :=
  ∃ ipa, ipa < cfg.ipaLimit ∧ guestPteOwned (s.guestPt g ipa) p

/-- At most one component among the host, the hypervisor core and the
guests holds the `Owned` state for any page of declared memory.  (The
secure world is never recorded as `Owned` anywhere: no donation path
targets the FF-A component.) -/
def AtMostOneOwner (cfg : Config) (s : SysState) : Prop :=
  ∀ p, isMemPfn cfg.mem p = true →
    (hostOwnsPage s p → ¬ hypOwnsPage s p ∧
      ∀ g, g < cfg.nrGuests → ¬ guestOwnsPage cfg s g p) ∧
    (hypOwnsPage s p → ¬ hostOwnsPage s p ∧
      ∀ g, g < cfg.nrGuests → ¬ guestOwnsPage cfg s g p) ∧
    (∀ g, g < cfg.nrGuests → guestOwnsPage cfg s g p →
      ¬ hostOwnsPage s p ∧ ¬ hypOwnsPage s p ∧
      ∀ g', g' < cfg.nrGuests → guestOwnsPage cfg s g' p → g' = g)

/-- The boot-time state after `kvm_host_prepare_stage2` /
`prepopulate_host_stage2`: the host owns all declared memory, its stage-2
id-maps it, and the hyp/guest tables are empty. -/
def initState (cfg : Config) : SysState :=
  { hostState := fun _ => PKVM_PAGE_OWNED
    hostPT := fun p =>
      if isMemPfn cfg.mem p then .valid PKVM_HOST_MEM_PROT else .zero
    hypPT := fun _ => none
    hypRef := fun _ => 0
    guestPt := fun _ _ => .zero
    psciCount := 0 }

/-- Modelled from the spec: the FF-A proxy (`ffa.c`, a caller outside
`src/`) invokes `__pkvm_host_unshare_ffa` only for ranges previously
shared with the secure world — the core "checks only the host-side state
for FFA transitions and trusts the secure side to perform its own
equivalent check".  For such ranges no hyp or guest borrow exists. -/
def FfaSharedRange (cfg : Config) (s : SysState) (pfn nr_pages : Nat) : Prop :=
  ∀ j, j < nr_pages → s.hypPT (pfn + j) = none ∧ NoGuestMaps cfg s (pfn + j)

/-- One atomic operation of the ownership machine: the share, unshare,
donate, relinquish and reclaim entry points.  Guest-facing operations are
bounded by the architectural limits (VM table size, IPA space). -/
inductive Step (cfg : Config) : SysState → SysState → Prop where
  | host_share_hyp (pfn : Nat) (s : SysState) :
      Step cfg s (__pkvm_host_share_hyp cfg pfn s).2
  | host_unshare_hyp (pfn : Nat) (s : SysState) :
      Step cfg s (__pkvm_host_unshare_hyp cfg pfn s).2
  | guest_share_host (vm ipa : Nat) (s : SysState)
      (hvm : vm < cfg.nrGuests) (hipa : pfn_of ipa < cfg.ipaLimit) :
      Step cfg s (__pkvm_guest_share_host cfg vm ipa s).2
  | guest_unshare_host (vm ipa : Nat) (s : SysState)
      (hvm : vm < cfg.nrGuests) (hipa : pfn_of ipa < cfg.ipaLimit) :
      Step cfg s (__pkvm_guest_unshare_host cfg vm ipa s).2
  | host_share_ffa (pfn nr_pages : Nat) (s : SysState) :
      Step cfg s (__pkvm_host_share_ffa cfg pfn nr_pages s).2
  | host_unshare_ffa (pfn nr_pages : Nat) (s : SysState)
      (hffa : FfaSharedRange cfg s pfn nr_pages) :
      Step cfg s (__pkvm_host_unshare_ffa cfg pfn nr_pages s).2
  | host_share_guest (pfn gfn vm prot : Nat) (s : SysState)
      (hvm : vm < cfg.nrGuests) (hgfn : gfn < cfg.ipaLimit) :
      Step cfg s (__pkvm_host_share_guest cfg pfn gfn vm prot s).2
  | host_unshare_guest (gfn vm : Nat) (s : SysState)
      (hvm : vm < cfg.nrGuests) (hgfn : gfn < cfg.ipaLimit) :
      Step cfg s (__pkvm_host_unshare_guest cfg gfn vm s).2
  | host_donate_hyp (pfn nr_pages : Nat) (accept_mmio : Bool) (prot : Nat)
      (s : SysState) :
      Step cfg s (___pkvm_host_donate_hyp_prot cfg pfn nr_pages accept_mmio prot s).2
  | hyp_donate_host (pfn nr_pages : Nat) (s : SysState) :
      Step cfg s (__pkvm_hyp_donate_host cfg pfn nr_pages s).2
  | host_donate_guest (pfn gfn vm : Nat) (s : SysState)
      (hvm : vm < cfg.nrGuests) (hgfn : gfn < cfg.ipaLimit) :
      Step cfg s (__pkvm_host_donate_guest cfg pfn gfn vm s).2
  | guest_relinquish (vm ipa : Nat) (s : SysState)
      (hvm : vm < cfg.nrGuests) (hipa : pfn_of ipa < cfg.ipaLimit) :
      Step cfg s (__pkvm_guest_relinquish_to_host cfg vm ipa s).2.2
  | host_reclaim (vm pfn ipa : Nat) (s : SysState)
      (hvm : vm < cfg.nrGuests) (hipa : pfn_of ipa < cfg.ipaLimit) :
      Step cfg s (__pkvm_host_reclaim_page cfg vm pfn ipa s).2

/-- Reachability from the boot-time state through the modelled
operations. -/
def Reachable (cfg : Config) (s : SysState) : Prop :=
  Relation.ReflTransGen (Step cfg) (initState cfg) s

/-- Abbreviation for a one-slot guest page-table update, the shape produced
by `guest_stage2_map`/`guest_stage2_unmap`/`guest_stage2_annotate` on a
single page. -/
def guestUpd (s : SysState) (vm idx : Nat) (pte : GuestPTE) :
    Nat → Nat → GuestPTE :=
  fun g => if g = vm then updRange (s.guestPt g) idx 1 fun _ => pte
    else s.guestPt g

/-! ### Concrete fixtures for witnesses

A small configuration: one declared region of 16 pages at `0x10000`
(pfns 16..31), two VM slots; VM 0 is protected and reserves IPA pages
100..101 for the protected firmware, VM 1 is unprotected. -/

def demoCfg : Config :=
  { mem := [⟨65536, 65536, false⟩]
    nrGuests := 2
    ipaLimit := 256
    vmProtected := fun v => v = 0
    vmMmioGuard := fun v => v = 0
    vmPvmfw := fun v => if v = 0 then some (409600, 8192) else none }

/-- `demoCfg` with no VM protected. -/
def demoCfgUnprot : Config := { demoCfg with vmProtected := fun _ => false }

/-- Boot-like state: the host owns and id-maps all declared memory. -/
def demoInit : SysState :=
  { hostState := fun _ => PKVM_PAGE_OWNED
    hostPT := fun p => if 16 ≤ p ∧ p < 32 then .valid PKVM_HOST_MEM_PROT else .zero
    hypPT := fun _ => none
    hypRef := fun _ => 0
    guestPt := fun _ _ => .zero
    psciCount := 0 }

/-- A state in which the hypervisor core owns pfn 22. -/
def demoHypOwns : SysState :=
  { hostState := fun p => if p = 22 then PKVM_NOPAGE else PKVM_PAGE_OWNED
    hostPT := fun p =>
      if p = 22 then .annot 1
      else if 16 ≤ p ∧ p < 32 then .valid PKVM_HOST_MEM_PROT else .zero
    hypPT := fun p => if p = 22 then some PAGE_HYP else none
    hypRef := fun _ => 0
    guestPt := fun _ _ => .zero
    psciCount := 5 }

/-- A hyp-initiated donation of pfn 22 to protected VM 0 at IPA page 100,
inside the reserved pvmfw range. -/
def demoHypToGuestTx : PkvmMemTransition :=
  { nr_pages := 1
    initiator_id := .hyp
    initiator_addr := 90112
    initiator_completer_addr := 409600
    initiator_guest := 0
    completer_id := .guest
    completer_prot := 0
    completer_guest := 0
    completer_guest_phys := 90112 }

/-- The state after a successful `__pkvm_host_share_hyp`: the host vmemmap
entry moves to `SHARED_OWNED` (the host stage-2 idmap entry is rebuilt when
the page was faulted out) and the hyp stage-1 maps the page
`SHARED_BORROWED`. -/
def shareHypState (cfg : Config) (pfn : Nat) (s : SysState) : SysState :=
  { s with
    hostPT := if Nat.land (s.hostState (pfn_of (pfn * PAGE_SIZE)))
        PKVM_NOPAGE ≠ 0 then
        updRange s.hostPT (pfn_of (pfn * PAGE_SIZE))
          (1 * PAGE_SIZE / PAGE_SIZE) fun _ => .valid PKVM_HOST_MEM_PROT
      else s.hostPT
    hostState := updRange s.hostState (pfn_of (pfn * PAGE_SIZE))
      (1 * PAGE_SIZE / PAGE_SIZE) fun _ => PKVM_PAGE_SHARED_OWNED
    hypPT := updRange s.hypPT (pfn_of (pfn * PAGE_SIZE))
      ((pfn * PAGE_SIZE + 1 * PAGE_SIZE - pfn * PAGE_SIZE) / PAGE_SIZE)
      fun _ => some (pkvm_mkstate (default_hyp_prot cfg.mem (pfn * PAGE_SIZE))
        PKVM_PAGE_SHARED_BORROWED) }

/-- The state after a successful `__pkvm_host_donate_hyp` of `n` pages:
the host stage-2 annotates the range with the hyp's owner id (and, for
memory, the vmemmap drops to `NOPAGE`), and the hyp stage-1 maps the range
`OWNED`. -/
def donateHypState (cfg : Config) (pfn n prot : Nat) (s : SysState) :
    SysState :=
  { s with
    hostPT := updRange s.hostPT (pfn_of (pfn * PAGE_SIZE))
      (n * PAGE_SIZE / PAGE_SIZE) fun _ => .annot 1
    hostState := if addr_is_memory cfg.mem (pfn * PAGE_SIZE) = true then
        updRange s.hostState (pfn_of (pfn * PAGE_SIZE))
          (n * PAGE_SIZE / PAGE_SIZE) fun _ => PKVM_NOPAGE
      else s.hostState
    hypPT := updRange s.hypPT (pfn_of (pfn * PAGE_SIZE))
      ((pfn * PAGE_SIZE + n * PAGE_SIZE - pfn * PAGE_SIZE) / PAGE_SIZE)
      fun _ => some (pkvm_mkstate prot PKVM_PAGE_OWNED) }

/-- A state in which pfn 20 is shared with the hyp and the hyp still holds
one reference on it (as taken by `hyp_pin_shared_mem`). -/
def demoBusyShared : SysState :=
  { demoInit with
    hostState := fun p =>
      if p = 20 then PKVM_PAGE_SHARED_OWNED else PKVM_PAGE_OWNED
    hypPT := fun p =>
      if p = 20 then some (pkvm_mkstate PAGE_HYP PKVM_PAGE_SHARED_BORROWED)
      else none
    hypRef := fun p => if p = 20 then 1 else 0 }

/-! ## Theorems -/

/-! ### Correctness of the mem-range resolver -/

/-- The loop postcondition at termination (`right ≤ left`): the
accumulated range is the region-free gap around `addr`. -/
theorem findPost_done (mem : List MemblockRegion) (addr : Nat)
    (hs : MemSorted mem) (left right : Nat) (range : KvmMemRange)
    (h : right ≤ left) (hlr : left ≤ right) (hrlen : right ≤ mem.length)
    (hL : left = 0 ∧ range.start = 0 ∨
      0 < left ∧ range.start = regEnd (regAt mem (left - 1)) ∧
        regEnd (regAt mem (left - 1)) ≤ addr)
    (hR : right = mem.length ∧ range.stop = ULONG_MAX ∨
      right < mem.length ∧ range.stop = (regAt mem right).base ∧
        addr < (regAt mem right).base) :
    FindPost mem addr (none, range) := by
  have hle : right ≤ left := h
  -- base ≤ end for every region
  have hbe : ∀ i, (regAt mem i).base ≤ regEnd (regAt mem i) := by
    intro i; unfold regEnd; omega
  -- every region below `left` ends at or before `addr`
  have hbelow : ∀ i, i < left → regEnd (regAt mem i) ≤ addr := by
    intro i hi
    rcases hL with ⟨h0, _⟩ | ⟨hpos, _, hend⟩
    · omega
    · rcases Nat.lt_or_ge i (left - 1) with hlt | hge
      · exact le_trans (le_trans (hs i (by omega) (left - 1) (by omega) hlt)
          (hbe _)) hend
      · have : i = left - 1 := by omega
        subst this; exact hend
  -- every region at or above `right` begins after `addr`
  have habove : ∀ i, right ≤ i → i < mem.length → addr < (regAt mem i).base := by
    intro i hi hilen
    rcases hR with ⟨hrl, _⟩ | ⟨hrlt, _, hbase⟩
    · omega
    · rcases Nat.lt_or_ge right i with hlt | hge
      · exact lt_of_lt_of_le hbase (le_trans (hbe _) (hs right hrlt i hilen hlt))
      · have : i = right := by omega
        subst this; exact hbase
  refine ⟨?_, ?_, ?_, ?_, ?_, ?_, ?_⟩
  · intro i hi hc
    rcases Nat.lt_or_ge i left with hlt | hge
    · exact absurd (hbelow i hlt) (by have := hc.2; unfold regContains at hc; omega)
    · exact absurd (habove i (by omega) hi) (by have := hc.1; omega)
  · rcases hL with ⟨_, h0⟩ | ⟨hpos, heq, hend⟩
    · exact Or.inl h0
    · exact Or.inr ⟨left - 1, by omega, heq, hend⟩
  · rcases hR with ⟨hrl, heq⟩ | ⟨hrlt, heq, hbase⟩
    · exact Or.inl heq
    · exact Or.inr ⟨right, hrlt, heq, hbase⟩
  · intro i hi hiend
    rcases Nat.lt_or_ge i left with hlt | hge
    · rcases hL with ⟨h0, _⟩ | ⟨hpos, heq, hend⟩
      · omega
      · rw [heq]
        rcases Nat.lt_or_ge i (left - 1) with hlt' | hge'
        · exact le_trans (hs i (by omega) (left - 1) (by omega) hlt') (hbe _)
        · have : i = left - 1 := by omega
          subst this; exact le_refl _
    · exact absurd (habove i (by omega) hi) (by have := hbe i; omega)
  · intro i hi hibase
    rcases Nat.lt_or_ge i left with hlt | hge
    · exact absurd (hbelow i hlt) (by have := hbe i; omega)
    · rcases hR with ⟨hrl, _⟩ | ⟨hrlt, heq, hbase⟩
      · omega
      · rw [heq]
        rcases Nat.lt_or_ge right i with hlt' | hge'
        · exact le_trans (hbe _) (hs right hrlt i hi hlt')
        · have : i = right := by omega
          subst this; exact le_refl _
  · rcases hL with ⟨_, h0⟩ | ⟨_, heq, hend⟩
    · omega
    · omega
  · rcases hR with ⟨_, heq⟩ | ⟨_, heq, hbase⟩
    · exact Or.inr heq
    · exact Or.inl (by omega)

theorem findMemRangeAux_spec (mem : List MemblockRegion) (addr : Nat)
    (hs : MemSorted mem) :
    ∀ fuel left right range, right - left ≤ fuel →
      left ≤ right → right ≤ mem.length →
      (left = 0 ∧ range.start = 0 ∨
        0 < left ∧ range.start = regEnd (regAt mem (left - 1)) ∧
          regEnd (regAt mem (left - 1)) ≤ addr) →
      (right = mem.length ∧ range.stop = ULONG_MAX ∨
        right < mem.length ∧ range.stop = (regAt mem right).base ∧
          addr < (regAt mem right).base) →
      FindPost mem addr (findMemRangeAux mem addr fuel left right range) := by
  intro fuel
  induction fuel with
  | zero =>
    intro left right range hn hlr hrlen hL hR
    rw [findMemRangeAux]
    exact findPost_done mem addr hs left right range (by omega) hlr hrlen hL hR
  | succ fuel ih =>
    intro left right range hn hlr hrlen hL hR
    rw [findMemRangeAux]
    by_cases h : left < right
    · simp only [h, if_pos]
      set cur := (left + right) / 2 with hcur
      have hcl : left ≤ cur := by omega
      have hcr : cur < right := by omega
      have hclen : cur < mem.length := by omega
      by_cases h1 : addr < (regAt mem cur).base
      · simp only [h1, if_pos]
        exact ih left cur _ (by omega) hcl (by omega) hL
          (Or.inr ⟨hclen, rfl, h1⟩)
      · simp only [h1, if_neg, not_false_iff]
        by_cases h2 : regEnd (regAt mem cur) ≤ addr
        · simp only [h2, if_pos]
          exact ih (cur + 1) right _ (by omega) (by omega)
            hrlen (Or.inr ⟨by omega, by simp, by simpa using h2⟩) hR
        · simp only [h2, if_neg, not_false_iff]
          refine ⟨⟨cur, hclen, rfl⟩, ⟨by omega, by omega⟩, rfl⟩
    · simp only [h, if_neg, not_false_iff]
      exact findPost_done mem addr hs left right range (by omega) hlr hrlen hL hR

/-- The top-level `find_mem_range` satisfies its specification. -/
theorem find_mem_range_spec (mem : List MemblockRegion) (addr : Nat)
    (hs : MemSorted mem) : FindPost mem addr (find_mem_range mem addr) := by
  exact findMemRangeAux_spec mem addr hs mem.length 0 mem.length _ (by omega)
    (Nat.zero_le _) (le_refl _) (Or.inl ⟨rfl, rfl⟩) (Or.inl ⟨rfl, rfl⟩)

/-- A containing region is unique in a sorted list. -/
theorem memSorted_contains_unique (mem : List MemblockRegion) (addr : Nat)
    (hs : MemSorted mem) {i j : Nat} (hi : i < mem.length) (hj : j < mem.length)
    (hci : regContains (regAt mem i) addr) (hcj : regContains (regAt mem j) addr) :
    i = j := by
  rcases Nat.lt_trichotomy i j with h | h | h
  · have := hs i hi j hj h
    unfold regContains at hci hcj; omega
  · exact h
  · have := hs j hj i hi h
    unfold regContains at hci hcj; omega

/-- If some declared region contains `addr`, `find_mem_range` returns it
with its exact bounds. -/
theorem find_mem_range_of_contains (mem : List MemblockRegion) (addr : Nat)
    (hs : MemSorted mem) {i : Nat} (hi : i < mem.length)
    (hc : regContains (regAt mem i) addr) :
    find_mem_range mem addr =
      (some (regAt mem i), ⟨(regAt mem i).base, regEnd (regAt mem i)⟩) := by
  have hpost := find_mem_range_spec mem addr hs
  rcases hfind : find_mem_range mem addr with ⟨o, r⟩
  rw [hfind] at hpost
  cases o with
  | none =>
    exact absurd hc (hpost.1 i hi)
  | some reg =>
    obtain ⟨⟨j, hj, hreg⟩, hcreg, hr⟩ := hpost
    subst hreg
    have := memSorted_contains_unique mem addr hs hj hi hcreg hc
    subst this
    rw [hr]

/-- `addr_is_memory` holds exactly when some declared region contains the
address. -/
theorem addr_is_memory_iff (mem : List MemblockRegion) (addr : Nat)
    (hs : MemSorted mem) :
    addr_is_memory mem addr = true ↔
      ∃ i, i < mem.length ∧ regContains (regAt mem i) addr := by
  constructor
  · intro h
    unfold addr_is_memory at h
    have hpost := find_mem_range_spec mem addr hs
    rcases hfind : find_mem_range mem addr with ⟨o, r⟩
    rw [hfind] at hpost h
    cases o with
    | none => simp at h
    | some reg =>
      obtain ⟨⟨j, hj, hreg⟩, hcreg, _⟩ := hpost
      exact ⟨j, hj, hreg ▸ hcreg⟩
  · rintro ⟨i, hi, hc⟩
    unfold addr_is_memory
    rw [find_mem_range_of_contains mem addr hs hi hc]
    rfl

/-- `range_is_memory` holds exactly when one declared region contains both
the start and the (inclusive) last byte of the span. -/
theorem range_is_memory_iff (mem : List MemblockRegion) (start stop : Nat)
    (hs : MemSorted mem) :
    range_is_memory mem start stop = true ↔
      ∃ i, i < mem.length ∧ regContains (regAt mem i) start ∧
        regContains (regAt mem i) (stop - 1) := by
  constructor
  · intro h
    unfold range_is_memory at h
    have hpost := find_mem_range_spec mem start hs
    rcases hfind : find_mem_range mem start with ⟨o, r⟩
    rw [hfind] at hpost h
    cases o with
    | none => simp at h
    | some reg =>
      obtain ⟨⟨j, hj, hreg⟩, hcreg, hr⟩ := hpost
      subst hreg; subst hr
      refine ⟨j, hj, hcreg, ?_⟩
      unfold is_in_mem_range at h
      exact ⟨by simpa using (of_decide_eq_true h).1, by simpa using (of_decide_eq_true h).2⟩
  · rintro ⟨i, hi, hcs, hce⟩
    unfold range_is_memory
    rw [find_mem_range_of_contains mem start hs hi hcs]
    unfold is_in_mem_range
    exact decide_eq_true (by exact ⟨hce.1, hce.2⟩)

/-- When `addr` is not in any declared region, `addr_is_memory` is false. -/
theorem addr_is_memory_eq_false (mem : List MemblockRegion) (addr : Nat)
    (hs : MemSorted mem)
    (h : ∀ i, i < mem.length → ¬ regContains (regAt mem i) addr) :
    addr_is_memory mem addr = false := by
  rcases hb : addr_is_memory mem addr with _ | _
  · rfl
  · obtain ⟨i, hi, hc⟩ := (addr_is_memory_iff mem addr hs).mp hb
    exact absurd hc (h i hi)


/-! ### Plumbing lemmas -/

theorem pfn_of_mul (p : Nat) : pfn_of (p * PAGE_SIZE) = p := by
  unfold pfn_of PAGE_SIZE; omega

theorem pfn_of_hyp_pfn_to_phys (p : Nat) : pfn_of (hyp_pfn_to_phys p) = p := by
  unfold hyp_pfn_to_phys; exact pfn_of_mul p

theorem size_div_pages (n : Nat) : n * PAGE_SIZE / PAGE_SIZE = n := by
  unfold PAGE_SIZE; omega

theorem updRange_in {α : Type} (f : Nat → α) (p0 n : Nat) (g : Nat → α)
    (p : Nat) (h : p0 ≤ p ∧ p < p0 + n) : updRange f p0 n g p = g p := by
  unfold updRange; simp [h]

theorem updRange_out {α : Type} (f : Nat → α) (p0 n : Nat) (g : Nat → α)
    (p : Nat) (h : ¬ (p0 ≤ p ∧ p < p0 + n)) : updRange f p0 n g p = f p := by
  unfold updRange; simp [h]

theorem allPfns_iff (p0 n : Nat) (P : Nat → Bool) :
    allPfns p0 n P = true ↔ ∀ j, j < n → P (p0 + j) = true := by
  unfold allPfns
  simp [List.all_eq_true]

theorem ite_int_eq_zero {r e : Int} (h : (if r ≠ 0 then r else e) = 0) :
    r = 0 ∧ e = 0 := by
  by_cases hr : r = 0
  · exact ⟨hr, by simpa [hr] using h⟩
  · rw [if_pos hr] at h
    exact absurd h hr

/-! ### Claim C2 — check-then-commit atomicity (helper lemmas) -/

theorem do_share_check_fail (cfg : Config) (tx : PkvmMemTransition)
    (s : SysState) (h : check_share cfg tx s ≠ 0) :
    do_share cfg tx s = (check_share cfg tx s, s) := by
  unfold do_share; simp [h]

theorem do_unshare_check_fail (cfg : Config) (tx : PkvmMemTransition)
    (s : SysState) (h : check_unshare cfg tx s ≠ 0) :
    do_unshare cfg tx s = (check_unshare cfg tx s, s) := by
  unfold do_unshare; simp [h]

theorem do_donate_check_fail (cfg : Config) (tx : PkvmMemTransition)
    (s : SysState) (h : check_donation cfg tx s ≠ 0) :
    do_donate cfg tx s = (check_donation cfg tx s, s) := by
  unfold do_donate; simp [h]

/-- C2.  Check-then-commit atomicity: for each of Share, Unshare and
Donate, when the check phase fails its error is returned and the state —
every component page table and every recorded ownership state — is exactly
the input state.  (In this embedding the check phases are state readers by
construction, mirroring the C code in which `check_share` /
`check_unshare` / `check_donation` only perform page-table walks and
vmemmap reads; the theorem states that `do_*` returns the untouched input
state whenever the check is nonzero.) -/
theorem C2_check_then_commit_atomicity (cfg : Config)
    (tx : PkvmMemTransition) (s : SysState) :
    (check_share cfg tx s ≠ 0 →
      do_share cfg tx s = (check_share cfg tx s, s)) ∧
    (check_unshare cfg tx s ≠ 0 →
      do_unshare cfg tx s = (check_unshare cfg tx s, s)) ∧
    (check_donation cfg tx s ≠ 0 →
      do_donate cfg tx s = (check_donation cfg tx s, s)) :=
  ⟨do_share_check_fail cfg tx s, do_unshare_check_fail cfg tx s,
    do_donate_check_fail cfg tx s⟩

/-! ### Claim C6 — guest single-page limit -/

theorem guest_request_E2BIG (mem : List MemblockRegion)
    (tx : PkvmMemTransition) (desired : Nat) (s : SysState)
    (hn : tx.nr_pages ≠ 1) :
    __guest_request_page_transition mem tx desired s = (-E2BIG, 0) := by
  unfold __guest_request_page_transition; simp [hn]

/-- C6.  Any guest-initiated share or unshare with `nr_pages ≠ 1` fails
with `E2BIG` and mutates nothing: the result state is the input state. -/
theorem C6_guest_single_page_limit (cfg : Config) (tx : PkvmMemTransition)
    (s : SysState) (hg : tx.initiator_id = ComponentId.guest)
    (hn : tx.nr_pages ≠ 1) :
    do_share cfg tx s = (-E2BIG, s) ∧ do_unshare cfg tx s = (-E2BIG, s) := by
  have hcs : check_share cfg tx s = -E2BIG := by
    unfold check_share guest_request_share
    rw [hg, guest_request_E2BIG cfg.mem tx PKVM_PAGE_OWNED s hn]
    norm_num [E2BIG]
  have hcu : check_unshare cfg tx s = -E2BIG := by
    unfold check_unshare guest_request_unshare
    rw [hg, guest_request_E2BIG cfg.mem tx PKVM_PAGE_SHARED_OWNED s hn]
    norm_num [E2BIG]
  constructor
  · rw [do_share_check_fail cfg tx s (by rw [hcs]; norm_num [E2BIG]), hcs]
  · rw [do_unshare_check_fail cfg tx s (by rw [hcu]; norm_num [E2BIG]), hcu]

/-! ### Claim C8 — host allocator recovery retries exactly once -/

/-- Counter-preserving lift of the reclaim pass, used to count invocations
of the wrapped operation. -/
def liftUnmap {A : Type} (unmap : A → Int × A) : Nat × A → Int × (Nat × A) :=
  fun ns => ((unmap ns.2).1, (ns.1, (unmap ns.2).2))

/-- C8.  `host_stage2_try`: if the wrapped operation does not return
`-ENOMEM`, its result is returned unchanged and no reclaim pass runs; on
`-ENOMEM` the unmoveable-region reclaim runs and, if it succeeds, the
operation is retried exactly once (the instrumented run counts exactly two
invocations, otherwise exactly one); if the reclaim pass itself fails its
error is returned with no retry. -/
theorem C8_host_stage2_try_retries_once {A : Type} (fn unmap : A → Int × A)
    (s : A) :
    ((fn s).1 ≠ -ENOMEM → host_stage2_try fn unmap s = fn s) ∧
    ((fn s).1 = -ENOMEM → (unmap (fn s).2).1 = 0 →
      host_stage2_try fn unmap s = fn (unmap (fn s).2).2) ∧
    ((fn s).1 = -ENOMEM → (unmap (fn s).2).1 ≠ 0 →
      host_stage2_try fn unmap s = unmap (fn s).2) ∧
    (host_stage2_try (countCalls fn) (liftUnmap unmap) (0, s)).2.1 =
      (if (fn s).1 = -ENOMEM ∧ (unmap (fn s).2).1 = 0 then 2 else 1) := by
  refine ⟨?_, ?_, ?_, ?_⟩
  · intro h; unfold host_stage2_try; simp [h]
  · intro h1 h2; unfold host_stage2_try; simp [h1, h2]
  · intro h1 h2; unfold host_stage2_try; simp [h1, h2]
  · unfold host_stage2_try countCalls liftUnmap
    by_cases h1 : (fn s).1 = -ENOMEM
    · by_cases h2 : (unmap (fn s).2).1 = 0 <;> simp [h1, h2]
    · simp [h1]

/-! ### Claim C10 — MMIO-guard install -/

/-- C10.  `__pkvm_install_ioguard_page`: a VM without the MMIO-guard flag
or a non-page-aligned IPA gets `-EINVAL` with no change; an IPA already
carrying the MMIO-guard annotation gets success with the table unchanged;
any other present entry at that IPA gets `-EBUSY` with no change; an empty
slot is annotated. -/
theorem C10_install_ioguard (cfg : Config) (vm ipa : Nat) (s : SysState) :
    (cfg.vmMmioGuard vm = false →
      __pkvm_install_ioguard_page cfg vm ipa s = (-EINVAL, s)) ∧
    (cfg.vmMmioGuard vm = true → ipa % PAGE_SIZE ≠ 0 →
      __pkvm_install_ioguard_page cfg vm ipa s = (-EINVAL, s)) ∧
    (cfg.vmMmioGuard vm = true → ipa % PAGE_SIZE = 0 →
      s.guestPt vm (pfn_of ipa) = .annot KVM_INVALID_PTE_MMIO_NOTE →
      __pkvm_install_ioguard_page cfg vm ipa s = (0, s)) ∧
    (cfg.vmMmioGuard vm = true → ipa % PAGE_SIZE = 0 →
      s.guestPt vm (pfn_of ipa) ≠ .zero →
      s.guestPt vm (pfn_of ipa) ≠ .annot KVM_INVALID_PTE_MMIO_NOTE →
      __pkvm_install_ioguard_page cfg vm ipa s = (-EBUSY, s)) ∧
    (cfg.vmMmioGuard vm = true → ipa % PAGE_SIZE = 0 →
      s.guestPt vm (pfn_of ipa) = .zero →
      __pkvm_install_ioguard_page cfg vm ipa s =
        guest_stage2_annotate vm ipa PAGE_SIZE KVM_INVALID_PTE_MMIO_NOTE s) := by
  have hgran : kvm_granule_size KVM_PGTABLE_LAST_LEVEL = PAGE_SIZE := by
    unfold kvm_granule_size KVM_PGTABLE_LAST_LEVEL PAGE_SIZE PAGE_SHIFT; norm_num
  refine ⟨?_, ?_, ?_, ?_, ?_⟩
  · intro h; unfold __pkvm_install_ioguard_page; simp [h]
  · intro h hal; unfold __pkvm_install_ioguard_page; simp [h, hal]
  · intro h hal hpte; unfold __pkvm_install_ioguard_page
    simp [h, hal, hpte, hgran]
  · intro h hal hne hnote; unfold __pkvm_install_ioguard_page
    simp [h, hal, hne, hnote, hgran]
  · intro h hal hz; unfold __pkvm_install_ioguard_page
    simp [h, hal, hz, hgran]


/-! ### Host check introduction -/

/-- If a whole page range lies in one declared, mapped region and every
page has the desired vmemmap state, `__host_check_page_state_range`
succeeds. -/
theorem host_check_intro_mem (mem : List MemblockRegion) (hs : MemSorted mem)
    {i pfn n st : Nat} {s : SysState}
    (hi : i < mem.length) (hn : 0 < n)
    (hbase : (regAt mem i).base ≤ pfn * PAGE_SIZE)
    (hend : (pfn + n) * PAGE_SIZE ≤ regEnd (regAt mem i))
    (hnomap : (regAt mem i).nomap = false)
    (hstates : ∀ j, j < n → s.hostState (pfn + j) = st) :
    __host_check_page_state_range mem (pfn * PAGE_SIZE) (n * PAGE_SIZE) st s
      = 0 := by
  have hP : PAGE_SIZE = 4096 := rfl
  have hc : regContains (regAt mem i) (pfn * PAGE_SIZE) := by
    refine ⟨hbase, ?_⟩
    rw [hP] at hend ⊢
    omega
  have hfind := find_mem_range_of_contains mem (pfn * PAGE_SIZE) hs hi hc
  unfold __host_check_page_state_range
  rw [hfind]
  have hin : is_in_mem_range (pfn * PAGE_SIZE + n * PAGE_SIZE - 1)
      ⟨(regAt mem i).base, regEnd (regAt mem i)⟩ = true := by
    unfold is_in_mem_range
    apply decide_eq_true
    have hb := hc.1
    constructor
    · show (regAt mem i).base ≤ pfn * PAGE_SIZE + n * PAGE_SIZE - 1
      rw [hP] at hb ⊢; omega
    · show pfn * PAGE_SIZE + n * PAGE_SIZE - 1 < regEnd (regAt mem i)
      rw [hP] at hend ⊢; omega
  simp only [hin, not_true_eq_false, if_false]
  simp only [___host_check_page_state_range, hnomap, Bool.false_eq_true,
    if_false]
  rw [if_pos]
  apply (allPfns_iff _ _ _).mpr
  intro j hj
  rw [size_div_pages] at hj
  rw [pfn_of_mul]
  simp [hstates j hj]

/-! ### Claim C7 — busy hyp borrow blocks unshare -/

/-- C7.  Unsharing from the hypervisor core while the hyp still holds a
reference on the page (e.g. one taken by `hyp_pin_shared_mem`): provided
the host-side request phase passes (the page is declared, mapped memory in
`SHARED_OWNED`), the acknowledge phase `hyp_ack_unshare` fails with
`-EBUSY` and `__pkvm_host_unshare_hyp` returns `-EBUSY` with the state
unchanged.  (Every unshare with the hyp as completer in this code is the
single-page `__pkvm_host_unshare_hyp`, and `hyp_ack_unshare` reads the
refcount of the first — only — page of the range.) -/
theorem C7_unshare_hyp_busy (cfg : Config) (pfn : Nat) (s : SysState)
    (hv : ValidCfg cfg) {i : Nat} (hi : i < cfg.mem.length)
    (hbase : (regAt cfg.mem i).base ≤ pfn * PAGE_SIZE)
    (hend : (pfn + 1) * PAGE_SIZE ≤ regEnd (regAt cfg.mem i))
    (hnomap : (regAt cfg.mem i).nomap = false)
    (hshared : s.hostState pfn = PKVM_PAGE_SHARED_OWNED)
    (hbusy : s.hypRef pfn ≠ 0) :
    check_unshare cfg (host_hyp_tx cfg.mem pfn) s = -EBUSY ∧
    __pkvm_host_unshare_hyp cfg pfn s = (-EBUSY, s) := by
  have hreq : __host_check_page_state_range cfg.mem (pfn * PAGE_SIZE)
      (1 * PAGE_SIZE) PKVM_PAGE_SHARED_OWNED s = 0 := by
    apply host_check_intro_mem cfg.mem hv hi (by omega) hbase hend hnomap
    intro j hj
    have : j = 0 := by omega
    subst this
    simpa using hshared
  have hack : hyp_ack_unshare (hyp_va (hyp_pfn_to_phys pfn))
      (host_hyp_tx cfg.mem pfn) s = -EBUSY := by
    unfold hyp_ack_unshare
    rw [if_pos]
    constructor
    · rfl
    · unfold hyp_page_count hyp_va hyp_pfn_to_phys
      rw [pfn_of_mul]
      exact hbusy
  have hcu : check_unshare cfg (host_hyp_tx cfg.mem pfn) s = -EBUSY := by
    unfold check_unshare host_request_unshare
    have htx1 : (host_hyp_tx cfg.mem pfn).initiator_id = ComponentId.host := rfl
    have htx2 : (host_hyp_tx cfg.mem pfn).completer_id = ComponentId.hyp := rfl
    have htx3 : (host_hyp_tx cfg.mem pfn).initiator_addr =
      hyp_pfn_to_phys pfn := rfl
    have htx4 : (host_hyp_tx cfg.mem pfn).initiator_completer_addr =
      hyp_va (hyp_pfn_to_phys pfn) := rfl
    have htx5 : txSize (host_hyp_tx cfg.mem pfn) = 1 * PAGE_SIZE := rfl
    simp only [htx1, htx2, htx3, htx4, htx5]
    unfold hyp_pfn_to_phys at hreq ⊢
    simp only [hreq]
    simpa using hack
  refine ⟨hcu, ?_⟩
  unfold __pkvm_host_unshare_hyp
  rw [do_unshare_check_fail cfg _ s (by rw [hcu]; norm_num [EBUSY]), hcu]


/-! ### Claim C9 — mem-range resolver correctness -/

theorem regAt_is_mem (mem : List MemblockRegion) (i : Nat)
    (h : i < mem.length) : regAt mem i ∈ mem := by
  unfold regAt
  rw [List.getD_eq_getElem?_getD, List.getElem?_eq_getElem h]
  exact List.getElem_mem h

/-- C9.  `find_mem_range` returns a containing region with its exact
bounds exactly when some declared region contains `phys`; otherwise it
returns `none` together with the region-free gap around `phys`: its start
is the end of the nearest region below (or `0` if none), its end the base
of the nearest region above (or `ULONG_MAX` if none), and the gap contains
`phys` (`start ≤ phys ≤ stop`, the end being exclusive except for the
`ULONG_MAX` sentinel).  `addr_is_memory` and `range_is_memory` agree with
this classification. -/
theorem C9_find_mem_range_correct (mem : List MemblockRegion) (phys : Nat)
    (hs : MemSorted mem) (hmax : phys ≤ ULONG_MAX) :
    (∀ reg r, find_mem_range mem phys = (some reg, r) →
      reg ∈ mem ∧ regContains reg phys ∧ r = ⟨reg.base, regEnd reg⟩) ∧
    ((find_mem_range mem phys).1.isSome = true ↔
      ∃ i, i < mem.length ∧ regContains (regAt mem i) phys) ∧
    (∀ r, find_mem_range mem phys = (none, r) →
      (∀ i, i < mem.length → ¬ regContains (regAt mem i) phys) ∧
      r.start ≤ phys ∧ phys ≤ r.stop ∧
      (r.start = 0 ∨ ∃ i, i < mem.length ∧ r.start = regEnd (regAt mem i) ∧
        regEnd (regAt mem i) ≤ phys) ∧
      (∀ i, i < mem.length → regEnd (regAt mem i) ≤ phys →
        regEnd (regAt mem i) ≤ r.start) ∧
      (r.stop = ULONG_MAX ∨ ∃ i, i < mem.length ∧
        r.stop = (regAt mem i).base ∧ phys < (regAt mem i).base) ∧
      (∀ i, i < mem.length → phys < (regAt mem i).base →
        r.stop ≤ (regAt mem i).base)) ∧
    (addr_is_memory mem phys = true ↔
      ∃ i, i < mem.length ∧ regContains (regAt mem i) phys) ∧
    (∀ start stop, range_is_memory mem start stop = true ↔
      ∃ i, i < mem.length ∧ regContains (regAt mem i) start ∧
        regContains (regAt mem i) (stop - 1)) := by
  have hpost := find_mem_range_spec mem phys hs
  refine ⟨?_, ?_, ?_, addr_is_memory_iff mem phys hs,
    fun start stop => range_is_memory_iff mem start stop hs⟩
  · intro reg r hfind
    rw [hfind] at hpost
    obtain ⟨⟨j, hj, hreg⟩, hc, hr⟩ := hpost
    exact ⟨hreg ▸ regAt_is_mem mem j hj, hc, hr⟩
  · constructor
    · intro h
      rcases hfind : find_mem_range mem phys with ⟨o, r⟩
      rw [hfind] at hpost h
      cases o with
      | none => simp at h
      | some reg =>
        obtain ⟨⟨j, hj, hreg⟩, hc, _⟩ := hpost
        exact ⟨j, hj, hreg ▸ hc⟩
    · rintro ⟨i, hi, hc⟩
      have := find_mem_range_of_contains mem phys hs hi hc
      rw [this]
      rfl
  · intro r hfind
    rw [hfind] at hpost
    obtain ⟨hnone, hstart, hstop, hsmax, hsmin, hle, hlt⟩ := hpost
    refine ⟨hnone, hle, ?_, hstart, hsmax, hstop, hsmin⟩
    rcases hlt with h | h
    · omega
    · omega


/-! ### Claim C3 — firmware region protection -/

theorem hyp_unmap_full (addr n : Nat) (s : SysState)
    (h : ∀ j, j < n → (s.hypPT (pfn_of addr + j)).isSome = true) :
    (kvm_pgtable_hyp_unmap addr (n * PAGE_SIZE) s).1 = n * PAGE_SIZE := by
  unfold kvm_pgtable_hyp_unmap
  simp only [size_div_pages]
  rw [List.filter_eq_self.mpr]
  · simp
  · intro a ha
    exact h a (List.mem_range.mp ha)

/-- C3 counterexample: a hyp-initiated donation to a protected guest whose
target IPA range lies inside the reserved pvmfw region SUCCEEDS —
`do_donate` returns 0 and the guest ends up owning the page — refuting the
claim that any initiator other than Host fails with `EPERM` with no
ownership transfer.  (In the code, `guest_complete_donation` only WARNs on
a non-host initiator; the EPERM branch is guarded by the completer VM not
being protected.) -/
theorem C3_counterexample :
    (do_donate demoCfg demoHypToGuestTx demoHypOwns).1 = 0 ∧
    (do_donate demoCfg demoHypToGuestTx demoHypOwns).2.guestPt 0 100 =
      .valid 90112 7 ∧
    guestPteOwned
      ((do_donate demoCfg demoHypToGuestTx demoHypOwns).2.guestPt 0 100) 22 := by
  refine ⟨by decide, by decide, by decide⟩

theorem set_owner_ret_zero (mem : List MemblockRegion)
    (addr size owner_id : Nat) (im : Bool) (nps : Nat) (s : SysState)
    (h : ¬ owner_id > KVM_MAX_OWNER_ID) :
    (__host_stage2_set_owner_locked mem addr size owner_id im nps s).1 = 0 := by
  unfold __host_stage2_set_owner_locked
  rw [if_neg h]
  split_ifs <;> rfl

theorem set_owner_guestPt (mem : List MemblockRegion)
    (addr size owner_id : Nat) (im : Bool) (nps : Nat) (s : SysState) :
    (__host_stage2_set_owner_locked mem addr size owner_id im nps s).2.guestPt
      = s.guestPt := by
  unfold __host_stage2_set_owner_locked host_stage2_idmap_locked
    host_stage2_annotate __host_update_page_state
  split_ifs <;> rfl

theorem set_owner_psci (mem : List MemblockRegion)
    (addr size owner_id : Nat) (im : Bool) (nps : Nat) (s : SysState) :
    (__host_stage2_set_owner_locked mem addr size owner_id im nps s).2.psciCount
      = s.psciCount := by
  unfold __host_stage2_set_owner_locked host_stage2_idmap_locked
    host_stage2_annotate __host_update_page_state
  split_ifs <;> rfl

theorem __do_donate_host_guest (cfg : Config) (tx : PkvmMemTransition)
    (s : SysState) (h1 : tx.initiator_id = ComponentId.host)
    (h2 : tx.completer_id = ComponentId.guest) :
    __do_donate cfg tx s =
      (if (host_initiate_donation cfg.mem tx s).1 ≠ 0 then
        ((host_initiate_donation cfg.mem tx s).1,
          (host_initiate_donation cfg.mem tx s).2.2)
      else
        guest_complete_donation cfg (host_initiate_donation cfg.mem tx s).2.1 tx
          (host_initiate_donation cfg.mem tx s).2.2) := by
  unfold __do_donate
  rw [h1, h2]

theorem __do_donate_hyp_guest (cfg : Config) (tx : PkvmMemTransition)
    (s : SysState) (h1 : tx.initiator_id = ComponentId.hyp)
    (h2 : tx.completer_id = ComponentId.guest) :
    __do_donate cfg tx s =
      (if (hyp_initiate_donation tx s).1 ≠ 0 then
        ((hyp_initiate_donation tx s).1, (hyp_initiate_donation tx s).2.2)
      else
        guest_complete_donation cfg (hyp_initiate_donation tx s).2.1 tx
          (hyp_initiate_donation tx s).2.2) := by
  unfold __do_donate
  rw [h1, h2]

/-- `guest_complete_donation` on a pvmfw-overlapping range of an
unprotected VM: fails with `-EPERM`, undoing only the psci accounting. -/
theorem guest_complete_donation_unprot (cfg : Config) (addr : Nat)
    (tx : PkvmMemTransition) (s : SysState)
    (hpv : pkvm_ipa_range_has_pvmfw cfg tx.completer_guest addr
      (addr + txSize tx) = true)
    (hprot : cfg.vmProtected tx.completer_guest = false) :
    guest_complete_donation cfg addr tx s =
      (-EPERM,
        if tx.initiator_id = ComponentId.host then
          psci_mem_protect_dec tx.nr_pages (psci_mem_protect_inc tx.nr_pages s)
        else s) := by
  unfold guest_complete_donation
  simp only [hpv, pkvm_hyp_vcpu_is_protected, hprot, Bool.not_false, if_true,
    reduceIte]
  split_ifs <;> rfl

/-- C3 as amended: a donate-to-guest transition whose target range falls
inside the reserved pvmfw region fails with `-EPERM` exactly when the
completer VM is not protected; a non-Host initiator only triggers a
warning (and every donate-to-guest entry point in the file passes Host).
On that failure the guest table is untouched and the psci accounting is
restored, while initiator-side commit effects are not rolled back
(commit-phase failure). -/
theorem C3_pvmfw_guard (cfg : Config) (tx : PkvmMemTransition) (s : SysState)
    (hcomp : tx.completer_id = ComponentId.guest)
    (hini : tx.initiator_id = ComponentId.host ∨
      tx.initiator_id = ComponentId.hyp)
    (hchk : check_donation cfg tx s = 0)
    (hmapped : tx.initiator_id = ComponentId.hyp →
      ∀ j, j < tx.nr_pages →
        (s.hypPT (pfn_of tx.initiator_addr + j)).isSome = true)
    (hpv : pkvm_ipa_range_has_pvmfw cfg tx.completer_guest
      tx.initiator_completer_addr
      (tx.initiator_completer_addr + txSize tx) = true)
    (hprot : cfg.vmProtected tx.completer_guest = false) :
    (do_donate cfg tx s).1 = -EPERM ∧
    (do_donate cfg tx s).2.guestPt = s.guestPt ∧
    (do_donate cfg tx s).2.psciCount = s.psciCount := by
  have hdo : do_donate cfg tx s = __do_donate cfg tx s := by
    unfold do_donate
    rw [hchk]
    norm_num
  rw [hdo]
  rcases hini with hh | hh
  · -- host-initiated: the initiate phase cannot fail (owner id in range)
    have hown : ¬ ComponentId.ownerId tx.completer_id > KVM_MAX_OWNER_ID := by
      rw [hcomp]; decide
    have hret : (host_initiate_donation cfg.mem tx s).1 = 0 := by
      unfold host_initiate_donation host_stage2_set_owner_locked
      exact set_owner_ret_zero _ _ _ _ _ _ _ hown
    have haddr : (host_initiate_donation cfg.mem tx s).2.1 =
        tx.initiator_completer_addr := by
      unfold host_initiate_donation; rfl
    rw [__do_donate_host_guest cfg tx s hh hcomp]
    rw [if_neg (by rw [hret]; norm_num)]
    rw [haddr,
      guest_complete_donation_unprot cfg tx.initiator_completer_addr tx _ hpv
        hprot]
    rw [hh]
    have hgp : (host_initiate_donation cfg.mem tx s).2.2.guestPt =
        s.guestPt := by
      unfold host_initiate_donation host_stage2_set_owner_locked
      exact set_owner_guestPt _ _ _ _ _ _ _
    have hpc : (host_initiate_donation cfg.mem tx s).2.2.psciCount =
        s.psciCount := by
      unfold host_initiate_donation host_stage2_set_owner_locked
      exact set_owner_psci _ _ _ _ _ _ _
    rw [if_pos rfl]
    refine ⟨rfl, ?_, ?_⟩
    · show ((host_initiate_donation cfg.mem tx s).2.2).guestPt = s.guestPt
      exact hgp
    · show ((host_initiate_donation cfg.mem tx s).2.2).psciCount +
        tx.nr_pages - tx.nr_pages = s.psciCount
      rw [hpc]
      omega
  · -- hyp-initiated: the full range is mapped, so the unmap succeeds
    have hfull := hyp_unmap_full tx.initiator_addr tx.nr_pages s (hmapped hh)
    have hret : (hyp_initiate_donation tx s).1 = 0 := by
      unfold hyp_initiate_donation txSize
      simp [hfull]
    have haddr : (hyp_initiate_donation tx s).2.1 =
        tx.initiator_completer_addr := by
      unfold hyp_initiate_donation; rfl
    have hst : (hyp_initiate_donation tx s).2.2.guestPt = s.guestPt ∧
        (hyp_initiate_donation tx s).2.2.psciCount = s.psciCount := by
      unfold hyp_initiate_donation kvm_pgtable_hyp_unmap
      exact ⟨rfl, rfl⟩
    rw [__do_donate_hyp_guest cfg tx s hh hcomp]
    rw [if_neg (by rw [hret]; norm_num)]
    rw [haddr,
      guest_complete_donation_unprot cfg tx.initiator_completer_addr tx _ hpv
        hprot]
    rw [hh]
    rw [if_neg (by decide)]
    exact ⟨rfl, hst.1, hst.2⟩


/-! ### State-evaluation lemmas for the commit phases -/

theorem updRange_one_const {A : Type} (f : Nat → A) (p0 : Nat) (g : Nat → A) :
    updRange f p0 1 g = updRange f p0 1 (fun _ => g p0) := by
  funext p
  unfold updRange
  split_ifs with h
  · have : p = p0 := by omega
    rw [this]
  · rfl

theorem __host_set_page_state_range_eval (addr size st : Nat) (s : SysState) :
    __host_set_page_state_range addr size st s =
      (0, { s with
        hostPT :=
          if Nat.land (s.hostState (pfn_of addr)) PKVM_NOPAGE ≠ 0 then
            updRange s.hostPT (pfn_of addr) (size / PAGE_SIZE)
              fun _ => .valid PKVM_HOST_MEM_PROT
          else s.hostPT
        hostState := updRange s.hostState (pfn_of addr) (size / PAGE_SIZE)
          fun _ => st }) := by
  unfold __host_set_page_state_range host_stage2_idmap_locked
    __host_update_page_state
  split_ifs <;> rfl

theorem host_stage2_set_owner_eval (mem : List MemblockRegion)
    (addr size owner_id : Nat) (s : SysState)
    (h : ¬ owner_id > KVM_MAX_OWNER_ID) :
    host_stage2_set_owner_locked mem addr size owner_id s =
      (0, { s with
        hostPT := updRange s.hostPT (pfn_of addr) (size / PAGE_SIZE)
          fun _ =>
            if owner_id = 0 then
              .valid (default_host_prot (addr_is_memory mem addr))
            else .annot owner_id
        hostState :=
          if addr_is_memory mem addr then
            updRange s.hostState (pfn_of addr) (size / PAGE_SIZE)
              fun _ => if owner_id = 0 then PKVM_PAGE_OWNED else PKVM_NOPAGE
          else s.hostState }) := by
  unfold host_stage2_set_owner_locked __host_stage2_set_owner_locked
    host_stage2_idmap_locked host_stage2_annotate __host_update_page_state
  rw [if_neg h]
  rcases hmem : addr_is_memory mem addr with _ | _ <;>
    by_cases ho : owner_id = 0 <;>
      simp only [ho, ComponentId.ownerId, hmem, Bool.false_eq_true,
        Bool.true_eq_false, not_false_eq_true, not_true_eq_false, if_true,
        if_false, reduceIte, ite_true, ite_false] <;>
      rfl

theorem hyp_unmap_eval (addr n : Nat) (s : SysState)
    (h : ∀ j, j < n → (s.hypPT (pfn_of addr + j)).isSome = true) :
    kvm_pgtable_hyp_unmap addr (n * PAGE_SIZE) s =
      (n * PAGE_SIZE,
        { s with hypPT := updRange s.hypPT (pfn_of addr) n fun _ => none }) := by
  unfold kvm_pgtable_hyp_unmap
  simp only [size_div_pages]
  rw [List.filter_eq_self.mpr]
  · simp
  · intro a ha
    exact h a (List.mem_range.mp ha)

theorem guest_stage2_map_one (vm ipa phys prot : Nat) (s : SysState) :
    guest_stage2_map vm ipa (1 * PAGE_SIZE) phys prot s =
      (0, { s with guestPt := fun g =>
            if g = vm then
              updRange (s.guestPt g) (pfn_of ipa) 1 fun _ => .valid phys prot
            else s.guestPt g }) := by
  unfold guest_stage2_map
  simp only [size_div_pages]
  have hfn : (fun g => if g = vm then
        updRange (s.guestPt g) (pfn_of ipa) 1
          fun p => GuestPTE.valid (phys + (p - pfn_of ipa) * PAGE_SIZE) prot
      else s.guestPt g) =
      (fun g => if g = vm then
        updRange (s.guestPt g) (pfn_of ipa) 1 fun _ => GuestPTE.valid phys prot
      else s.guestPt g) := by
    funext g
    split_ifs with hg
    · rw [updRange_one_const]
      simp
    · rfl
  rw [hfn]

/-! ### Transition-record field lemmas -/

theorem host_hyp_tx_eval (mem : List MemblockRegion) (pfn : Nat) :
    host_hyp_tx mem pfn =
      { nr_pages := 1
        initiator_id := .host
        initiator_addr := pfn * PAGE_SIZE
        initiator_completer_addr := pfn * PAGE_SIZE
        initiator_guest := 0
        completer_id := .hyp
        completer_prot := default_hyp_prot mem (pfn * PAGE_SIZE)
        completer_guest := 0
        completer_guest_phys := 0 } := rfl

theorem guest_host_tx_eval (vm ipa : Nat) :
    guest_host_tx vm ipa =
      { nr_pages := 1
        initiator_id := .guest
        initiator_addr := ipa
        initiator_completer_addr := 0
        initiator_guest := vm
        completer_id := .host
        completer_prot := PKVM_HOST_MEM_PROT
        completer_guest := 0
        completer_guest_phys := 0 } := rfl


/-! ### Check-phase extraction lemmas -/

/-- Inside the gap returned by a failed `find_mem_range`, nothing is
declared memory. -/
theorem find_none_not_memory (mem : List MemblockRegion) (hs : MemSorted mem)
    {addr x : Nat} (hnone : (find_mem_range mem addr).1 = none)
    (hx1 : (find_mem_range mem addr).2.start ≤ x)
    (hx2 : x < (find_mem_range mem addr).2.stop) :
    addr_is_memory mem x = false := by
  have hpost := find_mem_range_spec mem addr hs
  rcases hfind : find_mem_range mem addr with ⟨o, r⟩
  rw [hfind] at hpost hnone hx1 hx2
  cases o with
  | some reg => simp at hnone
  | none =>
    obtain ⟨hnc, _, _, hsmax, hsmin, _, _⟩ := hpost
    apply addr_is_memory_eq_false mem x hs
    intro i hi hc
    rcases Nat.lt_or_ge addr (regAt mem i).base with hlt | hge
    · have := hsmin i hi hlt
      have := hc.1
      simp only [] at hx2
      omega
    · rcases Nat.lt_or_ge addr (regEnd (regAt mem i)) with hlt2 | hge2
      · exact hnc i hi ⟨hge, hlt2⟩
      · have := hsmax i hi hge2
        have := hc.2
        simp only [] at hx1
        omega

/-- Successful `__host_check_page_state_range` over an aligned range:
either every page is declared memory with the desired vmemmap state, or
no page of the range is declared memory (the MMIO case). -/
theorem host_check_elim (mem : List MemblockRegion) (hs : MemSorted mem)
    {a n st : Nat} {s : SysState} (hn : 0 < n)
    (h : __host_check_page_state_range mem (a * PAGE_SIZE) (n * PAGE_SIZE) st s
      = 0) :
    (∀ j, j < n → isMemPfn mem (a + j) = true ∧ s.hostState (a + j) = st) ∨
    (∀ j, j < n → isMemPfn mem (a + j) = false) := by
  have hP : PAGE_SIZE = 4096 := rfl
  have hpost := find_mem_range_spec mem (a * PAGE_SIZE) hs
  unfold __host_check_page_state_range at h
  rcases hfind : find_mem_range mem (a * PAGE_SIZE) with ⟨o, r⟩
  rw [hfind] at h hpost
  by_cases hin : is_in_mem_range (a * PAGE_SIZE + n * PAGE_SIZE - 1) r = true
  · rw [if_neg (by simp [hin])] at h
    have hin' := of_decide_eq_true hin
    cases o with
    | none =>
      right
      intro j hj
      apply @find_none_not_memory mem hs (a * PAGE_SIZE) ((a + j) * PAGE_SIZE)
      · rw [hfind]
      · rw [hfind]
        obtain ⟨_, _, _, _, _, hle, _⟩ := hpost
        simp only []
        rw [hP] at hle ⊢
        omega
      · rw [hfind]
        simp only []
        rw [hP]
        rw [hP] at hin'
        omega
    | some reg =>
      left
      obtain ⟨⟨i, hi, hreg⟩, hc, hr⟩ := hpost
      unfold ___host_check_page_state_range at h
      dsimp only at h
      rcases hnm : reg.nomap with _ | _
      · rw [hnm] at h
        simp only [Bool.false_eq_true, if_false] at h
        by_cases hall : allPfns (pfn_of (a * PAGE_SIZE))
            (n * PAGE_SIZE / PAGE_SIZE) (fun p => s.hostState p == st) = true
        · intro j hj
          have hstj := (allPfns_iff _ _ _).mp hall j
            (by rw [size_div_pages]; exact hj)
          rw [pfn_of_mul] at hstj
          refine ⟨?_, by simpa using hstj⟩
          rw [isMemPfn, addr_is_memory_iff mem _ hs]
          refine ⟨i, hi, ?_⟩
          rw [← hreg]
          subst hr
          have hb := hc.1
          have he := hc.2
          unfold regContains at *
          unfold hyp_pfn_to_phys
          simp only [] at hin'
          constructor
          · rw [hP] at *
            omega
          · rw [hP] at *
            omega
        · rw [if_neg (by simpa using hall)] at h
          norm_num [EPERM] at h
      · rw [hnm] at h
        simp at h
        norm_num [EPERM] at h
  · rw [if_pos (by simpa using hin)] at h
    norm_num [EINVAL] at h

/-- Successful hyp-side page-state check: every page has the desired
state. -/
theorem hyp_check_elim {a n st : Nat} {s : SysState}
    (h : __hyp_check_page_state_range (a * PAGE_SIZE) (n * PAGE_SIZE) st s = 0) :
    ∀ j, j < n → hyp_get_page_state (s.hypPT (a + j)) = st := by
  unfold __hyp_check_page_state_range at h
  intro j hj
  by_cases hall : allPfns (pfn_of (a * PAGE_SIZE)) (n * PAGE_SIZE / PAGE_SIZE)
      (fun p => hyp_get_page_state (s.hypPT p) == st) = true
  · have := (allPfns_iff _ _ _).mp hall j (by rw [size_div_pages]; exact hj)
    rw [pfn_of_mul] at this
    simpa using this
  · rw [if_neg (by simpa using hall)] at h
    norm_num [EPERM] at h

/-- Successful guest-side page-state check: every page has the desired
state. -/
theorem guest_check_elim {vm a n st : Nat} {s : SysState}
    (h : __guest_check_page_state_range vm (a * PAGE_SIZE) (n * PAGE_SIZE) st s
      = 0) :
    ∀ j, j < n → guest_get_page_state (s.guestPt vm (a + j)) = st := by
  unfold __guest_check_page_state_range at h
  intro j hj
  by_cases hall : allPfns (pfn_of (a * PAGE_SIZE)) (n * PAGE_SIZE / PAGE_SIZE)
      (fun p => guest_get_page_state (s.guestPt vm p) == st) = true
  · have := (allPfns_iff _ _ _).mp hall j (by rw [size_div_pages]; exact hj)
    rw [pfn_of_mul] at this
    simpa using this
  · rw [if_neg (by simpa using hall)] at h
    norm_num [EPERM] at h


/-! ### Page-state shape lemmas -/

theorem zero_lor_nat (n : Nat) : Nat.lor 0 n = n := Nat.zero_or n

theorem lor_two_ne {x v : Nat} (hv : v.testBit 1 = false) :
    Nat.lor 2 x ≠ v := by
  intro h
  have h1 : (Nat.lor 2 x).testBit 1 = true := by
    show (2 ||| x).testBit 1 = true
    rw [Nat.testBit_lor]
    simp [show Nat.testBit 2 1 = true by decide]
  rw [h, hv] at h1
  exact absurd h1 (by simp)

/-- A guest PTE in the exact `Owned` state is a valid RWX mapping. -/
theorem guest_state_owned_shape {pte : GuestPTE}
    (h : guest_get_page_state pte = PKVM_PAGE_OWNED) :
    ∃ ph pr, pte = .valid ph pr ∧
      Nat.land pr KVM_PGTABLE_PROT_RWX = KVM_PGTABLE_PROT_RWX ∧
      pkvm_getstate pr = PKVM_PAGE_OWNED := by
  cases pte with
  | zero => exact absurd h (by decide)
  | annot tag =>
      exact absurd (show PKVM_NOPAGE = _ from h) (by decide)
  | valid ph pr =>
    simp only [guest_get_page_state] at h
    refine ⟨ph, pr, rfl, ?_, ?_⟩
    · by_contra hne
      rw [if_pos hne] at h
      exact lor_two_ne (by decide) h
    · by_cases hne : Nat.land pr KVM_PGTABLE_PROT_RWX = KVM_PGTABLE_PROT_RWX
      · rw [if_neg (by simp [hne]), zero_lor_nat] at h
        exact h
      · rw [if_pos hne] at h
        exact absurd h (lor_two_ne (by decide))

/-- A guest PTE in the exact `SharedOwned` state is a valid RWX mapping
with the SW0 bit. -/
theorem guest_state_shared_owned_shape {pte : GuestPTE}
    (h : guest_get_page_state pte = PKVM_PAGE_SHARED_OWNED) :
    ∃ ph pr, pte = .valid ph pr ∧
      Nat.land pr KVM_PGTABLE_PROT_RWX = KVM_PGTABLE_PROT_RWX ∧
      pkvm_getstate pr = PKVM_PAGE_SHARED_OWNED := by
  cases pte with
  | zero => exact absurd h (by decide)
  | annot tag =>
      exact absurd (show PKVM_NOPAGE = _ from h) (by decide)
  | valid ph pr =>
    simp only [guest_get_page_state] at h
    refine ⟨ph, pr, rfl, ?_, ?_⟩
    · by_contra hne
      rw [if_pos hne] at h
      exact lor_two_ne (by decide) h
    · by_cases hne : Nat.land pr KVM_PGTABLE_PROT_RWX = KVM_PGTABLE_PROT_RWX
      · rw [if_neg (by simp [hne]), zero_lor_nat] at h
        exact h
      · rw [if_pos hne] at h
        exact absurd h (lor_two_ne (by decide))

/-- A guest PTE in the exact `SharedBorrowed` state is a valid RWX mapping
with the SW1 bit. -/
theorem guest_state_shared_borrowed_shape {pte : GuestPTE}
    (h : guest_get_page_state pte = PKVM_PAGE_SHARED_BORROWED) :
    ∃ ph pr, pte = .valid ph pr ∧
      Nat.land pr KVM_PGTABLE_PROT_RWX = KVM_PGTABLE_PROT_RWX ∧
      pkvm_getstate pr = PKVM_PAGE_SHARED_BORROWED := by
  cases pte with
  | zero => exact absurd h (by decide)
  | annot tag =>
      exact absurd (show PKVM_NOPAGE = _ from h) (by decide)
  | valid ph pr =>
    simp only [guest_get_page_state] at h
    refine ⟨ph, pr, rfl, ?_, ?_⟩
    · by_contra hne
      rw [if_pos hne] at h
      exact lor_two_ne (by decide) h
    · by_cases hne : Nat.land pr KVM_PGTABLE_PROT_RWX = KVM_PGTABLE_PROT_RWX
      · rw [if_neg (by simp [hne]), zero_lor_nat] at h
        exact h
      · rw [if_pos hne] at h
        exact absurd h (lor_two_ne (by decide))

/-- A hyp entry whose page state is not `NOPAGE` is present. -/
theorem hyp_state_some {e : Option Nat} {st : Nat}
    (h : hyp_get_page_state e = st) (hne : st ≠ PKVM_NOPAGE) :
    ∃ pr, e = some pr := by
  cases e with
  | none => exact absurd (h.symm.trans rfl) hne
  | some pr => exact ⟨pr, rfl⟩

/-! ### Guest request extraction -/

theorem guest_request_elim (mem : List MemblockRegion)
    (tx : PkvmMemTransition) (desired : Nat) (s : SysState) {ca : Nat}
    (h : __guest_request_page_transition mem tx desired s = (0, ca)) :
    tx.nr_pages = 1 ∧
    guest_get_page_state
      (guest_get_leaf s tx.initiator_guest tx.initiator_addr) = desired ∧
    addr_is_allowed_memory mem
      (guest_get_leaf s tx.initiator_guest tx.initiator_addr).physOf = true ∧
    ca = (guest_get_leaf s tx.initiator_guest tx.initiator_addr).physOf ∧
    (tx.completer_id = ComponentId.host ∨ tx.completer_id = ComponentId.hyp) := by
  unfold __guest_request_page_transition at h
  by_cases h1 : tx.nr_pages ≠ 1
  · rw [if_pos h1] at h
    exact absurd (congrArg Prod.fst h) (by norm_num [E2BIG])
  · rw [if_neg h1] at h
    push_neg at h1
    by_cases h2 : guest_get_page_state
        (guest_get_leaf s tx.initiator_guest tx.initiator_addr) = PKVM_NOPAGE
    · rw [if_pos h2] at h
      exact absurd (congrArg Prod.fst h) (by norm_num [EFAULT])
    · rw [if_neg h2] at h
      by_cases h3 : guest_get_page_state
          (guest_get_leaf s tx.initiator_guest tx.initiator_addr) ≠ desired
      · rw [if_pos h3] at h
        exact absurd (congrArg Prod.fst h) (by norm_num [EPERM])
      · rw [if_neg h3] at h
        push_neg at h3
        rw [if_neg (by norm_num)] at h
        by_cases h4 : addr_is_allowed_memory mem
            (guest_get_leaf s tx.initiator_guest tx.initiator_addr).physOf = true
        · rw [if_neg (by simp [h4])] at h
          unfold __guest_get_completer_addr at h
          rcases hcid : tx.completer_id with _ | _ | _ | _ <;> rw [hcid] at h
          · exact ⟨h1, h3, h4, by
              simpa using (congrArg Prod.snd h).symm, Or.inl rfl⟩
          · exact ⟨h1, h3, h4, by
              simpa [hyp_va] using (congrArg Prod.snd h).symm, Or.inr rfl⟩
          · exact absurd (congrArg Prod.fst h) (by norm_num [EINVAL])
          · exact absurd (congrArg Prod.fst h) (by norm_num [EINVAL])
        · rw [if_pos (by simpa using h4)] at h
          exact absurd (congrArg Prod.fst h) (by norm_num [EINVAL])

/-! ### Pattern identification from the invariant -/

theorem inv_host_owned (cfg : Config) (s : SysState) (hinv : Inv cfg s)
    {p : Nat} (hmem : isMemPfn cfg.mem p = true)
    (h : s.hostState p = PKVM_PAGE_OWNED) :
    s.hypPT p = none ∧ NoGuestMaps cfg s p := by
  rcases hinv.1 p hmem with h1 | h2 | h3 | h4 | h5 | h6 | h7 | h8
  · exact absurd (h1.1.symm.trans h) (by decide)
  · exact ⟨h2.2.1, h2.2.2⟩
  · exact absurd (h3.1.symm.trans h) (by decide)
  · exact absurd (h4.1.symm.trans h) (by decide)
  · exact absurd (h5.1.symm.trans h) (by decide)
  · exact absurd (h6.1.symm.trans h) (by decide)
  · exact absurd (h7.1.symm.trans h) (by decide)
  · exact absurd (h8.1.symm.trans h) (by decide)

theorem inv_host_shared_owned (cfg : Config) (s : SysState) (hinv : Inv cfg s)
    {p : Nat} (hmem : isMemPfn cfg.mem p = true)
    (h : s.hostState p = PKVM_PAGE_SHARED_OWNED) :
    (s.hypPT p = some (pkvm_mkstate PAGE_HYP PKVM_PAGE_SHARED_BORROWED) ∧
      NoGuestMaps cfg s p) ∨
    (s.hypPT p = none ∧
      ∃ g, g < cfg.nrGuests ∧ ∃ ipa, ipa < cfg.ipaLimit ∧
        guestPteSharedBorrowed (s.guestPt g ipa) p ∧ GuestSole cfg s g ipa p) ∨
    (s.hypPT p = none ∧ NoGuestMaps cfg s p) := by
  rcases hinv.1 p hmem with h1 | h2 | h3 | h4 | h5 | h6 | h7 | h8
  · exact absurd (h1.1.symm.trans h) (by decide)
  · exact absurd (h2.1.symm.trans h) (by decide)
  · exact absurd (h3.1.symm.trans h) (by decide)
  · exact absurd (h4.1.symm.trans h) (by decide)
  · exact Or.inl ⟨h5.2.1, h5.2.2⟩
  · exact Or.inr (Or.inl ⟨h6.2.1, h6.2.2⟩)
  · exact Or.inr (Or.inr ⟨h7.2.1, h7.2.2⟩)
  · exact absurd (h8.1.symm.trans h) (by decide)

theorem inv_hyp_mapped (cfg : Config) (s : SysState) (hinv : Inv cfg s)
    {p pr : Nat} (hmem : isMemPfn cfg.mem p = true)
    (h : s.hypPT p = some pr) :
    (s.hostState p = PKVM_NOPAGE ∧ pkvm_getstate pr = PKVM_PAGE_OWNED ∧
      NoGuestMaps cfg s p) ∨
    (s.hostState p = PKVM_PAGE_SHARED_OWNED ∧
      pr = pkvm_mkstate PAGE_HYP PKVM_PAGE_SHARED_BORROWED ∧
      NoGuestMaps cfg s p) := by
  rcases hinv.1 p hmem with h1 | h2 | h3 | h4 | h5 | h6 | h7 | h8
  · rw [h1.2.1] at h; exact absurd h (by simp)
  · rw [h2.2.1] at h; exact absurd h (by simp)
  · refine Or.inl ⟨h3.1, ?_, h3.2.2⟩
    have := h3.2.1
    rw [h] at this
    exact this
  · rw [h4.2.1] at h; exact absurd h (by simp)
  · refine Or.inr ⟨h5.1, ?_, h5.2.2⟩
    rw [h5.2.1] at h
    exact (Option.some.inj h).symm
  · rw [h6.2.1] at h; exact absurd h (by simp)
  · rw [h7.2.1] at h; exact absurd h (by simp)
  · rw [h8.2.1] at h; exact absurd h (by simp)

/-! ### Bit arithmetic of prot/state values -/

theorem and_or_distrib_right_nat (x y z : Nat) :
    (x ||| y) &&& z = (x &&& z) ||| (y &&& z) := by
  rw [Nat.and_comm, Nat.and_or_distrib_left, Nat.and_comm z x, Nat.and_comm z y]

/-- Installing a pure page state and reading it back is the identity. -/
theorem getstate_mkstate (prot st : Nat)
    (h : Nat.land st PKVM_PAGE_STATE_PROT_MASK = st) :
    pkvm_getstate (pkvm_mkstate prot st) = st := by
  have h' : st &&& 384 = st := h
  show ((prot &&& 127) ||| st) &&& 384 = st
  rw [and_or_distrib_right_nat, Nat.and_assoc,
    show (127 &&& 384 : Nat) = 0 by decide, Nat.and_zero, Nat.zero_or, h']

/-- A prot accepted by `guest_ack_share` (bits 3..8 clear) yields, after
`pkvm_mkstate _ PKVM_PAGE_SHARED_BORROWED`, exactly the PTE prot shape
recorded by `guestPteSharedBorrowed`. -/
theorem mkstate_sw1_shape (prot : Nat) (h : Nat.land prot 504 = 0) :
    pkvm_mkstate prot PKVM_PAGE_SHARED_BORROWED =
      Nat.lor (Nat.land (pkvm_mkstate prot PKVM_PAGE_SHARED_BORROWED)
        KVM_PGTABLE_PROT_RWX) KVM_PGTABLE_PROT_SW1 := by
  have h' : prot &&& 504 = 0 := h
  have h120 : prot &&& 120 = 0 := by
    have h1 : prot &&& (504 &&& 127) = 0 := by
      rw [← Nat.and_assoc, h', Nat.zero_and]
    rw [show (504 &&& 127 : Nat) = 120 by decide] at h1
    exact h1
  have h127 : prot &&& 127 = prot &&& 7 := by
    rw [show (127 : Nat) = 7 ||| 120 by decide, Nat.and_or_distrib_left, h120,
      Nat.or_zero]
  show (prot &&& 127) ||| 256 = (((prot &&& 127) ||| 256) &&& 7) ||| 256
  rw [and_or_distrib_right_nat, Nat.and_assoc,
    show (127 &&& 7 : Nat) = 7 by decide,
    show (256 &&& 7 : Nat) = 0 by decide, Nat.or_zero, h127]

theorem getstate_ne_one (pr : Nat) : pkvm_getstate pr ≠ 1 := by
  intro h
  have h' : pr &&& 384 = 1 := h
  have hb := congrArg (fun x => Nat.testBit x 0) h'
  simp only [Nat.testBit_land] at hb
  rw [show Nat.testBit 384 0 = false by decide] at hb
  simp at hb

/-- A prot of the shared-borrowed shape carries the SW1 state bit, hence
never reads back as a zero-bit state. -/
theorem sw1_getstate_ne_zero {pr : Nat}
    (hpr : pr = Nat.lor (Nat.land pr KVM_PGTABLE_PROT_RWX)
      KVM_PGTABLE_PROT_SW1) :
    pkvm_getstate pr ≠ PKVM_PAGE_OWNED := by
  intro h
  have hpr8 : pr.testBit 8 = true := by
    have h2 := congrArg (fun x => Nat.testBit x 8) hpr
    simp only [] at h2
    rw [h2]
    show ((pr &&& 7) ||| 256).testBit 8 = true
    rw [Nat.testBit_lor, show Nat.testBit 256 8 = true by decide]
    simp
  have h3 : (pkvm_getstate pr).testBit 8 = true := by
    show (pr &&& 384).testBit 8 = true
    rw [Nat.testBit_land, hpr8, show Nat.testBit 384 8 = true by decide]
    rfl
  rw [h] at h3
  exact absurd h3 (by decide)

/-- A guest PTE of the shared-borrowed prot shape never reads back as a
state without bit 8 (in particular neither `Owned` nor `SharedOwned`). -/
theorem guest_state_borrow_ne {ph pr st : Nat}
    (hpr : pr = Nat.lor (Nat.land pr KVM_PGTABLE_PROT_RWX)
      KVM_PGTABLE_PROT_SW1)
    (hst : Nat.testBit st 8 = false) :
    guest_get_page_state (.valid ph pr) ≠ st := by
  intro h
  have hpr8 : pr.testBit 8 = true := by
    have h2 := congrArg (fun x => Nat.testBit x 8) hpr
    simp only [] at h2
    rw [h2]
    show ((pr &&& 7) ||| 256).testBit 8 = true
    rw [Nat.testBit_lor, show Nat.testBit 256 8 = true by decide]
    simp
  have h8 : (guest_get_page_state (GuestPTE.valid ph pr)).testBit 8 = true := by
    show ((if Nat.land pr KVM_PGTABLE_PROT_RWX ≠ KVM_PGTABLE_PROT_RWX then
        PKVM_PAGE_RESTRICTED_PROT else 0) ||| (pr &&& 384)).testBit 8 = true
    rw [Nat.testBit_lor, Nat.testBit_land, hpr8,
      show Nat.testBit 384 8 = true by decide]
    split_ifs with hc
    · rw [show Nat.testBit PKVM_PAGE_RESTRICTED_PROT 8 = false by decide]
      rfl
    · rw [show Nat.testBit 0 8 = false by decide]
      rfl
  rw [h, hst] at h8
  simp at h8

/-- A guest PTE whose page state reads `NOPAGE` maps no physical page. -/
theorem guest_state_nopage_not_valid {pte : GuestPTE}
    (h : guest_get_page_state pte = PKVM_NOPAGE) :
    ∀ p, ¬ guestMapsPhys pte p := by
  intro p hm
  cases pte with
  | zero => exact hm
  | annot tag => exact hm
  | valid ph pr =>
    simp only [guest_get_page_state] at h
    by_cases hc : Nat.land pr KVM_PGTABLE_PROT_RWX ≠ KVM_PGTABLE_PROT_RWX
    · rw [if_pos hc] at h
      exact lor_two_ne (by decide) h
    · rw [if_neg hc, zero_lor_nat] at h
      exact getstate_ne_one pr h

/-- Shape of a hyp stage-1 entry from its exact page state (for states
without bit 1, other than `NOPAGE`). -/
theorem hyp_state_shape {e : Option Nat} {st : Nat} (hb : st.testBit 1 = false)
    (hne : st ≠ PKVM_NOPAGE) (h : hyp_get_page_state e = st) :
    ∃ pr, e = some pr ∧ Nat.land pr KVM_PGTABLE_PROT_RWX = PAGE_HYP ∧
      pkvm_getstate pr = st := by
  cases e with
  | none => exact absurd h.symm hne
  | some pr =>
    simp only [hyp_get_page_state] at h
    refine ⟨pr, rfl, ?_, ?_⟩
    · by_contra hne2
      rw [if_pos hne2] at h
      exact lor_two_ne hb h
    · by_cases hc : Nat.land pr KVM_PGTABLE_PROT_RWX = PAGE_HYP
      · rw [if_neg (by simp [hc]), zero_lor_nat] at h
        exact h
      · rw [if_pos hc] at h
        exact absurd h (lor_two_ne hb)

theorem guest_state_valid_rwx (ph : Nat) :
    guest_get_page_state (.valid ph KVM_PGTABLE_PROT_RWX) =
      PKVM_PAGE_OWNED := rfl

theorem guest_state_valid_135 (ph : Nat) :
    guest_get_page_state (.valid ph (pkvm_mkstate KVM_PGTABLE_PROT_RWX
      PKVM_PAGE_SHARED_OWNED)) = PKVM_PAGE_SHARED_OWNED := rfl

theorem hyp_state_259 :
    hyp_get_page_state (some (pkvm_mkstate PAGE_HYP
      PKVM_PAGE_SHARED_BORROWED)) = PKVM_PAGE_SHARED_BORROWED := rfl

/-! ### Per-page transfer lemmas

`PageInv` reads only the `hostState`, `hypPT` and `guestPt` fields; these
lemmas transfer it across a state change that leaves page `p` alone. -/

theorem guestMapsPhys_of_owned {pte : GuestPTE} {p : Nat}
    (h : guestPteOwned pte p) : guestMapsPhys pte p := by
  cases pte with
  | zero => exact False.elim h
  | annot tag => exact False.elim h
  | valid ph pr => exact h.1

theorem guestMapsPhys_of_sharedBorrowed {pte : GuestPTE} {p : Nat}
    (h : guestPteSharedBorrowed pte p) : guestMapsPhys pte p := by
  cases pte with
  | zero => exact False.elim h
  | annot tag => exact False.elim h
  | valid ph pr => exact h.1

theorem borrow_not_owned {pte : GuestPTE} {p : Nat}
    (hb : guestPteSharedBorrowed pte p) : ¬ guestPteOwned pte p := by
  intro ho
  cases pte with
  | zero => exact hb
  | annot tag => exact hb
  | valid ph pr => exact sw1_getstate_ne_zero hb.2 ho.2

theorem noGuestMaps_upd {cfg : Config} {s t : SysState} {p : Nat}
    (hG : ∀ g ipa, g < cfg.nrGuests → ipa < cfg.ipaLimit →
      t.guestPt g ipa = s.guestPt g ipa ∨ ¬ guestMapsPhys (t.guestPt g ipa) p)
    (h : NoGuestMaps cfg s p) : NoGuestMaps cfg t p := by
  intro g hg ipa hipa
  rcases hG g ipa hg hipa with he | hn
  · rw [he]
    exact h g hg ipa hipa
  · exact hn

/-- If the only slots that change no longer map `p`, and no slot mapped `p`
before, any slot mapping `p` afterwards can only be the designated one. -/
theorem guestSole_intro {cfg : Config} {s t : SysState} {g0 ipa0 p : Nat}
    (hg0 : g0 < cfg.nrGuests) (hipa0 : ipa0 < cfg.ipaLimit)
    (hG : ∀ g ipa, g < cfg.nrGuests → ipa < cfg.ipaLimit →
      (g = g0 ∧ ipa = ipa0) ∨ t.guestPt g ipa = s.guestPt g ipa ∨
        ¬ guestMapsPhys (t.guestPt g ipa) p)
    (h : NoGuestMaps cfg s p) : GuestSole cfg t g0 ipa0 p := by
  refine ⟨hg0, hipa0, ?_⟩
  intro g hg ipa hipa hmaps
  rcases hG g ipa hg hipa with he | he | hn
  · exact he
  · rw [he] at hmaps
    exact absurd hmaps (h g hg ipa hipa)
  · exact absurd hmaps hn

theorem guestSole_transfer {cfg : Config} {s t : SysState} {g0 ipa0 p : Nat}
    (hG : ∀ g ipa, g < cfg.nrGuests → ipa < cfg.ipaLimit →
      t.guestPt g ipa = s.guestPt g ipa ∨
      (¬ guestMapsPhys (s.guestPt g ipa) p ∧
        ¬ guestMapsPhys (t.guestPt g ipa) p))
    (h : GuestSole cfg s g0 ipa0 p) : GuestSole cfg t g0 ipa0 p := by
  refine ⟨h.1, h.2.1, ?_⟩
  intro g hg ipa hipa hmaps
  rcases hG g ipa hg hipa with he | hn
  · rw [he] at hmaps
    exact h.2.2 g hg ipa hipa hmaps
  · exact absurd hmaps hn.2

/-- Transfer of the per-page pattern across a state change that leaves the
page's host/hyp entries alone and changes only guest slots not involving
the page. -/
theorem pageInv_transfer {cfg : Config} {s t : SysState} {p : Nat}
    (hH : t.hostState p = s.hostState p)
    (hY : t.hypPT p = s.hypPT p)
    (hG : ∀ g ipa, g < cfg.nrGuests → ipa < cfg.ipaLimit →
      t.guestPt g ipa = s.guestPt g ipa ∨
      (¬ guestMapsPhys (s.guestPt g ipa) p ∧
        ¬ guestMapsPhys (t.guestPt g ipa) p))
    (h : PageInv cfg s p) : PageInv cfg t p := by
  have hG' : ∀ g ipa, g < cfg.nrGuests → ipa < cfg.ipaLimit →
      t.guestPt g ipa = s.guestPt g ipa ∨
        ¬ guestMapsPhys (t.guestPt g ipa) p := by
    intro g ipa hg hipa
    rcases hG g ipa hg hipa with he | hn
    · exact Or.inl he
    · exact Or.inr hn.2
  rcases h with h1 | h2 | h3 | h4 | h5 | h6 | h7 | h8
  · exact Or.inl ⟨hH.trans h1.1, hY.trans h1.2.1, noGuestMaps_upd hG' h1.2.2⟩
  · exact Or.inr (Or.inl ⟨hH.trans h2.1, hY.trans h2.2.1,
      noGuestMaps_upd hG' h2.2.2⟩)
  · refine Or.inr (Or.inr (Or.inl ⟨hH.trans h3.1, ?_, noGuestMaps_upd hG' h3.2.2⟩))
    rw [hY]
    exact h3.2.1
  · obtain ⟨g, hg, ipa, hipa, hpte, hsole⟩ := h4.2.2
    have hslot : t.guestPt g ipa = s.guestPt g ipa := by
      rcases hG g ipa hg hipa with he | hn
      · exact he
      · exact absurd (show guestMapsPhys (s.guestPt g ipa) p by
          rw [hpte]; exact rfl) hn.1
    exact Or.inr (Or.inr (Or.inr (Or.inl ⟨hH.trans h4.1, hY.trans h4.2.1,
      g, hg, ipa, hipa, hslot.trans hpte, guestSole_transfer hG hsole⟩)))
  · refine Or.inr (Or.inr (Or.inr (Or.inr (Or.inl ⟨hH.trans h5.1,
      hY.trans h5.2.1, noGuestMaps_upd hG' h5.2.2⟩))))
  · obtain ⟨g, hg, ipa, hipa, hpte, hsole⟩ := h6.2.2
    have hslot : t.guestPt g ipa = s.guestPt g ipa := by
      rcases hG g ipa hg hipa with he | hn
      · exact he
      · exact absurd (guestMapsPhys_of_sharedBorrowed hpte) hn.1
    refine Or.inr (Or.inr (Or.inr (Or.inr (Or.inr (Or.inl ⟨hH.trans h6.1,
      hY.trans h6.2.1, g, hg, ipa, hipa, ?_,
      guestSole_transfer hG hsole⟩)))))
    rw [hslot]
    exact hpte
  · exact Or.inr (Or.inr (Or.inr (Or.inr (Or.inr (Or.inr (Or.inl
      ⟨hH.trans h7.1, hY.trans h7.2.1, noGuestMaps_upd hG' h7.2.2⟩))))))
  · obtain ⟨g, hg, ipa, hipa, hpte, hsole⟩ := h8.2.2
    have hslot : t.guestPt g ipa = s.guestPt g ipa := by
      rcases hG g ipa hg hipa with he | hn
      · exact he
      · exact absurd (show guestMapsPhys (s.guestPt g ipa) p by
          rw [hpte]; exact rfl) hn.1
    exact Or.inr (Or.inr (Or.inr (Or.inr (Or.inr (Or.inr (Or.inr
      ⟨hH.trans h8.1, hY.trans h8.2.1, g, hg, ipa, hipa,
        hslot.trans hpte, guestSole_transfer hG hsole⟩))))))

theorem guestPtesAligned_upd {cfg : Config} {s t : SysState}
    (hG : ∀ g ipa, g < cfg.nrGuests → ipa < cfg.ipaLimit →
      t.guestPt g ipa = s.guestPt g ipa ∨
      (∀ ph pr, t.guestPt g ipa = GuestPTE.valid ph pr → ph % PAGE_SIZE = 0))
    (h : GuestPtesAligned cfg s) : GuestPtesAligned cfg t := by
  intro g hg ipa hipa ph pr hpte
  rcases hG g ipa hg hipa with he | hal
  · exact h g hg ipa hipa ph pr (he.symm.trans hpte)
  · exact hal ph pr hpte

/-! ### Further pattern inventory and the single-owner consequence -/

theorem inv_host_shared_borrowed (cfg : Config) (s : SysState)
    (hinv : Inv cfg s) {p : Nat} (hmem : isMemPfn cfg.mem p = true)
    (h : s.hostState p = PKVM_PAGE_SHARED_BORROWED) :
    s.hypPT p = none ∧
    ∃ g, g < cfg.nrGuests ∧ ∃ ipa, ipa < cfg.ipaLimit ∧
      s.guestPt g ipa = .valid (hyp_pfn_to_phys p)
        (pkvm_mkstate KVM_PGTABLE_PROT_RWX PKVM_PAGE_SHARED_OWNED) ∧
      GuestSole cfg s g ipa p := by
  rcases hinv.1 p hmem with h1 | h2 | h3 | h4 | h5 | h6 | h7 | h8
  · exact absurd (h1.1.symm.trans h) (by decide)
  · exact absurd (h2.1.symm.trans h) (by decide)
  · exact absurd (h3.1.symm.trans h) (by decide)
  · exact absurd (h4.1.symm.trans h) (by decide)
  · exact absurd (h5.1.symm.trans h) (by decide)
  · exact absurd (h6.1.symm.trans h) (by decide)
  · exact absurd (h7.1.symm.trans h) (by decide)
  · exact ⟨h8.2.1, h8.2.2⟩

theorem inv_host_nopage (cfg : Config) (s : SysState)
    (hinv : Inv cfg s) {p : Nat} (hmem : isMemPfn cfg.mem p = true)
    (h : s.hostState p = PKVM_NOPAGE) :
    (s.hypPT p = none ∧ NoGuestMaps cfg s p) ∨
    (hypStateOwned (s.hypPT p) ∧ NoGuestMaps cfg s p) ∨
    (s.hypPT p = none ∧
      ∃ g, g < cfg.nrGuests ∧ ∃ ipa, ipa < cfg.ipaLimit ∧
        s.guestPt g ipa = .valid (hyp_pfn_to_phys p) KVM_PGTABLE_PROT_RWX ∧
        GuestSole cfg s g ipa p) := by
  rcases hinv.1 p hmem with h1 | h2 | h3 | h4 | h5 | h6 | h7 | h8
  · exact Or.inl ⟨h1.2.1, h1.2.2⟩
  · exact absurd (h2.1.symm.trans h) (by decide)
  · exact Or.inr (Or.inl ⟨h3.2.1, h3.2.2⟩)
  · exact Or.inr (Or.inr ⟨h4.2.1, h4.2.2⟩)
  · exact absurd (h5.1.symm.trans h) (by decide)
  · exact absurd (h6.1.symm.trans h) (by decide)
  · exact absurd (h7.1.symm.trans h) (by decide)
  · exact absurd (h8.1.symm.trans h) (by decide)

/-- Any in-bounds guest slot mapping a memory page pins down the page's
pattern: the slot is the sole mapper, the hyp has no entry, and the host
state keys the PTE shape. -/
theorem inv_guest_mapping (cfg : Config) (s : SysState) (hinv : Inv cfg s)
    {g ipa p : Nat} (hg : g < cfg.nrGuests) (hipa : ipa < cfg.ipaLimit)
    (hmem : isMemPfn cfg.mem p = true)
    (hmaps : guestMapsPhys (s.guestPt g ipa) p) :
    GuestSole cfg s g ipa p ∧ s.hypPT p = none ∧
    ((s.hostState p = PKVM_NOPAGE ∧
        s.guestPt g ipa = .valid (hyp_pfn_to_phys p) KVM_PGTABLE_PROT_RWX) ∨
     (s.hostState p = PKVM_PAGE_SHARED_OWNED ∧
        guestPteSharedBorrowed (s.guestPt g ipa) p) ∨
     (s.hostState p = PKVM_PAGE_SHARED_BORROWED ∧
        s.guestPt g ipa = .valid (hyp_pfn_to_phys p)
          (pkvm_mkstate KVM_PGTABLE_PROT_RWX PKVM_PAGE_SHARED_OWNED))) := by
  rcases hinv.1 p hmem with h1 | h2 | h3 | h4 | h5 | h6 | h7 | h8
  · exact absurd hmaps (h1.2.2 g hg ipa hipa)
  · exact absurd hmaps (h2.2.2 g hg ipa hipa)
  · exact absurd hmaps (h3.2.2 g hg ipa hipa)
  · obtain ⟨g0, hg0, ipa0, hipa0, hpte, hsole⟩ := h4.2.2
    obtain ⟨he1, he2⟩ := hsole.2.2 g hg ipa hipa hmaps
    subst he1
    subst he2
    exact ⟨hsole, h4.2.1, Or.inl ⟨h4.1, hpte⟩⟩
  · exact absurd hmaps (h5.2.2 g hg ipa hipa)
  · obtain ⟨g0, hg0, ipa0, hipa0, hpte, hsole⟩ := h6.2.2
    obtain ⟨he1, he2⟩ := hsole.2.2 g hg ipa hipa hmaps
    subst he1
    subst he2
    exact ⟨hsole, h6.2.1, Or.inr (Or.inl ⟨h6.1, hpte⟩)⟩
  · exact absurd hmaps (h7.2.2 g hg ipa hipa)
  · obtain ⟨g0, hg0, ipa0, hipa0, hpte, hsole⟩ := h8.2.2
    obtain ⟨he1, he2⟩ := hsole.2.2 g hg ipa hipa hmaps
    subst he1
    subst he2
    exact ⟨hsole, h8.2.1, Or.inr (Or.inr ⟨h8.1, hpte⟩)⟩

theorem not_hostOwns_of_state {s : SysState} {p v : Nat}
    (h : s.hostState p = v) (hv : v ≠ PKVM_PAGE_OWNED) :
    ¬ hostOwnsPage s p := by
  intro hh
  unfold hostOwnsPage at hh
  rw [h] at hh
  exact hv hh

theorem not_hypOwns_of_none {s : SysState} {p : Nat}
    (h : s.hypPT p = none) : ¬ hypOwnsPage s p := by
  intro hy
  unfold hypOwnsPage at hy
  rw [h] at hy
  exact hy

theorem not_hypOwns_of_shared {s : SysState} {p : Nat}
    (h : s.hypPT p = some (pkvm_mkstate PAGE_HYP PKVM_PAGE_SHARED_BORROWED)) :
    ¬ hypOwnsPage s p := by
  intro hy
  unfold hypOwnsPage at hy
  rw [h] at hy
  exact absurd hy (by decide)

theorem not_guestOwns_of_noMaps {cfg : Config} {s : SysState} {p : Nat}
    (h : NoGuestMaps cfg s p) :
    ∀ g, g < cfg.nrGuests → ¬ guestOwnsPage cfg s g p := by
  intro g hg ho
  obtain ⟨ipa, hipa, how⟩ := ho
  exact h g hg ipa hipa (guestMapsPhys_of_owned how)

/-- The functional single-owner statement is a consequence of the
pattern invariant. -/
theorem inv_atMostOneOwner (cfg : Config) (s : SysState) (hinv : Inv cfg s) :
    AtMostOneOwner cfg s := by
  intro p hmem
  rcases hinv.1 p hmem with h | h | h | h | h | h | h | h
  · exact ⟨fun hh => absurd (h.1.symm.trans hh) (by decide),
      fun hy => absurd hy (not_hypOwns_of_none h.2.1),
      fun g hg ho => absurd ho (not_guestOwns_of_noMaps h.2.2 g hg)⟩
  · exact ⟨fun _ => ⟨not_hypOwns_of_none h.2.1,
        not_guestOwns_of_noMaps h.2.2⟩,
      fun hy => absurd hy (not_hypOwns_of_none h.2.1),
      fun g hg ho => absurd ho (not_guestOwns_of_noMaps h.2.2 g hg)⟩
  · exact ⟨fun hh => absurd (h.1.symm.trans hh) (by decide),
      fun _ => ⟨not_hostOwns_of_state h.1 (by decide),
        not_guestOwns_of_noMaps h.2.2⟩,
      fun g hg ho => absurd ho (not_guestOwns_of_noMaps h.2.2 g hg)⟩
  · refine ⟨fun hh => absurd (h.1.symm.trans hh) (by decide),
      fun hy => absurd hy (not_hypOwns_of_none h.2.1), ?_⟩
    intro g hg ho
    obtain ⟨ipa, hipa, how⟩ := ho
    obtain ⟨g0, hg0, ipa0, hipa0, hpte, hsole⟩ := h.2.2
    have e1 := hsole.2.2 g hg ipa hipa (guestMapsPhys_of_owned how)
    refine ⟨not_hostOwns_of_state h.1 (by decide),
      not_hypOwns_of_none h.2.1, ?_⟩
    intro g' hg' ho'
    obtain ⟨ipa', hipa', how'⟩ := ho'
    have e2 := hsole.2.2 g' hg' ipa' hipa' (guestMapsPhys_of_owned how')
    exact e2.1.trans e1.1.symm
  · exact ⟨fun hh => absurd (h.1.symm.trans hh) (by decide),
      fun hy => absurd hy (not_hypOwns_of_shared h.2.1),
      fun g hg ho => absurd ho (not_guestOwns_of_noMaps h.2.2 g hg)⟩
  · refine ⟨fun hh => absurd (h.1.symm.trans hh) (by decide),
      fun hy => absurd hy (not_hypOwns_of_none h.2.1), ?_⟩
    intro g hg ho
    obtain ⟨ipa, hipa, how⟩ := ho
    obtain ⟨g0, hg0, ipa0, hipa0, hpte, hsole⟩ := h.2.2
    obtain ⟨he1, he2⟩ := hsole.2.2 g hg ipa hipa (guestMapsPhys_of_owned how)
    rw [he1, he2] at how
    exact absurd how (borrow_not_owned hpte)
  · exact ⟨fun hh => absurd (h.1.symm.trans hh) (by decide),
      fun hy => absurd hy (not_hypOwns_of_none h.2.1),
      fun g hg ho => absurd ho (not_guestOwns_of_noMaps h.2.2 g hg)⟩
  · refine ⟨fun hh => absurd (h.1.symm.trans hh) (by decide),
      fun hy => absurd hy (not_hypOwns_of_none h.2.1), ?_⟩
    intro g hg ho
    obtain ⟨ipa, hipa, how⟩ := ho
    obtain ⟨g0, hg0, ipa0, hipa0, hpte, hsole⟩ := h.2.2
    obtain ⟨he1, he2⟩ := hsole.2.2 g hg ipa hipa (guestMapsPhys_of_owned how)
    rw [he1, he2, hpte] at how
    exact absurd how.2 (by decide)

/-- The boot-time state satisfies the pattern invariant. -/
theorem inv_initState (cfg : Config) : Inv cfg (initState cfg) := by
  constructor
  · intro p hmem
    exact Or.inr (Or.inl ⟨rfl, rfl, fun g hg ipa hipa hm => hm⟩)
  · intro g hg ipa hipa ph pr hpte
    exact absurd hpte (by simp [initState])

/-! ### Invariant preservation: host share hyp -/

theorem isMemPfn_eq (mem : List MemblockRegion) (p : Nat) :
    isMemPfn mem p = addr_is_memory mem (p * PAGE_SIZE) := rfl

theorem inv_host_share_hyp (cfg : Config) (hcfg : ValidCfg cfg) (pfn : Nat)
    (s : SysState) (hinv : Inv cfg s) :
    Inv cfg (__pkvm_host_share_hyp cfg pfn s).2 := by
  have hP : PAGE_SIZE = 4096 := rfl
  show Inv cfg ((if check_share cfg (host_hyp_tx cfg.mem pfn) s ≠ 0 then
      (check_share cfg (host_hyp_tx cfg.mem pfn) s, s)
    else __do_share cfg (host_hyp_tx cfg.mem pfn) s).2)
  by_cases hc : check_share cfg (host_hyp_tx cfg.mem pfn) s = 0
  case neg =>
    rw [if_pos hc]
    exact hinv
  case pos =>
  rw [if_neg (by simp [hc])]
  have hc' : (if __host_check_page_state_range cfg.mem (pfn * PAGE_SIZE)
        (1 * PAGE_SIZE) PKVM_PAGE_OWNED s ≠ 0 then
        __host_check_page_state_range cfg.mem (pfn * PAGE_SIZE) (1 * PAGE_SIZE)
          PKVM_PAGE_OWNED s
      else hyp_ack_share cfg.mem (pfn * PAGE_SIZE) (host_hyp_tx cfg.mem pfn)
        (default_hyp_prot cfg.mem (pfn * PAGE_SIZE)) s) = 0 := hc
  have hreq := (ite_int_eq_zero hc').1
  have hcnt : (pfn * PAGE_SIZE + 1 * PAGE_SIZE - pfn * PAGE_SIZE) / PAGE_SIZE
      = 1 := by
    rw [hP]; omega
  have hini : host_initiate_share (host_hyp_tx cfg.mem pfn) s =
      (0, pfn * PAGE_SIZE,
        { s with
          hostPT := if Nat.land (s.hostState (pfn_of (pfn * PAGE_SIZE)))
              PKVM_NOPAGE ≠ 0 then
              updRange s.hostPT (pfn_of (pfn * PAGE_SIZE))
                (1 * PAGE_SIZE / PAGE_SIZE) fun _ => .valid PKVM_HOST_MEM_PROT
            else s.hostPT
          hostState := updRange s.hostState (pfn_of (pfn * PAGE_SIZE))
            (1 * PAGE_SIZE / PAGE_SIZE)
            fun _ => PKVM_PAGE_SHARED_OWNED }) := by
    show ((__host_set_page_state_range (pfn * PAGE_SIZE) (1 * PAGE_SIZE)
        PKVM_PAGE_SHARED_OWNED s).1, pfn * PAGE_SIZE,
      (__host_set_page_state_range (pfn * PAGE_SIZE) (1 * PAGE_SIZE)
        PKVM_PAGE_SHARED_OWNED s).2) = _
    rw [__host_set_page_state_range_eval]
  have hfin : (__do_share cfg (host_hyp_tx cfg.mem pfn) s).2 =
      { s with
        hostPT := if Nat.land (s.hostState (pfn_of (pfn * PAGE_SIZE)))
            PKVM_NOPAGE ≠ 0 then
            updRange s.hostPT (pfn_of (pfn * PAGE_SIZE))
              (1 * PAGE_SIZE / PAGE_SIZE) fun _ => .valid PKVM_HOST_MEM_PROT
          else s.hostPT
        hostState := updRange s.hostState (pfn_of (pfn * PAGE_SIZE))
          (1 * PAGE_SIZE / PAGE_SIZE) fun _ => PKVM_PAGE_SHARED_OWNED
        hypPT := updRange s.hypPT (pfn_of (pfn * PAGE_SIZE))
          ((pfn * PAGE_SIZE + 1 * PAGE_SIZE - pfn * PAGE_SIZE) / PAGE_SIZE)
          fun _ => some (pkvm_mkstate
            (default_hyp_prot cfg.mem (pfn * PAGE_SIZE))
            PKVM_PAGE_SHARED_BORROWED) } := by
    show (if (host_initiate_share (host_hyp_tx cfg.mem pfn) s).1 ≠ 0 then
        ((host_initiate_share (host_hyp_tx cfg.mem pfn) s).1,
          (host_initiate_share (host_hyp_tx cfg.mem pfn) s).2.2)
      else hyp_complete_share
        (host_initiate_share (host_hyp_tx cfg.mem pfn) s).2.1
        (host_hyp_tx cfg.mem pfn)
        (default_hyp_prot cfg.mem (pfn * PAGE_SIZE))
        (host_initiate_share (host_hyp_tx cfg.mem pfn) s).2.2).2 = _
    rw [hini, if_neg (by simp)]
    rfl
  rw [hfin]
  constructor
  · intro p hp
    by_cases hpp : p = pfn
    case neg =>
      refine pageInv_transfer ?_ ?_ ?_ (hinv.1 p hp)
      · show updRange s.hostState (pfn_of (pfn * PAGE_SIZE))
          (1 * PAGE_SIZE / PAGE_SIZE) (fun _ => PKVM_PAGE_SHARED_OWNED) p
          = s.hostState p
        rw [pfn_of_mul, size_div_pages]
        exact updRange_out _ _ _ _ _ (by omega)
      · show updRange s.hypPT (pfn_of (pfn * PAGE_SIZE))
          ((pfn * PAGE_SIZE + 1 * PAGE_SIZE - pfn * PAGE_SIZE) / PAGE_SIZE)
          (fun _ => some (pkvm_mkstate
            (default_hyp_prot cfg.mem (pfn * PAGE_SIZE))
            PKVM_PAGE_SHARED_BORROWED)) p = s.hypPT p
        rw [pfn_of_mul, hcnt]
        exact updRange_out _ _ _ _ _ (by omega)
      · exact fun g ipa hg hipa => Or.inl rfl
    case pos =>
    subst p
    rcases host_check_elim cfg.mem hcfg (by norm_num) hreq with hL | hR
    case inr =>
      have h0 := hR 0 (by norm_num)
      rw [show pfn + 0 = pfn from rfl] at h0
      rw [h0] at hp
      exact absurd hp (by decide)
    case inl =>
    obtain ⟨hm0, hst0⟩ := hL 0 (by norm_num)
    rw [show pfn + 0 = pfn from rfl] at hst0
    obtain ⟨hhyp, hng⟩ := inv_host_owned cfg s hinv hp hst0
    have hprot : default_hyp_prot cfg.mem (pfn * PAGE_SIZE) = PAGE_HYP := by
      unfold default_hyp_prot
      rw [if_pos (show addr_is_memory cfg.mem (pfn * PAGE_SIZE) = true from hp)]
    refine Or.inr (Or.inr (Or.inr (Or.inr (Or.inl ⟨?_, ?_, ?_⟩))))
    · show updRange s.hostState (pfn_of (pfn * PAGE_SIZE))
        (1 * PAGE_SIZE / PAGE_SIZE) (fun _ => PKVM_PAGE_SHARED_OWNED) pfn
        = PKVM_PAGE_SHARED_OWNED
      rw [pfn_of_mul, size_div_pages]
      exact updRange_in _ _ _ _ _ (by omega)
    · show updRange s.hypPT (pfn_of (pfn * PAGE_SIZE))
        ((pfn * PAGE_SIZE + 1 * PAGE_SIZE - pfn * PAGE_SIZE) / PAGE_SIZE)
        (fun _ => some (pkvm_mkstate
          (default_hyp_prot cfg.mem (pfn * PAGE_SIZE))
          PKVM_PAGE_SHARED_BORROWED)) pfn
        = some (pkvm_mkstate PAGE_HYP PKVM_PAGE_SHARED_BORROWED)
      rw [pfn_of_mul, hcnt, hprot]
      exact updRange_in _ _ _ _ _ (by omega)
    · exact noGuestMaps_upd (fun g ipa hg hipa => Or.inl rfl) hng
  · exact fun g hg ipa hipa ph pr hpte => hinv.2 g hg ipa hipa ph pr hpte

/-! ### Invariant preservation: host unshare hyp -/

theorem inv_host_unshare_hyp (cfg : Config) (hcfg : ValidCfg cfg) (pfn : Nat)
    (s : SysState) (hinv : Inv cfg s) :
    Inv cfg (__pkvm_host_unshare_hyp cfg pfn s).2 := by
  have hP : PAGE_SIZE = 4096 := rfl
  show Inv cfg ((if check_unshare cfg (host_hyp_tx cfg.mem pfn) s ≠ 0 then
      (check_unshare cfg (host_hyp_tx cfg.mem pfn) s, s)
    else __do_unshare cfg (host_hyp_tx cfg.mem pfn) s).2)
  by_cases hc : check_unshare cfg (host_hyp_tx cfg.mem pfn) s = 0
  case neg =>
    rw [if_pos hc]
    exact hinv
  case pos =>
  rw [if_neg (by simp [hc])]
  have hc' : (if __host_check_page_state_range cfg.mem (pfn * PAGE_SIZE)
        (1 * PAGE_SIZE) PKVM_PAGE_SHARED_OWNED s ≠ 0 then
        __host_check_page_state_range cfg.mem (pfn * PAGE_SIZE) (1 * PAGE_SIZE)
          PKVM_PAGE_SHARED_OWNED s
      else hyp_ack_unshare (pfn * PAGE_SIZE) (host_hyp_tx cfg.mem pfn) s)
      = 0 := hc
  have hreq := (ite_int_eq_zero hc').1
  have hack := (ite_int_eq_zero hc').2
  have hhypchk : __hyp_check_page_state_range (pfn * PAGE_SIZE)
      (1 * PAGE_SIZE) PKVM_PAGE_SHARED_BORROWED s = 0 := by
    unfold hyp_ack_unshare at hack
    split_ifs at hack with hbusy
    · norm_num [EBUSY] at hack
    · exact hack
  have hhyp0 := hyp_check_elim hhypchk 0 (by norm_num)
  rw [show pfn + 0 = pfn from rfl] at hhyp0
  obtain ⟨pr, hsome, hprw, hgst⟩ :=
    hyp_state_shape (by decide) (by decide) hhyp0
  have hini : host_initiate_unshare (host_hyp_tx cfg.mem pfn) s =
      (0, pfn * PAGE_SIZE,
        { s with
          hostPT := if Nat.land (s.hostState (pfn_of (pfn * PAGE_SIZE)))
              PKVM_NOPAGE ≠ 0 then
              updRange s.hostPT (pfn_of (pfn * PAGE_SIZE))
                (1 * PAGE_SIZE / PAGE_SIZE) fun _ => .valid PKVM_HOST_MEM_PROT
            else s.hostPT
          hostState := updRange s.hostState (pfn_of (pfn * PAGE_SIZE))
            (1 * PAGE_SIZE / PAGE_SIZE)
            fun _ => PKVM_PAGE_OWNED }) := by
    show ((__host_set_page_state_range (pfn * PAGE_SIZE) (1 * PAGE_SIZE)
        PKVM_PAGE_OWNED s).1, pfn * PAGE_SIZE,
      (__host_set_page_state_range (pfn * PAGE_SIZE) (1 * PAGE_SIZE)
        PKVM_PAGE_OWNED s).2) = _
    rw [__host_set_page_state_range_eval]
  have hfin : (__do_unshare cfg (host_hyp_tx cfg.mem pfn) s).2 =
      { s with
        hostPT := if Nat.land (s.hostState (pfn_of (pfn * PAGE_SIZE)))
            PKVM_NOPAGE ≠ 0 then
            updRange s.hostPT (pfn_of (pfn * PAGE_SIZE))
              (1 * PAGE_SIZE / PAGE_SIZE) fun _ => .valid PKVM_HOST_MEM_PROT
          else s.hostPT
        hostState := updRange s.hostState (pfn_of (pfn * PAGE_SIZE))
          (1 * PAGE_SIZE / PAGE_SIZE) fun _ => PKVM_PAGE_OWNED
        hypPT := updRange s.hypPT (pfn_of (pfn * PAGE_SIZE))
          (1 * PAGE_SIZE / PAGE_SIZE) fun _ => none } := by
    show (if (host_initiate_unshare (host_hyp_tx cfg.mem pfn) s).1 ≠ 0 then
        ((host_initiate_unshare (host_hyp_tx cfg.mem pfn) s).1,
          (host_initiate_unshare (host_hyp_tx cfg.mem pfn) s).2.2)
      else hyp_complete_unshare
        (host_initiate_unshare (host_hyp_tx cfg.mem pfn) s).2.1
        (host_hyp_tx cfg.mem pfn)
        (host_initiate_unshare (host_hyp_tx cfg.mem pfn) s).2.2).2 = _
    rw [hini, if_neg (by simp)]
    rfl
  rw [hfin]
  constructor
  · intro p hp
    by_cases hpp : p = pfn
    case neg =>
      refine pageInv_transfer ?_ ?_ ?_ (hinv.1 p hp)
      · show updRange s.hostState (pfn_of (pfn * PAGE_SIZE))
          (1 * PAGE_SIZE / PAGE_SIZE) (fun _ => PKVM_PAGE_OWNED) p
          = s.hostState p
        rw [pfn_of_mul, size_div_pages]
        exact updRange_out _ _ _ _ _ (by omega)
      · show updRange s.hypPT (pfn_of (pfn * PAGE_SIZE))
          (1 * PAGE_SIZE / PAGE_SIZE) (fun _ => none) p = s.hypPT p
        rw [pfn_of_mul, size_div_pages]
        exact updRange_out _ _ _ _ _ (by omega)
      · exact fun g ipa hg hipa => Or.inl rfl
    case pos =>
    subst p
    rcases host_check_elim cfg.mem hcfg (by norm_num) hreq with hL | hR
    case inr =>
      have h0 := hR 0 (by norm_num)
      rw [show pfn + 0 = pfn from rfl] at h0
      rw [h0] at hp
      exact absurd hp (by decide)
    case inl =>
    obtain ⟨hm0, hst0⟩ := hL 0 (by norm_num)
    rw [show pfn + 0 = pfn from rfl] at hst0
    rcases inv_host_shared_owned cfg s hinv hp hst0 with hA | hB | hC
    case inr.inl =>
      rw [hB.1] at hsome
      simp at hsome
    case inr.inr =>
      rw [hC.1] at hsome
      simp at hsome
    case inl =>
    refine Or.inr (Or.inl ⟨?_, ?_, ?_⟩)
    · show updRange s.hostState (pfn_of (pfn * PAGE_SIZE))
        (1 * PAGE_SIZE / PAGE_SIZE) (fun _ => PKVM_PAGE_OWNED) pfn
        = PKVM_PAGE_OWNED
      rw [pfn_of_mul, size_div_pages]
      exact updRange_in _ _ _ _ _ (by omega)
    · show updRange s.hypPT (pfn_of (pfn * PAGE_SIZE))
        (1 * PAGE_SIZE / PAGE_SIZE) (fun _ => none) pfn = none
      rw [pfn_of_mul, size_div_pages]
      exact updRange_in _ _ _ _ _ (by omega)
    · exact noGuestMaps_upd (fun g ipa hg hipa => Or.inl rfl) hA.2
  · exact fun g hg ipa hipa ph pr hpte => hinv.2 g hg ipa hipa ph pr hpte

/-! ### Invariant preservation: FF-A share and unshare -/

theorem inv_host_share_ffa (cfg : Config) (hcfg : ValidCfg cfg)
    (pfn nr_pages : Nat) (s : SysState) (hinv : Inv cfg s) :
    Inv cfg (__pkvm_host_share_ffa cfg pfn nr_pages s).2 := by
  show Inv cfg ((if check_share cfg (host_ffa_tx pfn nr_pages) s ≠ 0 then
      (check_share cfg (host_ffa_tx pfn nr_pages) s, s)
    else __do_share cfg (host_ffa_tx pfn nr_pages) s).2)
  by_cases hc : check_share cfg (host_ffa_tx pfn nr_pages) s = 0
  case neg =>
    rw [if_pos hc]
    exact hinv
  case pos =>
  rw [if_neg (by simp [hc])]
  have hc' : (if __host_check_page_state_range cfg.mem (pfn * PAGE_SIZE)
        (nr_pages * PAGE_SIZE) PKVM_PAGE_OWNED s ≠ 0 then
        __host_check_page_state_range cfg.mem (pfn * PAGE_SIZE)
          (nr_pages * PAGE_SIZE) PKVM_PAGE_OWNED s
      else (0 : Int)) = 0 := hc
  have hreq := (ite_int_eq_zero hc').1
  have hini : host_initiate_share (host_ffa_tx pfn nr_pages) s =
      (0, 0,
        { s with
          hostPT := if Nat.land (s.hostState (pfn_of (pfn * PAGE_SIZE)))
              PKVM_NOPAGE ≠ 0 then
              updRange s.hostPT (pfn_of (pfn * PAGE_SIZE))
                (nr_pages * PAGE_SIZE / PAGE_SIZE)
                fun _ => .valid PKVM_HOST_MEM_PROT
            else s.hostPT
          hostState := updRange s.hostState (pfn_of (pfn * PAGE_SIZE))
            (nr_pages * PAGE_SIZE / PAGE_SIZE)
            fun _ => PKVM_PAGE_SHARED_OWNED }) := by
    show ((__host_set_page_state_range (pfn * PAGE_SIZE)
        (nr_pages * PAGE_SIZE) PKVM_PAGE_SHARED_OWNED s).1, 0,
      (__host_set_page_state_range (pfn * PAGE_SIZE) (nr_pages * PAGE_SIZE)
        PKVM_PAGE_SHARED_OWNED s).2) = _
    rw [__host_set_page_state_range_eval]
  have hfin : (__do_share cfg (host_ffa_tx pfn nr_pages) s).2 =
      { s with
        hostPT := if Nat.land (s.hostState (pfn_of (pfn * PAGE_SIZE)))
            PKVM_NOPAGE ≠ 0 then
            updRange s.hostPT (pfn_of (pfn * PAGE_SIZE))
              (nr_pages * PAGE_SIZE / PAGE_SIZE)
              fun _ => .valid PKVM_HOST_MEM_PROT
          else s.hostPT
        hostState := updRange s.hostState (pfn_of (pfn * PAGE_SIZE))
          (nr_pages * PAGE_SIZE / PAGE_SIZE)
          fun _ => PKVM_PAGE_SHARED_OWNED } := by
    show (if (host_initiate_share (host_ffa_tx pfn nr_pages) s).1 ≠ 0 then
        ((host_initiate_share (host_ffa_tx pfn nr_pages) s).1,
          (host_initiate_share (host_ffa_tx pfn nr_pages) s).2.2)
      else (0, (host_initiate_share (host_ffa_tx pfn nr_pages) s).2.2)).2 = _
    rw [hini, if_neg (by simp)]
  rw [hfin]
  constructor
  · intro p hp
    by_cases hin : pfn ≤ p ∧ p < pfn + nr_pages
    case neg =>
      refine pageInv_transfer ?_ ?_ ?_ (hinv.1 p hp)
      · show updRange s.hostState (pfn_of (pfn * PAGE_SIZE))
          (nr_pages * PAGE_SIZE / PAGE_SIZE) (fun _ => PKVM_PAGE_SHARED_OWNED)
          p = s.hostState p
        rw [pfn_of_mul, size_div_pages]
        exact updRange_out _ _ _ _ _ hin
      · exact rfl
      · exact fun g ipa hg hipa => Or.inl rfl
    case pos =>
    rcases host_check_elim cfg.mem hcfg (show 0 < nr_pages by omega) hreq
      with hL | hR
    case inr =>
      have h0 := hR (p - pfn) (by omega)
      rw [show pfn + (p - pfn) = p by omega] at h0
      rw [h0] at hp
      exact absurd hp (by decide)
    case inl =>
    obtain ⟨hm0, hst0⟩ := hL (p - pfn) (by omega)
    rw [show pfn + (p - pfn) = p by omega] at hst0
    obtain ⟨hhyp, hng⟩ := inv_host_owned cfg s hinv hp hst0
    refine Or.inr (Or.inr (Or.inr (Or.inr (Or.inr (Or.inr (Or.inl
      ⟨?_, hhyp, ?_⟩))))))
    · show updRange s.hostState (pfn_of (pfn * PAGE_SIZE))
        (nr_pages * PAGE_SIZE / PAGE_SIZE) (fun _ => PKVM_PAGE_SHARED_OWNED)
        p = PKVM_PAGE_SHARED_OWNED
      rw [pfn_of_mul, size_div_pages]
      exact updRange_in _ _ _ _ _ hin
    · exact noGuestMaps_upd (fun g ipa hg hipa => Or.inl rfl) hng
  · exact fun g hg ipa hipa ph pr hpte => hinv.2 g hg ipa hipa ph pr hpte

theorem inv_host_unshare_ffa (cfg : Config) (hcfg : ValidCfg cfg)
    (pfn nr_pages : Nat) (s : SysState) (hinv : Inv cfg s)
    (hffa : FfaSharedRange cfg s pfn nr_pages) :
    Inv cfg (__pkvm_host_unshare_ffa cfg pfn nr_pages s).2 := by
  show Inv cfg ((if check_unshare cfg (host_ffa_tx pfn nr_pages) s ≠ 0 then
      (check_unshare cfg (host_ffa_tx pfn nr_pages) s, s)
    else __do_unshare cfg (host_ffa_tx pfn nr_pages) s).2)
  by_cases hc : check_unshare cfg (host_ffa_tx pfn nr_pages) s = 0
  case neg =>
    rw [if_pos hc]
    exact hinv
  case pos =>
  rw [if_neg (by simp [hc])]
  have hc' : (if __host_check_page_state_range cfg.mem (pfn * PAGE_SIZE)
        (nr_pages * PAGE_SIZE) PKVM_PAGE_SHARED_OWNED s ≠ 0 then
        __host_check_page_state_range cfg.mem (pfn * PAGE_SIZE)
          (nr_pages * PAGE_SIZE) PKVM_PAGE_SHARED_OWNED s
      else (0 : Int)) = 0 := hc
  have hreq := (ite_int_eq_zero hc').1
  have hini : host_initiate_unshare (host_ffa_tx pfn nr_pages) s =
      (0, 0,
        { s with
          hostPT := if Nat.land (s.hostState (pfn_of (pfn * PAGE_SIZE)))
              PKVM_NOPAGE ≠ 0 then
              updRange s.hostPT (pfn_of (pfn * PAGE_SIZE))
                (nr_pages * PAGE_SIZE / PAGE_SIZE)
                fun _ => .valid PKVM_HOST_MEM_PROT
            else s.hostPT
          hostState := updRange s.hostState (pfn_of (pfn * PAGE_SIZE))
            (nr_pages * PAGE_SIZE / PAGE_SIZE)
            fun _ => PKVM_PAGE_OWNED }) := by
    show ((__host_set_page_state_range (pfn * PAGE_SIZE)
        (nr_pages * PAGE_SIZE) PKVM_PAGE_OWNED s).1, 0,
      (__host_set_page_state_range (pfn * PAGE_SIZE) (nr_pages * PAGE_SIZE)
        PKVM_PAGE_OWNED s).2) = _
    rw [__host_set_page_state_range_eval]
  have hfin : (__do_unshare cfg (host_ffa_tx pfn nr_pages) s).2 =
      { s with
        hostPT := if Nat.land (s.hostState (pfn_of (pfn * PAGE_SIZE)))
            PKVM_NOPAGE ≠ 0 then
            updRange s.hostPT (pfn_of (pfn * PAGE_SIZE))
              (nr_pages * PAGE_SIZE / PAGE_SIZE)
              fun _ => .valid PKVM_HOST_MEM_PROT
          else s.hostPT
        hostState := updRange s.hostState (pfn_of (pfn * PAGE_SIZE))
          (nr_pages * PAGE_SIZE / PAGE_SIZE)
          fun _ => PKVM_PAGE_OWNED } := by
    show (if (host_initiate_unshare (host_ffa_tx pfn nr_pages) s).1 ≠ 0 then
        ((host_initiate_unshare (host_ffa_tx pfn nr_pages) s).1,
          (host_initiate_unshare (host_ffa_tx pfn nr_pages) s).2.2)
      else (0, (host_initiate_unshare (host_ffa_tx pfn nr_pages) s).2.2)).2
      = _
    rw [hini, if_neg (by simp)]
  rw [hfin]
  constructor
  · intro p hp
    by_cases hin : pfn ≤ p ∧ p < pfn + nr_pages
    case neg =>
      refine pageInv_transfer ?_ ?_ ?_ (hinv.1 p hp)
      · show updRange s.hostState (pfn_of (pfn * PAGE_SIZE))
          (nr_pages * PAGE_SIZE / PAGE_SIZE) (fun _ => PKVM_PAGE_OWNED)
          p = s.hostState p
        rw [pfn_of_mul, size_div_pages]
        exact updRange_out _ _ _ _ _ hin
      · exact rfl
      · exact fun g ipa hg hipa => Or.inl rfl
    case pos =>
    obtain ⟨hhyp, hng⟩ := hffa (p - pfn) (by omega)
    rw [show pfn + (p - pfn) = p by omega] at hhyp hng
    refine Or.inr (Or.inl ⟨?_, hhyp, ?_⟩)
    · show updRange s.hostState (pfn_of (pfn * PAGE_SIZE))
        (nr_pages * PAGE_SIZE / PAGE_SIZE) (fun _ => PKVM_PAGE_OWNED)
        p = PKVM_PAGE_OWNED
      rw [pfn_of_mul, size_div_pages]
      exact updRange_in _ _ _ _ _ hin
    · exact noGuestMaps_upd (fun g ipa hg hipa => Or.inl rfl) hng
  · exact fun g hg ipa hipa ph pr hpte => hinv.2 g hg ipa hipa ph pr hpte

/-! ### Invariant preservation: host donate hyp -/

theorem inv_host_donate_hyp (cfg : Config) (hcfg : ValidCfg cfg)
    (pfn nr_pages : Nat) (accept_mmio : Bool) (prot : Nat) (s : SysState)
    (hinv : Inv cfg s) :
    Inv cfg (___pkvm_host_donate_hyp_prot cfg pfn nr_pages accept_mmio prot
      s).2 := by
  have hP : PAGE_SIZE = 4096 := rfl
  show Inv cfg ((if ¬ accept_mmio = true ∧
      ¬ range_is_memory cfg.mem (pfn * PAGE_SIZE)
        (pfn * PAGE_SIZE + nr_pages * PAGE_SIZE) = true then
      ((-EPERM : Int), s)
    else __pkvm_host_donate_hyp_locked cfg pfn nr_pages prot s).2)
  by_cases hgd : ¬ accept_mmio = true ∧
      ¬ range_is_memory cfg.mem (pfn * PAGE_SIZE)
        (pfn * PAGE_SIZE + nr_pages * PAGE_SIZE) = true
  case pos =>
    rw [if_pos hgd]
    exact hinv
  case neg =>
  rw [if_neg hgd]
  show Inv cfg ((if check_donation cfg (host_donate_hyp_tx pfn nr_pages prot)
        s ≠ 0 then
      (check_donation cfg (host_donate_hyp_tx pfn nr_pages prot) s, s)
    else __do_donate cfg (host_donate_hyp_tx pfn nr_pages prot) s).2)
  by_cases hc : check_donation cfg (host_donate_hyp_tx pfn nr_pages prot) s
      = 0
  case neg =>
    rw [if_pos hc]
    exact hinv
  case pos =>
  rw [if_neg (by simp [hc])]
  have hc' : (if __host_check_page_state_range cfg.mem (pfn * PAGE_SIZE)
        (nr_pages * PAGE_SIZE) PKVM_PAGE_OWNED s ≠ 0 then
        __host_check_page_state_range cfg.mem (pfn * PAGE_SIZE)
          (nr_pages * PAGE_SIZE) PKVM_PAGE_OWNED s
      else (0 : Int)) = 0 := hc
  have hreq := (ite_int_eq_zero hc').1
  have hset := host_stage2_set_owner_eval cfg.mem (pfn * PAGE_SIZE)
    (nr_pages * PAGE_SIZE) 1 s (by decide)
  have hini : host_initiate_donation cfg.mem
      (host_donate_hyp_tx pfn nr_pages prot) s =
      (0, pfn * PAGE_SIZE,
        { s with
          hostPT := updRange s.hostPT (pfn_of (pfn * PAGE_SIZE))
            (nr_pages * PAGE_SIZE / PAGE_SIZE) fun _ => .annot 1
          hostState := if addr_is_memory cfg.mem (pfn * PAGE_SIZE) = true then
              updRange s.hostState (pfn_of (pfn * PAGE_SIZE))
                (nr_pages * PAGE_SIZE / PAGE_SIZE) fun _ => PKVM_NOPAGE
            else s.hostState }) := by
    show ((host_stage2_set_owner_locked cfg.mem (pfn * PAGE_SIZE)
        (nr_pages * PAGE_SIZE) 1 s).1, pfn * PAGE_SIZE,
      (host_stage2_set_owner_locked cfg.mem (pfn * PAGE_SIZE)
        (nr_pages * PAGE_SIZE) 1 s).2) = _
    rw [hset]
    rfl
  have hfin : (__do_donate cfg (host_donate_hyp_tx pfn nr_pages prot) s).2 =
      { s with
        hostPT := updRange s.hostPT (pfn_of (pfn * PAGE_SIZE))
          (nr_pages * PAGE_SIZE / PAGE_SIZE) fun _ => .annot 1
        hostState := if addr_is_memory cfg.mem (pfn * PAGE_SIZE) = true then
            updRange s.hostState (pfn_of (pfn * PAGE_SIZE))
              (nr_pages * PAGE_SIZE / PAGE_SIZE) fun _ => PKVM_NOPAGE
          else s.hostState
        hypPT := updRange s.hypPT (pfn_of (pfn * PAGE_SIZE))
          ((pfn * PAGE_SIZE + nr_pages * PAGE_SIZE - pfn * PAGE_SIZE)
            / PAGE_SIZE)
          fun _ => some (pkvm_mkstate prot PKVM_PAGE_OWNED) } := by
    show (if (host_initiate_donation cfg.mem
          (host_donate_hyp_tx pfn nr_pages prot) s).1 ≠ 0 then
        ((host_initiate_donation cfg.mem
            (host_donate_hyp_tx pfn nr_pages prot) s).1,
          (host_initiate_donation cfg.mem
            (host_donate_hyp_tx pfn nr_pages prot) s).2.2)
      else hyp_complete_donation
        (host_initiate_donation cfg.mem
          (host_donate_hyp_tx pfn nr_pages prot) s).2.1
        (host_donate_hyp_tx pfn nr_pages prot)
        (host_initiate_donation cfg.mem
          (host_donate_hyp_tx pfn nr_pages prot) s).2.2).2 = _
    rw [hini, if_neg (by simp)]
    rfl
  have hcnt : (pfn * PAGE_SIZE + nr_pages * PAGE_SIZE - pfn * PAGE_SIZE)
      / PAGE_SIZE = nr_pages := by
    rw [hP]; omega
  rw [hfin]
  constructor
  · intro p hp
    by_cases hin : pfn ≤ p ∧ p < pfn + nr_pages
    case neg =>
      refine pageInv_transfer ?_ ?_ ?_ (hinv.1 p hp)
      · show (if addr_is_memory cfg.mem (pfn * PAGE_SIZE) = true then
            updRange s.hostState (pfn_of (pfn * PAGE_SIZE))
              (nr_pages * PAGE_SIZE / PAGE_SIZE) fun _ => PKVM_NOPAGE
          else s.hostState) p = s.hostState p
        split_ifs with hm
        · rw [pfn_of_mul, size_div_pages]
          exact updRange_out _ _ _ _ _ hin
        · rfl
      · show updRange s.hypPT (pfn_of (pfn * PAGE_SIZE))
          ((pfn * PAGE_SIZE + nr_pages * PAGE_SIZE - pfn * PAGE_SIZE)
            / PAGE_SIZE)
          (fun _ => some (pkvm_mkstate prot PKVM_PAGE_OWNED)) p = s.hypPT p
        rw [pfn_of_mul, hcnt]
        exact updRange_out _ _ _ _ _ hin
      · exact fun g ipa hg hipa => Or.inl rfl
    case pos =>
    rcases host_check_elim cfg.mem hcfg (show 0 < nr_pages by omega) hreq
      with hL | hR
    case inr =>
      have h0 := hR (p - pfn) (by omega)
      rw [show pfn + (p - pfn) = p by omega] at h0
      rw [h0] at hp
      exact absurd hp (by decide)
    case inl =>
    obtain ⟨hm0, hst0⟩ := hL (p - pfn) (by omega)
    rw [show pfn + (p - pfn) = p by omega] at hst0
    obtain ⟨hhyp, hng⟩ := inv_host_owned cfg s hinv hp hst0
    have hm_addr : addr_is_memory cfg.mem (pfn * PAGE_SIZE) = true := by
      have h00 := (hL 0 (by omega)).1
      rw [show pfn + 0 = pfn from rfl] at h00
      exact h00
    refine Or.inr (Or.inr (Or.inl ⟨?_, ?_, ?_⟩))
    · show (if addr_is_memory cfg.mem (pfn * PAGE_SIZE) = true then
          updRange s.hostState (pfn_of (pfn * PAGE_SIZE))
            (nr_pages * PAGE_SIZE / PAGE_SIZE) fun _ => PKVM_NOPAGE
        else s.hostState) p = PKVM_NOPAGE
      rw [if_pos hm_addr, pfn_of_mul, size_div_pages]
      exact updRange_in _ _ _ _ _ hin
    · show hypStateOwned (updRange s.hypPT (pfn_of (pfn * PAGE_SIZE))
        ((pfn * PAGE_SIZE + nr_pages * PAGE_SIZE - pfn * PAGE_SIZE)
          / PAGE_SIZE)
        (fun _ => some (pkvm_mkstate prot PKVM_PAGE_OWNED)) p)
      rw [pfn_of_mul, hcnt, updRange_in _ _ _ _ _ hin]
      show pkvm_getstate (pkvm_mkstate prot PKVM_PAGE_OWNED) = PKVM_PAGE_OWNED
      exact getstate_mkstate prot PKVM_PAGE_OWNED (by decide)
    · exact noGuestMaps_upd (fun g ipa hg hipa => Or.inl rfl) hng
  · exact fun g hg ipa hipa ph pr hpte => hinv.2 g hg ipa hipa ph pr hpte

/-! ### Invariant preservation: hyp donate host -/

theorem inv_hyp_donate_host (cfg : Config) (hcfg : ValidCfg cfg)
    (pfn nr_pages : Nat) (s : SysState) (hinv : Inv cfg s) :
    Inv cfg (__pkvm_hyp_donate_host cfg pfn nr_pages s).2 := by
  show Inv cfg ((if check_donation cfg (hyp_host_donate_tx pfn nr_pages) s
        ≠ 0 then
      (check_donation cfg (hyp_host_donate_tx pfn nr_pages) s, s)
    else __do_donate cfg (hyp_host_donate_tx pfn nr_pages) s).2)
  by_cases hc : check_donation cfg (hyp_host_donate_tx pfn nr_pages) s = 0
  case neg =>
    rw [if_pos hc]
    exact hinv
  case pos =>
  rw [if_neg (by simp [hc])]
  have hc' : (if __hyp_check_page_state_range (pfn * PAGE_SIZE)
        (nr_pages * PAGE_SIZE) PKVM_PAGE_OWNED s ≠ 0 then
        __hyp_check_page_state_range (pfn * PAGE_SIZE)
          (nr_pages * PAGE_SIZE) PKVM_PAGE_OWNED s
      else (0 : Int)) = 0 := hc
  have hreq := (ite_int_eq_zero hc').1
  have hsome : ∀ j, j < nr_pages → (s.hypPT (pfn + j)).isSome = true := by
    intro j hj
    obtain ⟨pr, hpr, _, _⟩ :=
      hyp_state_shape (by decide) (by decide) (hyp_check_elim hreq j hj)
    rw [hpr]
    rfl
  have hunmap := hyp_unmap_eval (pfn * PAGE_SIZE) nr_pages s
    (by intro j hj; rw [pfn_of_mul]; exact hsome j hj)
  have hini : hyp_initiate_donation (hyp_host_donate_tx pfn nr_pages) s =
      (0, pfn * PAGE_SIZE,
        { s with hypPT := updRange s.hypPT (pfn_of (pfn * PAGE_SIZE)) nr_pages fun _ => none }) := by
    show ((if (kvm_pgtable_hyp_unmap (pfn * PAGE_SIZE)
          (nr_pages * PAGE_SIZE) s).1 ≠ nr_pages * PAGE_SIZE then -EFAULT
        else 0), pfn * PAGE_SIZE,
      (kvm_pgtable_hyp_unmap (pfn * PAGE_SIZE) (nr_pages * PAGE_SIZE) s).2)
      = _
    rw [hunmap]
    norm_num
  have hset := host_stage2_set_owner_eval cfg.mem (pfn * PAGE_SIZE)
    (nr_pages * PAGE_SIZE) 0
    { s with hypPT := updRange s.hypPT (pfn_of (pfn * PAGE_SIZE)) nr_pages fun _ => none } (by decide)
  have hfin : (__do_donate cfg (hyp_host_donate_tx pfn nr_pages) s).2 =
      { s with
        hostPT := updRange s.hostPT (pfn_of (pfn * PAGE_SIZE))
          (nr_pages * PAGE_SIZE / PAGE_SIZE)
          fun _ => .valid (default_host_prot
            (addr_is_memory cfg.mem (pfn * PAGE_SIZE)))
        hostState := if addr_is_memory cfg.mem (pfn * PAGE_SIZE) = true then
            updRange s.hostState (pfn_of (pfn * PAGE_SIZE))
              (nr_pages * PAGE_SIZE / PAGE_SIZE) fun _ => PKVM_PAGE_OWNED
          else s.hostState
        hypPT := updRange s.hypPT (pfn_of (pfn * PAGE_SIZE)) nr_pages fun _ => none } := by
    show (if (hyp_initiate_donation (hyp_host_donate_tx pfn nr_pages) s).1
        ≠ 0 then
        ((hyp_initiate_donation (hyp_host_donate_tx pfn nr_pages) s).1,
          (hyp_initiate_donation (hyp_host_donate_tx pfn nr_pages) s).2.2)
      else host_complete_donation cfg.mem
        (hyp_initiate_donation (hyp_host_donate_tx pfn nr_pages) s).2.1
        (hyp_host_donate_tx pfn nr_pages)
        (hyp_initiate_donation (hyp_host_donate_tx pfn nr_pages) s).2.2).2
      = _
    rw [hini, if_neg (by simp)]
    show (host_stage2_set_owner_locked cfg.mem (pfn * PAGE_SIZE)
      (nr_pages * PAGE_SIZE) 0
      { s with hypPT := updRange s.hypPT (pfn_of (pfn * PAGE_SIZE)) nr_pages fun _ => none }).2 = _
    rw [hset]
    rfl
  rw [hfin]
  constructor
  · intro p hp
    by_cases hin : pfn ≤ p ∧ p < pfn + nr_pages
    case neg =>
      refine pageInv_transfer ?_ ?_ ?_ (hinv.1 p hp)
      · show (if addr_is_memory cfg.mem (pfn * PAGE_SIZE) = true then
            updRange s.hostState (pfn_of (pfn * PAGE_SIZE))
              (nr_pages * PAGE_SIZE / PAGE_SIZE) fun _ => PKVM_PAGE_OWNED
          else s.hostState) p = s.hostState p
        split_ifs with hm
        · rw [pfn_of_mul, size_div_pages]
          exact updRange_out _ _ _ _ _ hin
        · rfl
      · show updRange s.hypPT (pfn_of (pfn * PAGE_SIZE)) nr_pages
          (fun _ => none) p = s.hypPT p
        rw [pfn_of_mul]
        exact updRange_out _ _ _ _ _ hin
      · exact fun g ipa hg hipa => Or.inl rfl
    case pos =>
    have hst := hyp_check_elim hreq (p - pfn) (by omega)
    rw [show pfn + (p - pfn) = p by omega] at hst
    obtain ⟨pr, hpr, hprw, hgst0⟩ :=
      hyp_state_shape (by decide) (by decide) hst
    rcases inv_hyp_mapped cfg s hinv hp hpr with hA | hB
    case inr =>
      rw [hB.2.1] at hgst0
      exact absurd hgst0 (by decide)
    case inl =>
    obtain ⟨hostNP, _, hng⟩ := hA
    have hypnone : updRange s.hypPT (pfn_of (pfn * PAGE_SIZE)) nr_pages
        (fun _ => none) p = none := by
      rw [pfn_of_mul]
      exact updRange_in _ _ _ _ _ hin
    by_cases hm : addr_is_memory cfg.mem (pfn * PAGE_SIZE) = true
    case pos =>
      refine Or.inr (Or.inl ⟨?_, hypnone, ?_⟩)
      · show (if addr_is_memory cfg.mem (pfn * PAGE_SIZE) = true then
            updRange s.hostState (pfn_of (pfn * PAGE_SIZE))
              (nr_pages * PAGE_SIZE / PAGE_SIZE) fun _ => PKVM_PAGE_OWNED
          else s.hostState) p = PKVM_PAGE_OWNED
        rw [if_pos hm, pfn_of_mul, size_div_pages]
        exact updRange_in _ _ _ _ _ hin
      · exact noGuestMaps_upd (fun g ipa hg hipa => Or.inl rfl) hng
    case neg =>
      refine Or.inl ⟨?_, hypnone, ?_⟩
      · show (if addr_is_memory cfg.mem (pfn * PAGE_SIZE) = true then
            updRange s.hostState (pfn_of (pfn * PAGE_SIZE))
              (nr_pages * PAGE_SIZE / PAGE_SIZE) fun _ => PKVM_PAGE_OWNED
          else s.hostState) p = PKVM_NOPAGE
        rw [if_neg hm]
        exact hostNP
      · exact noGuestMaps_upd (fun g ipa hg hipa => Or.inl rfl) hng
  · exact fun g hg ipa hipa ph pr hpte => hinv.2 g hg ipa hipa ph pr hpte

/-! ### Invariant preservation: guest share host -/

theorem mapsPhys_valid_pfn {ph x p : Nat}
    (hm : guestMapsPhys (.valid ph x) p) : pfn_of ph = p := by
  have h : ph = hyp_pfn_to_phys p := hm
  rw [h, pfn_of_hyp_pfn_to_phys]

theorem guestSole_update_self {cfg : Config} {s t : SysState} {g0 ipa0 p : Nat}
    (hG : ∀ g ipa, g < cfg.nrGuests → ipa < cfg.ipaLimit →
      (g = g0 ∧ ipa = ipa0) ∨ t.guestPt g ipa = s.guestPt g ipa ∨
        ¬ guestMapsPhys (t.guestPt g ipa) p)
    (h : GuestSole cfg s g0 ipa0 p) : GuestSole cfg t g0 ipa0 p := by
  refine ⟨h.1, h.2.1, ?_⟩
  intro g hg ipa hipa hmaps
  rcases hG g ipa hg hipa with he | he | hn
  · exact he
  · rw [he] at hmaps
    exact h.2.2 g hg ipa hipa hmaps
  · exact absurd hmaps hn

theorem addr_is_memory_of_allowed {mem : List MemblockRegion} {phys : Nat}
    (h : addr_is_allowed_memory mem phys = true) :
    addr_is_memory mem phys = true := by
  unfold addr_is_allowed_memory at h
  unfold addr_is_memory
  rcases hf : (find_mem_range mem phys).1 with _ | reg
  · rw [hf] at h
    simp at h
  · rfl

theorem guestUpd_other {s : SysState} {vm idx : Nat} {pte : GuestPTE}
    {g : Nat} (h : g ≠ vm) (ipa2 : Nat) :
    guestUpd s vm idx pte g ipa2 = s.guestPt g ipa2 := by
  unfold guestUpd
  rw [if_neg h]

theorem guestUpd_same_out {s : SysState} {vm idx : Nat} {pte : GuestPTE}
    {ipa2 : Nat} (h : ipa2 ≠ idx) :
    guestUpd s vm idx pte vm ipa2 = s.guestPt vm ipa2 := by
  unfold guestUpd
  rw [if_pos rfl]
  exact updRange_out _ _ _ _ _ (by omega)

theorem guestUpd_same_in (s : SysState) (vm idx : Nat) (pte : GuestPTE) :
    guestUpd s vm idx pte vm idx = pte := by
  unfold guestUpd
  rw [if_pos rfl]
  exact updRange_in _ _ _ _ _ (by omega)

/-- The one-slot update cases, packaged for the transfer lemmas: a slot is
the updated one, or it is unchanged. -/
theorem guestUpd_cases (s : SysState) (vm idx : Nat) (pte : GuestPTE)
    (g ipa2 : Nat) :
    (g = vm ∧ ipa2 = idx ∧ guestUpd s vm idx pte g ipa2 = pte) ∨
    guestUpd s vm idx pte g ipa2 = s.guestPt g ipa2 := by
  by_cases hgv : g = vm
  · subst g
    by_cases hslot : ipa2 = idx
    · subst ipa2
      exact Or.inl ⟨rfl, rfl, guestUpd_same_in s vm idx pte⟩
    · exact Or.inr (guestUpd_same_out hslot)
  · exact Or.inr (guestUpd_other hgv ipa2)

theorem inv_guest_share_host (cfg : Config) (hcfg : ValidCfg cfg)
    (vm ipa : Nat) (s : SysState) (hinv : Inv cfg s)
    (hvm : vm < cfg.nrGuests) (hipa : pfn_of ipa < cfg.ipaLimit) :
    Inv cfg (__pkvm_guest_share_host cfg vm ipa s).2 := by
  have hP : PAGE_SIZE = 4096 := rfl
  show Inv cfg ((if check_share cfg (guest_host_tx vm ipa) s ≠ 0 then
      (check_share cfg (guest_host_tx vm ipa) s, s)
    else __do_share cfg (guest_host_tx vm ipa) s).2)
  by_cases hc : check_share cfg (guest_host_tx vm ipa) s = 0
  case neg =>
    rw [if_pos hc]
    exact hinv
  case pos =>
  rw [if_neg (by simp [hc])]
  have hc' : (if (__guest_request_page_transition cfg.mem
        (guest_host_tx vm ipa) PKVM_PAGE_OWNED s).1 ≠ 0 then
        (__guest_request_page_transition cfg.mem (guest_host_tx vm ipa)
          PKVM_PAGE_OWNED s).1
      else host_ack_share cfg.mem
        (__guest_request_page_transition cfg.mem (guest_host_tx vm ipa)
          PKVM_PAGE_OWNED s).2
        (guest_host_tx vm ipa) PKVM_HOST_MEM_PROT s) = 0 := hc
  have hr1 := (ite_int_eq_zero hc').1
  have hack := (ite_int_eq_zero hc').2
  have hreqeq : __guest_request_page_transition cfg.mem (guest_host_tx vm ipa)
      PKVM_PAGE_OWNED s =
      (0, (__guest_request_page_transition cfg.mem (guest_host_tx vm ipa)
        PKVM_PAGE_OWNED s).2) := by
    have hsplit : __guest_request_page_transition cfg.mem
        (guest_host_tx vm ipa) PKVM_PAGE_OWNED s =
        ((__guest_request_page_transition cfg.mem (guest_host_tx vm ipa)
          PKVM_PAGE_OWNED s).1,
        (__guest_request_page_transition cfg.mem (guest_host_tx vm ipa)
          PKVM_PAGE_OWNED s).2) := rfl
    rw [hr1] at hsplit
    exact hsplit
  obtain ⟨-, hstate, hallow, hca, -⟩ := guest_request_elim cfg.mem
    (guest_host_tx vm ipa) PKVM_PAGE_OWNED s hreqeq
  have hstate' : guest_get_page_state (s.guestPt vm (pfn_of ipa)) =
      PKVM_PAGE_OWNED := hstate
  obtain ⟨ph, pr, hleaf, hprw, hgst⟩ := guest_state_owned_shape hstate'
  have halign : ph % PAGE_SIZE = 0 := hinv.2 vm hvm (pfn_of ipa) hipa ph pr hleaf
  have hphi : hyp_pfn_to_phys (pfn_of ph) = ph := by
    unfold hyp_pfn_to_phys pfn_of
    rw [hP] at halign ⊢
    omega
  have hallow' : addr_is_allowed_memory cfg.mem ph = true := by
    have h2 : addr_is_allowed_memory cfg.mem
        (s.guestPt vm (pfn_of ipa)).physOf = true := hallow
    rw [hleaf] at h2
    exact h2
  have hmemp : isMemPfn cfg.mem (pfn_of ph) = true := by
    rw [isMemPfn_eq]
    show addr_is_memory cfg.mem (hyp_pfn_to_phys (pfn_of ph)) = true
    rw [hphi]
    exact addr_is_memory_of_allowed hallow'
  have hmaps : guestMapsPhys (s.guestPt vm (pfn_of ipa)) (pfn_of ph) := by
    rw [hleaf]
    exact hphi.symm
  obtain ⟨hsole, hhyp, hpat⟩ := inv_guest_mapping cfg s hinv hvm hipa hmemp
    hmaps
  have hca2 : (__guest_request_page_transition cfg.mem (guest_host_tx vm ipa)
      PKVM_PAGE_OWNED s).2 = ph := by
    have h2 : (__guest_request_page_transition cfg.mem (guest_host_tx vm ipa)
        PKVM_PAGE_OWNED s).2 = (s.guestPt vm (pfn_of ipa)).physOf := hca
    rw [hleaf] at h2
    exact h2
  have hhostchk : __host_check_page_state_range cfg.mem
      (pfn_of ph * PAGE_SIZE) (1 * PAGE_SIZE) PKVM_NOPAGE s = 0 := by
    rw [hca2] at hack
    unfold host_ack_share __host_ack_transition at hack
    rw [if_neg (by simp)] at hack
    have hskip : __host_ack_skip_pgtable_check (guest_host_tx vm ipa)
        = false := rfl
    rw [if_neg (by rw [hskip]; simp)] at hack
    show __host_check_page_state_range cfg.mem (hyp_pfn_to_phys (pfn_of ph))
      (1 * PAGE_SIZE) PKVM_NOPAGE s = 0
    rw [hphi]
    exact hack
  rcases host_check_elim cfg.mem hcfg (by norm_num) hhostchk with hL | hR
  case inr =>
    have h0 := hR 0 (by norm_num)
    rw [show pfn_of ph + 0 = pfn_of ph from rfl] at h0
    rw [h0] at hmemp
    exact absurd hmemp (by decide)
  case inl =>
  obtain ⟨-, hhostNP⟩ := hL 0 (by norm_num)
  rw [show pfn_of ph + 0 = pfn_of ph from rfl] at hhostNP
  rcases hpat with hB1 | hB2 | hB3
  case inr.inl =>
    rw [hB2.1] at hhostNP
    exact absurd hhostNP (by decide)
  case inr.inr =>
    rw [hB3.1] at hhostNP
    exact absurd hhostNP (by decide)
  case inl =>
  obtain ⟨-, hpte_exact⟩ := hB1
  have hinj := hleaf.symm.trans hpte_exact
  rw [GuestPTE.valid.injEq] at hinj
  obtain ⟨hph_eq, hpr_eq⟩ := hinj
  have hini : guest_initiate_share (guest_host_tx vm ipa) s =
      (0, ph,
        { s with guestPt := guestUpd s vm (pfn_of ipa) (.valid ph (pkvm_mkstate pr PKVM_PAGE_SHARED_OWNED)) }) := by
    show ((0 : Int), (s.guestPt vm (pfn_of ipa)).physOf,
      (guest_stage2_map vm ipa (1 * PAGE_SIZE)
        (s.guestPt vm (pfn_of ipa)).physOf
        (pkvm_mkstate (s.guestPt vm (pfn_of ipa)).protOf
          PKVM_PAGE_SHARED_OWNED) s).2) = _
    rw [hleaf]
    simp only [GuestPTE.physOf, GuestPTE.protOf]
    rw [guest_stage2_map_one]
    rfl
  have hfin : (__do_share cfg (guest_host_tx vm ipa) s).2 =
      { s with
        guestPt := guestUpd s vm (pfn_of ipa)
          (.valid ph (pkvm_mkstate pr PKVM_PAGE_SHARED_OWNED))
        hostPT := if Nat.land (s.hostState (pfn_of ph)) PKVM_NOPAGE ≠ 0 then
            updRange s.hostPT (pfn_of ph) (1 * PAGE_SIZE / PAGE_SIZE)
              fun _ => .valid PKVM_HOST_MEM_PROT
          else s.hostPT
        hostState := updRange s.hostState (pfn_of ph)
          (1 * PAGE_SIZE / PAGE_SIZE) fun _ => PKVM_PAGE_SHARED_BORROWED
        psciCount := s.psciCount - 1 } := by
    show (if (guest_initiate_share (guest_host_tx vm ipa) s).1 ≠ 0 then
        ((guest_initiate_share (guest_host_tx vm ipa) s).1,
          (guest_initiate_share (guest_host_tx vm ipa) s).2.2)
      else host_complete_share
        (guest_initiate_share (guest_host_tx vm ipa) s).2.1
        (guest_host_tx vm ipa) PKVM_HOST_MEM_PROT
        (guest_initiate_share (guest_host_tx vm ipa) s).2.2).2 = _
    rw [hini, if_neg (by simp)]
    show (if (__host_set_page_state_range ph (1 * PAGE_SIZE)
          PKVM_PAGE_SHARED_BORROWED
          { s with guestPt := guestUpd s vm (pfn_of ipa) (.valid ph (pkvm_mkstate pr PKVM_PAGE_SHARED_OWNED)) }).1
          ≠ 0 then
        __host_set_page_state_range ph (1 * PAGE_SIZE)
          PKVM_PAGE_SHARED_BORROWED
          { s with guestPt := guestUpd s vm (pfn_of ipa) (.valid ph (pkvm_mkstate pr PKVM_PAGE_SHARED_OWNED)) }
      else (0, psci_mem_protect_dec 1
        (__host_set_page_state_range ph (1 * PAGE_SIZE)
          PKVM_PAGE_SHARED_BORROWED
          { s with guestPt := guestUpd s vm (pfn_of ipa) (.valid ph (pkvm_mkstate pr PKVM_PAGE_SHARED_OWNED)) }).2)).2
      = _
    rw [__host_set_page_state_range_eval]
    rw [if_neg (by simp)]
    rfl
  rw [hfin]
  constructor
  · intro p hp
    by_cases hpq : p = pfn_of ph
    case neg =>
      refine pageInv_transfer ?_ ?_ ?_ (hinv.1 p hp)
      · show updRange s.hostState (pfn_of ph) (1 * PAGE_SIZE / PAGE_SIZE)
          (fun _ => PKVM_PAGE_SHARED_BORROWED) p = s.hostState p
        rw [size_div_pages]
        exact updRange_out _ _ _ _ _ (by omega)
      · exact rfl
      · intro g ipa2 hg2 hipa2
        rcases guestUpd_cases s vm (pfn_of ipa)
          (.valid ph (pkvm_mkstate pr PKVM_PAGE_SHARED_OWNED)) g ipa2
          with ⟨hgv, hslot, hupd⟩ | hupd
        · right
          constructor
          · rw [hgv, hslot, hleaf]
            intro hm
            exact hpq (mapsPhys_valid_pfn hm).symm
          · show ¬ guestMapsPhys (guestUpd s vm (pfn_of ipa)
              (.valid ph (pkvm_mkstate pr PKVM_PAGE_SHARED_OWNED)) g ipa2) p
            rw [hupd]
            intro hm
            exact hpq (mapsPhys_valid_pfn hm).symm
        · left
          exact hupd
    case pos =>
    subst p
    refine Or.inr (Or.inr (Or.inr (Or.inr (Or.inr (Or.inr (Or.inr
      ⟨?_, hhyp, vm, hvm, pfn_of ipa, hipa, ?_, ?_⟩))))))
    · show updRange s.hostState (pfn_of ph) (1 * PAGE_SIZE / PAGE_SIZE)
        (fun _ => PKVM_PAGE_SHARED_BORROWED) (pfn_of ph)
        = PKVM_PAGE_SHARED_BORROWED
      rw [size_div_pages]
      exact updRange_in _ _ _ _ _ (by omega)
    · show guestUpd s vm (pfn_of ipa)
        (.valid ph (pkvm_mkstate pr PKVM_PAGE_SHARED_OWNED)) vm (pfn_of ipa)
        = _
      rw [guestUpd_same_in, hpr_eq, hphi]
    · refine guestSole_update_self ?_ hsole
      intro g ipa2 hg2 hipa2
      rcases guestUpd_cases s vm (pfn_of ipa)
        (.valid ph (pkvm_mkstate pr PKVM_PAGE_SHARED_OWNED)) g ipa2
        with ⟨hgv, hslot, hupd⟩ | hupd
      · exact Or.inl ⟨hgv, hslot⟩
      · exact Or.inr (Or.inl hupd)
  · refine guestPtesAligned_upd ?_ hinv.2
    intro g ipa2 hg2 hipa2
    rcases guestUpd_cases s vm (pfn_of ipa)
      (.valid ph (pkvm_mkstate pr PKVM_PAGE_SHARED_OWNED)) g ipa2
      with ⟨hgv, hslot, hupd⟩ | hupd
    · right
      intro ph2 pr2 hpte2
      have hpte2' : guestUpd s vm (pfn_of ipa)
          (.valid ph (pkvm_mkstate pr PKVM_PAGE_SHARED_OWNED)) g ipa2
          = .valid ph2 pr2 := hpte2
      rw [hupd] at hpte2'
      rw [GuestPTE.valid.injEq] at hpte2'
      rw [← hpte2'.1]
      exact halign
    · left
      exact hupd

/-! ### Invariant preservation: guest unshare host -/

theorem inv_guest_unshare_host (cfg : Config) (hcfg : ValidCfg cfg)
    (vm ipa : Nat) (s : SysState) (hinv : Inv cfg s)
    (hvm : vm < cfg.nrGuests) (hipa : pfn_of ipa < cfg.ipaLimit) :
    Inv cfg (__pkvm_guest_unshare_host cfg vm ipa s).2 := by
  have hP : PAGE_SIZE = 4096 := rfl
  show Inv cfg ((if check_unshare cfg (guest_host_tx vm ipa) s ≠ 0 then
      (check_unshare cfg (guest_host_tx vm ipa) s, s)
    else __do_unshare cfg (guest_host_tx vm ipa) s).2)
  by_cases hc : check_unshare cfg (guest_host_tx vm ipa) s = 0
  case neg =>
    rw [if_pos hc]
    exact hinv
  case pos =>
  rw [if_neg (by simp [hc])]
  have hc' : (if (__guest_request_page_transition cfg.mem
        (guest_host_tx vm ipa) PKVM_PAGE_SHARED_OWNED s).1 ≠ 0 then
        (__guest_request_page_transition cfg.mem (guest_host_tx vm ipa)
          PKVM_PAGE_SHARED_OWNED s).1
      else __host_check_page_state_range cfg.mem
        (__guest_request_page_transition cfg.mem (guest_host_tx vm ipa)
          PKVM_PAGE_SHARED_OWNED s).2
        (1 * PAGE_SIZE) PKVM_PAGE_SHARED_BORROWED s) = 0 := hc
  have hr1 := (ite_int_eq_zero hc').1
  have hack := (ite_int_eq_zero hc').2
  have hreqeq : __guest_request_page_transition cfg.mem (guest_host_tx vm ipa)
      PKVM_PAGE_SHARED_OWNED s =
      (0, (__guest_request_page_transition cfg.mem (guest_host_tx vm ipa)
        PKVM_PAGE_SHARED_OWNED s).2) := by
    have hsplit : __guest_request_page_transition cfg.mem
        (guest_host_tx vm ipa) PKVM_PAGE_SHARED_OWNED s =
        ((__guest_request_page_transition cfg.mem (guest_host_tx vm ipa)
          PKVM_PAGE_SHARED_OWNED s).1,
        (__guest_request_page_transition cfg.mem (guest_host_tx vm ipa)
          PKVM_PAGE_SHARED_OWNED s).2) := rfl
    rw [hr1] at hsplit
    exact hsplit
  obtain ⟨-, hstate, hallow, hca, -⟩ := guest_request_elim cfg.mem
    (guest_host_tx vm ipa) PKVM_PAGE_SHARED_OWNED s hreqeq
  have hstate' : guest_get_page_state (s.guestPt vm (pfn_of ipa)) =
      PKVM_PAGE_SHARED_OWNED := hstate
  obtain ⟨ph, pr, hleaf, hprw, hgst⟩ := guest_state_shared_owned_shape hstate'
  have halign : ph % PAGE_SIZE = 0 := hinv.2 vm hvm (pfn_of ipa) hipa ph pr hleaf
  have hphi : hyp_pfn_to_phys (pfn_of ph) = ph := by
    unfold hyp_pfn_to_phys pfn_of
    rw [hP] at halign ⊢
    omega
  have hallow' : addr_is_allowed_memory cfg.mem ph = true := by
    have h2 : addr_is_allowed_memory cfg.mem
        (s.guestPt vm (pfn_of ipa)).physOf = true := hallow
    rw [hleaf] at h2
    exact h2
  have hmemp : isMemPfn cfg.mem (pfn_of ph) = true := by
    rw [isMemPfn_eq]
    show addr_is_memory cfg.mem (hyp_pfn_to_phys (pfn_of ph)) = true
    rw [hphi]
    exact addr_is_memory_of_allowed hallow'
  have hmem_addr : addr_is_memory cfg.mem ph = true := by
    rw [← hphi]
    exact hmemp
  have hmaps : guestMapsPhys (s.guestPt vm (pfn_of ipa)) (pfn_of ph) := by
    rw [hleaf]
    exact hphi.symm
  obtain ⟨hsole, hhyp, hpat⟩ := inv_guest_mapping cfg s hinv hvm hipa hmemp
    hmaps
  have hca2 : (__guest_request_page_transition cfg.mem (guest_host_tx vm ipa)
      PKVM_PAGE_SHARED_OWNED s).2 = ph := by
    have h2 : (__guest_request_page_transition cfg.mem (guest_host_tx vm ipa)
        PKVM_PAGE_SHARED_OWNED s).2 = (s.guestPt vm (pfn_of ipa)).physOf := hca
    rw [hleaf] at h2
    exact h2
  have hhostchk : __host_check_page_state_range cfg.mem
      (pfn_of ph * PAGE_SIZE) (1 * PAGE_SIZE) PKVM_PAGE_SHARED_BORROWED s
      = 0 := by
    rw [hca2] at hack
    show __host_check_page_state_range cfg.mem (hyp_pfn_to_phys (pfn_of ph))
      (1 * PAGE_SIZE) PKVM_PAGE_SHARED_BORROWED s = 0
    rw [hphi]
    exact hack
  rcases host_check_elim cfg.mem hcfg (by norm_num) hhostchk with hL | hR
  case inr =>
    have h0 := hR 0 (by norm_num)
    rw [show pfn_of ph + 0 = pfn_of ph from rfl] at h0
    rw [h0] at hmemp
    exact absurd hmemp (by decide)
  case inl =>
  obtain ⟨-, hhostSB⟩ := hL 0 (by norm_num)
  rw [show pfn_of ph + 0 = pfn_of ph from rfl] at hhostSB
  rcases hpat with hB1 | hB2 | hB3
  case inl =>
    rw [hB1.1] at hhostSB
    exact absurd hhostSB (by decide)
  case inr.inl =>
    rw [hB2.1] at hhostSB
    exact absurd hhostSB (by decide)
  case inr.inr =>
  obtain ⟨-, hpte_exact⟩ := hB3
  have hinj := hleaf.symm.trans hpte_exact
  rw [GuestPTE.valid.injEq] at hinj
  obtain ⟨hph_eq, hpr_eq⟩ := hinj
  have hini : guest_initiate_unshare (guest_host_tx vm ipa) s =
      (0, ph,
        { s with guestPt := guestUpd s vm (pfn_of ipa) (.valid ph (pkvm_mkstate pr PKVM_PAGE_OWNED)) }) := by
    show ((0 : Int), (s.guestPt vm (pfn_of ipa)).physOf,
      (guest_stage2_map vm ipa (1 * PAGE_SIZE)
        (s.guestPt vm (pfn_of ipa)).physOf
        (pkvm_mkstate (s.guestPt vm (pfn_of ipa)).protOf
          PKVM_PAGE_OWNED) s).2) = _
    rw [hleaf]
    simp only [GuestPTE.physOf, GuestPTE.protOf]
    rw [guest_stage2_map_one]
    rfl
  have hset := host_stage2_set_owner_eval cfg.mem ph (1 * PAGE_SIZE) 3
    { s with
      guestPt := guestUpd s vm (pfn_of ipa) (.valid ph (pkvm_mkstate pr PKVM_PAGE_OWNED))
      psciCount := s.psciCount + 1 } (by decide)
  have hfin : (__do_unshare cfg (guest_host_tx vm ipa) s).2 =
      { s with
        guestPt := guestUpd s vm (pfn_of ipa) (.valid ph (pkvm_mkstate pr PKVM_PAGE_OWNED))
        hostPT := updRange s.hostPT (pfn_of ph) (1 * PAGE_SIZE / PAGE_SIZE)
          fun _ => .annot 3
        hostState := if addr_is_memory cfg.mem ph = true then
            updRange s.hostState (pfn_of ph) (1 * PAGE_SIZE / PAGE_SIZE)
              fun _ => PKVM_NOPAGE
          else s.hostState
        psciCount := s.psciCount + 1 } := by
    show (if (guest_initiate_unshare (guest_host_tx vm ipa) s).1 ≠ 0 then
        ((guest_initiate_unshare (guest_host_tx vm ipa) s).1,
          (guest_initiate_unshare (guest_host_tx vm ipa) s).2.2)
      else host_complete_unshare cfg.mem
        (guest_initiate_unshare (guest_host_tx vm ipa) s).2.1
        (guest_host_tx vm ipa)
        (guest_initiate_unshare (guest_host_tx vm ipa) s).2.2).2 = _
    rw [hini, if_neg (by simp)]
    show (host_stage2_set_owner_locked cfg.mem ph (1 * PAGE_SIZE) 3
      { s with
        guestPt := guestUpd s vm (pfn_of ipa) (.valid ph (pkvm_mkstate pr PKVM_PAGE_OWNED))
        psciCount := s.psciCount + 1 }).2 = _
    rw [hset]
    rfl
  rw [hfin]
  constructor
  · intro p hp
    by_cases hpq : p = pfn_of ph
    case neg =>
      refine pageInv_transfer ?_ ?_ ?_ (hinv.1 p hp)
      · show (if addr_is_memory cfg.mem ph = true then
            updRange s.hostState (pfn_of ph) (1 * PAGE_SIZE / PAGE_SIZE)
              fun _ => PKVM_NOPAGE
          else s.hostState) p = s.hostState p
        rw [if_pos hmem_addr, size_div_pages]
        exact updRange_out _ _ _ _ _ (by omega)
      · exact rfl
      · intro g ipa2 hg2 hipa2
        rcases guestUpd_cases s vm (pfn_of ipa)
          (.valid ph (pkvm_mkstate pr PKVM_PAGE_OWNED)) g ipa2
          with ⟨hgv, hslot, hupd⟩ | hupd
        · right
          constructor
          · rw [hgv, hslot, hleaf]
            intro hm
            exact hpq (mapsPhys_valid_pfn hm).symm
          · show ¬ guestMapsPhys (guestUpd s vm (pfn_of ipa)
              (.valid ph (pkvm_mkstate pr PKVM_PAGE_OWNED)) g ipa2) p
            rw [hupd]
            intro hm
            exact hpq (mapsPhys_valid_pfn hm).symm
        · left
          exact hupd
    case pos =>
    subst p
    refine Or.inr (Or.inr (Or.inr (Or.inl
      ⟨?_, hhyp, vm, hvm, pfn_of ipa, hipa, ?_, ?_⟩)))
    · show (if addr_is_memory cfg.mem ph = true then
          updRange s.hostState (pfn_of ph) (1 * PAGE_SIZE / PAGE_SIZE)
            fun _ => PKVM_NOPAGE
        else s.hostState) (pfn_of ph) = PKVM_NOPAGE
      rw [if_pos hmem_addr, size_div_pages]
      exact updRange_in _ _ _ _ _ (by omega)
    · show guestUpd s vm (pfn_of ipa)
        (.valid ph (pkvm_mkstate pr PKVM_PAGE_OWNED)) vm (pfn_of ipa) = _
      rw [guestUpd_same_in, hpr_eq, hphi]
      rw [show pkvm_mkstate (pkvm_mkstate KVM_PGTABLE_PROT_RWX
        PKVM_PAGE_SHARED_OWNED) PKVM_PAGE_OWNED = KVM_PGTABLE_PROT_RWX
        by decide]
    · refine guestSole_update_self ?_ hsole
      intro g ipa2 hg2 hipa2
      rcases guestUpd_cases s vm (pfn_of ipa)
        (.valid ph (pkvm_mkstate pr PKVM_PAGE_OWNED)) g ipa2
        with ⟨hgv, hslot, hupd⟩ | hupd
      · exact Or.inl ⟨hgv, hslot⟩
      · exact Or.inr (Or.inl hupd)
  · refine guestPtesAligned_upd ?_ hinv.2
    intro g ipa2 hg2 hipa2
    rcases guestUpd_cases s vm (pfn_of ipa)
      (.valid ph (pkvm_mkstate pr PKVM_PAGE_OWNED)) g ipa2
      with ⟨hgv, hslot, hupd⟩ | hupd
    · right
      intro ph2 pr2 hpte2
      have hpte2' : guestUpd s vm (pfn_of ipa)
          (.valid ph (pkvm_mkstate pr PKVM_PAGE_OWNED)) g ipa2
          = .valid ph2 pr2 := hpte2
      rw [hupd] at hpte2'
      rw [GuestPTE.valid.injEq] at hpte2'
      rw [← hpte2'.1]
      exact halign
    · left
      exact hupd

/-! ### Invariant preservation: host share guest -/

theorem inv_host_share_guest (cfg : Config) (hcfg : ValidCfg cfg)
    (pfn gfn vm prot : Nat) (s : SysState) (hinv : Inv cfg s)
    (hvm : vm < cfg.nrGuests) (hgfn : gfn < cfg.ipaLimit) :
    Inv cfg (__pkvm_host_share_guest cfg pfn gfn vm prot s).2 := by
  have hP : PAGE_SIZE = 4096 := rfl
  show Inv cfg ((if check_share cfg (host_guest_share_tx pfn gfn vm prot) s
        ≠ 0 then
      (check_share cfg (host_guest_share_tx pfn gfn vm prot) s, s)
    else __do_share cfg (host_guest_share_tx pfn gfn vm prot) s).2)
  by_cases hc : check_share cfg (host_guest_share_tx pfn gfn vm prot) s = 0
  case neg =>
    rw [if_pos hc]
    exact hinv
  case pos =>
  rw [if_neg (by simp [hc])]
  have hc' : (if __host_check_page_state_range cfg.mem (pfn * PAGE_SIZE)
        (1 * PAGE_SIZE) PKVM_PAGE_OWNED s ≠ 0 then
        __host_check_page_state_range cfg.mem (pfn * PAGE_SIZE)
          (1 * PAGE_SIZE) PKVM_PAGE_OWNED s
      else guest_ack_share cfg.mem (gfn * PAGE_SIZE)
        (host_guest_share_tx pfn gfn vm prot) prot s) = 0 := hc
  have hreq := (ite_int_eq_zero hc').1
  have hack := (ite_int_eq_zero hc').2
  have hack2 : (if ¬ addr_is_memory cfg.mem (pfn * PAGE_SIZE) = true ∨
      Nat.land prot 504 ≠ 0 then (-EPERM : Int)
    else __guest_check_page_state_range vm (gfn * PAGE_SIZE) (1 * PAGE_SIZE)
      PKVM_NOPAGE s) = 0 := hack
  have hcondO : ¬ (¬ addr_is_memory cfg.mem (pfn * PAGE_SIZE) = true ∨
      Nat.land prot 504 ≠ 0) := by
    intro hbad
    rw [if_pos hbad] at hack2
    norm_num [EPERM] at hack2
  have hcond := hcondO
  push_neg at hcond
  obtain ⟨hmem_addr, hprot504⟩ := hcond
  have hguestchk : __guest_check_page_state_range vm (gfn * PAGE_SIZE)
      (1 * PAGE_SIZE) PKVM_NOPAGE s = 0 := by
    rw [if_neg hcondO] at hack2
    exact hack2
  have hg0 := guest_check_elim hguestchk 0 (by norm_num)
  rw [show gfn + 0 = gfn from rfl] at hg0
  rcases host_check_elim cfg.mem hcfg (by norm_num) hreq with hL | hR
  case inr =>
    have h0 := hR 0 (by norm_num)
    rw [show pfn + 0 = pfn from rfl] at h0
    rw [isMemPfn_eq, hmem_addr] at h0
    exact absurd h0 (by decide)
  case inl =>
  obtain ⟨hm0, hst0⟩ := hL 0 (by norm_num)
  rw [show pfn + 0 = pfn from rfl] at hm0 hst0
  obtain ⟨hhyp, hng⟩ := inv_host_owned cfg s hinv hm0 hst0
  have hini : host_initiate_share (host_guest_share_tx pfn gfn vm prot) s =
      (0, gfn * PAGE_SIZE,
        { s with
          hostPT := if Nat.land (s.hostState pfn) PKVM_NOPAGE ≠ 0 then
              updRange s.hostPT pfn 1 fun _ => .valid PKVM_HOST_MEM_PROT
            else s.hostPT
          hostState := updRange s.hostState pfn 1
            fun _ => PKVM_PAGE_SHARED_OWNED }) := by
    show ((__host_set_page_state_range (pfn * PAGE_SIZE) (1 * PAGE_SIZE)
        PKVM_PAGE_SHARED_OWNED s).1, gfn * PAGE_SIZE,
      (__host_set_page_state_range (pfn * PAGE_SIZE) (1 * PAGE_SIZE)
        PKVM_PAGE_SHARED_OWNED s).2) = _
    rw [__host_set_page_state_range_eval, pfn_of_mul, size_div_pages]
  have hfin : (__do_share cfg (host_guest_share_tx pfn gfn vm prot) s).2 =
      { s with
        hostPT := if Nat.land (s.hostState pfn) PKVM_NOPAGE ≠ 0 then
            updRange s.hostPT pfn 1 fun _ => .valid PKVM_HOST_MEM_PROT
          else s.hostPT
        hostState := updRange s.hostState pfn 1
          fun _ => PKVM_PAGE_SHARED_OWNED
        guestPt := guestUpd
          { s with
            hostPT := if Nat.land (s.hostState pfn) PKVM_NOPAGE ≠ 0 then
                updRange s.hostPT pfn 1 fun _ => .valid PKVM_HOST_MEM_PROT
              else s.hostPT
            hostState := updRange s.hostState pfn 1
              fun _ => PKVM_PAGE_SHARED_OWNED }
          vm gfn (.valid (pfn * PAGE_SIZE)
            (pkvm_mkstate prot PKVM_PAGE_SHARED_BORROWED)) } := by
    show (if (host_initiate_share (host_guest_share_tx pfn gfn vm prot) s).1
        ≠ 0 then
        ((host_initiate_share (host_guest_share_tx pfn gfn vm prot) s).1,
          (host_initiate_share (host_guest_share_tx pfn gfn vm prot) s).2.2)
      else guest_complete_share
        (host_initiate_share (host_guest_share_tx pfn gfn vm prot) s).2.1
        (host_guest_share_tx pfn gfn vm prot) prot
        (host_initiate_share (host_guest_share_tx pfn gfn vm prot) s).2.2).2
      = _
    rw [hini, if_neg (by simp)]
    show (guest_stage2_map vm (gfn * PAGE_SIZE) (1 * PAGE_SIZE)
      (pfn * PAGE_SIZE) (pkvm_mkstate prot PKVM_PAGE_SHARED_BORROWED)
      { s with
        hostPT := if Nat.land (s.hostState pfn) PKVM_NOPAGE ≠ 0 then
            updRange s.hostPT pfn 1 fun _ => .valid PKVM_HOST_MEM_PROT
          else s.hostPT
        hostState := updRange s.hostState pfn 1
          fun _ => PKVM_PAGE_SHARED_OWNED }).2 = _
    rw [guest_stage2_map_one, pfn_of_mul]
    rfl
  have hGslots : ∀ g ipa2, guestUpd
      { s with
        hostPT := if Nat.land (s.hostState pfn) PKVM_NOPAGE ≠ 0 then
            updRange s.hostPT pfn 1 fun _ => .valid PKVM_HOST_MEM_PROT
          else s.hostPT
        hostState := updRange s.hostState pfn 1
          fun _ => PKVM_PAGE_SHARED_OWNED }
      vm gfn (.valid (pfn * PAGE_SIZE)
        (pkvm_mkstate prot PKVM_PAGE_SHARED_BORROWED)) g ipa2
      = guestUpd s vm gfn (.valid (pfn * PAGE_SIZE)
        (pkvm_mkstate prot PKVM_PAGE_SHARED_BORROWED)) g ipa2 :=
    fun g ipa2 => rfl
  rw [hfin]
  constructor
  · intro p hp
    by_cases hpq : p = pfn
    case neg =>
      refine pageInv_transfer ?_ ?_ ?_ (hinv.1 p hp)
      · show updRange s.hostState pfn 1 (fun _ => PKVM_PAGE_SHARED_OWNED) p
          = s.hostState p
        exact updRange_out _ _ _ _ _ (by omega)
      · exact rfl
      · intro g ipa2 hg2 hipa2
        rcases guestUpd_cases s vm gfn
          (.valid (pfn * PAGE_SIZE)
            (pkvm_mkstate prot PKVM_PAGE_SHARED_BORROWED)) g ipa2
          with ⟨hgv, hslot, hupd⟩ | hupd
        · right
          constructor
          · rw [hgv, hslot]
            exact guest_state_nopage_not_valid hg0 p
          · show ¬ guestMapsPhys (guestUpd _ vm gfn
              (.valid (pfn * PAGE_SIZE)
                (pkvm_mkstate prot PKVM_PAGE_SHARED_BORROWED)) g ipa2) p
            rw [hGslots, hupd]
            intro hm
            have := mapsPhys_valid_pfn hm
            rw [pfn_of_mul] at this
            exact hpq this.symm
        · left
          show guestUpd _ vm gfn (.valid (pfn * PAGE_SIZE)
            (pkvm_mkstate prot PKVM_PAGE_SHARED_BORROWED)) g ipa2
            = s.guestPt g ipa2
          rw [hGslots, hupd]
    case pos =>
    subst p
    refine Or.inr (Or.inr (Or.inr (Or.inr (Or.inr (Or.inl
      ⟨?_, hhyp, vm, hvm, gfn, hgfn, ?_, ?_⟩)))))
    · show updRange s.hostState pfn 1 (fun _ => PKVM_PAGE_SHARED_OWNED) pfn
        = PKVM_PAGE_SHARED_OWNED
      exact updRange_in _ _ _ _ _ (by omega)
    · show guestPteSharedBorrowed (guestUpd _ vm gfn
        (.valid (pfn * PAGE_SIZE)
          (pkvm_mkstate prot PKVM_PAGE_SHARED_BORROWED)) vm gfn) pfn
      rw [hGslots, guestUpd_same_in]
      exact ⟨rfl, mkstate_sw1_shape prot hprot504⟩
    · refine guestSole_intro hvm hgfn ?_ hng
      intro g ipa2 hg2 hipa2
      rcases guestUpd_cases s vm gfn
        (.valid (pfn * PAGE_SIZE)
          (pkvm_mkstate prot PKVM_PAGE_SHARED_BORROWED)) g ipa2
        with ⟨hgv, hslot, hupd⟩ | hupd
      · exact Or.inl ⟨hgv, hslot⟩
      · right
        left
        show guestUpd _ vm gfn (.valid (pfn * PAGE_SIZE)
          (pkvm_mkstate prot PKVM_PAGE_SHARED_BORROWED)) g ipa2
          = s.guestPt g ipa2
        rw [hGslots, hupd]
  · refine guestPtesAligned_upd ?_ hinv.2
    intro g ipa2 hg2 hipa2
    rcases guestUpd_cases s vm gfn
      (.valid (pfn * PAGE_SIZE)
        (pkvm_mkstate prot PKVM_PAGE_SHARED_BORROWED)) g ipa2
      with ⟨hgv, hslot, hupd⟩ | hupd
    · right
      intro ph2 pr2 hpte2
      have hpte2' : guestUpd s vm gfn (.valid (pfn * PAGE_SIZE)
          (pkvm_mkstate prot PKVM_PAGE_SHARED_BORROWED)) g ipa2
          = .valid ph2 pr2 := hpte2
      rw [hupd] at hpte2'
      rw [GuestPTE.valid.injEq] at hpte2'
      rw [← hpte2'.1, hP]
      omega
    · left
      show guestUpd _ vm gfn (.valid (pfn * PAGE_SIZE)
        (pkvm_mkstate prot PKVM_PAGE_SHARED_BORROWED)) g ipa2
        = s.guestPt g ipa2
      rw [hGslots, hupd]

/-! ### Invariant preservation: host unshare guest -/

theorem guest_state_unrestricted (ph pr : Nat) :
    Nat.land (guest_get_page_state (.valid ph pr)) NOT_RESTRICTED_MASK =
      pkvm_getstate pr := by
  show ((if Nat.land pr KVM_PGTABLE_PROT_RWX ≠ KVM_PGTABLE_PROT_RWX then
      PKVM_PAGE_RESTRICTED_PROT else 0) ||| (pr &&& 384)) &&& 509
      = pr &&& 384
  rw [and_or_distrib_right_nat]
  split_ifs with hc
  · rw [show (PKVM_PAGE_RESTRICTED_PROT &&& 509 : Nat) = 0 by decide,
      Nat.zero_or, Nat.and_assoc, show (384 &&& 509 : Nat) = 384 by decide]
  · rw [show ((0 : Nat) &&& 509) = 0 by decide, Nat.zero_or, Nat.and_assoc,
      show (384 &&& 509 : Nat) = 384 by decide]

theorem isValid_shape {pte : GuestPTE} (h : pte.isValid = true) :
    ∃ ph pr, pte = .valid ph pr := by
  cases pte with
  | valid ph pr => exact ⟨ph, pr, rfl⟩
  | zero => exact absurd h (by decide)
  | annot tag => exact absurd h (by simp [GuestPTE.isValid])

/-- Single-page unmap of a guest stage-2 slot. -/
theorem guest_stage2_unmap_one (vm ipa : Nat) (s : SysState) :
    guest_stage2_unmap vm ipa PAGE_SIZE s =
      (0, { s with guestPt := guestUpd s vm (pfn_of ipa) .zero }) := rfl

/-- Outcome of `__check_host_unshare_guest`: failure, or a valid
shared-borrowed guest leaf together with the host-side check. -/
theorem check_host_unshare_guest_cases (cfg : Config) (vm ipa : Nat)
    (s : SysState) :
    (__check_host_unshare_guest cfg vm ipa s).1 ≠ 0 ∨
    ((s.guestPt vm (pfn_of ipa)).isValid = true ∧
     Nat.land (guest_get_page_state (s.guestPt vm (pfn_of ipa)))
       NOT_RESTRICTED_MASK = PKVM_PAGE_SHARED_BORROWED ∧
     __check_host_unshare_guest cfg vm ipa s =
       (__host_check_page_state_range cfg.mem
         (s.guestPt vm (pfn_of ipa)).physOf PAGE_SIZE
         PKVM_PAGE_SHARED_OWNED s,
        (s.guestPt vm (pfn_of ipa)).physOf)) := by
  have hstep1 : guest_get_valid_pte s vm ipa 0 =
      (if ¬ (s.guestPt vm (pfn_of ipa)).isValid = true then
        ((-ENOENT : Int), s.guestPt vm (pfn_of ipa), 0)
      else (0, s.guestPt vm (pfn_of ipa),
        (s.guestPt vm (pfn_of ipa)).physOf)) := by
    unfold guest_get_valid_pte guest_get_leaf
    simp only []
    rw [if_neg (by decide), if_neg (by decide)]
  by_cases hval : (s.guestPt vm (pfn_of ipa)).isValid = true
  case neg =>
    left
    have hstep2 : guest_get_valid_pte s vm ipa 0 =
        ((-ENOENT : Int), s.guestPt vm (pfn_of ipa), 0) := by
      rw [hstep1]
      exact if_pos hval
    have hcv : __check_host_unshare_guest cfg vm ipa s =
        ((-ENOENT : Int), 0) := by
      unfold __check_host_unshare_guest
      simp only []
      rw [hstep2]
      rw [show (((-ENOENT : Int), s.guestPt vm (pfn_of ipa),
        (0 : Nat))).1 = (-ENOENT : Int) from rfl]
      rw [if_pos (by norm_num [ENOENT])]
    rw [hcv]
    norm_num [ENOENT]
  case pos =>
  have hstep2 : guest_get_valid_pte s vm ipa 0 =
      ((0 : Int), s.guestPt vm (pfn_of ipa),
        (s.guestPt vm (pfn_of ipa)).physOf) := by
    rw [hstep1]
    exact if_neg (by simp [hval])
  by_cases hsb : Nat.land (guest_get_page_state (s.guestPt vm (pfn_of ipa)))
      NOT_RESTRICTED_MASK = PKVM_PAGE_SHARED_BORROWED
  case neg =>
    left
    have hcv : __check_host_unshare_guest cfg vm ipa s =
        ((-EPERM : Int), 0) := by
      unfold __check_host_unshare_guest
      simp only []
      rw [hstep2]
      rw [show (((0 : Int), s.guestPt vm (pfn_of ipa),
        (s.guestPt vm (pfn_of ipa)).physOf)).1 = (0 : Int) from rfl]
      rw [if_neg (by norm_num)]
      rw [show (((0 : Int), s.guestPt vm (pfn_of ipa),
        (s.guestPt vm (pfn_of ipa)).physOf)).2.1
        = s.guestPt vm (pfn_of ipa) from rfl]
      rw [if_pos hsb]
    rw [hcv]
    norm_num [EPERM]
  case pos =>
  right
  refine ⟨hval, hsb, ?_⟩
  unfold __check_host_unshare_guest
  simp only []
  rw [hstep2]
  rw [show (((0 : Int), s.guestPt vm (pfn_of ipa),
    (s.guestPt vm (pfn_of ipa)).physOf)).1 = (0 : Int) from rfl]
  rw [if_neg (by norm_num)]
  rw [show (((0 : Int), s.guestPt vm (pfn_of ipa),
    (s.guestPt vm (pfn_of ipa)).physOf)).2.1
    = s.guestPt vm (pfn_of ipa) from rfl]
  rw [if_neg (by simp [hsb])]

theorem inv_host_unshare_guest (cfg : Config) (hcfg : ValidCfg cfg)
    (gfn vm : Nat) (s : SysState) (hinv : Inv cfg s)
    (hvm : vm < cfg.nrGuests) (hgfn : gfn < cfg.ipaLimit) :
    Inv cfg (__pkvm_host_unshare_guest cfg gfn vm s).2 := by
  have hP : PAGE_SIZE = 4096 := rfl
  show Inv cfg ((if (__check_host_unshare_guest cfg vm (gfn * PAGE_SIZE)
        s).1 ≠ 0 then
      ((__check_host_unshare_guest cfg vm (gfn * PAGE_SIZE) s).1, s)
    else (0, (__host_set_page_state_range
        (__check_host_unshare_guest cfg vm (gfn * PAGE_SIZE) s).2 PAGE_SIZE
        PKVM_PAGE_OWNED
        (guest_stage2_unmap vm (gfn * PAGE_SIZE) PAGE_SIZE s).2).2)).2)
  by_cases hcz : (__check_host_unshare_guest cfg vm (gfn * PAGE_SIZE) s).1
      = 0
  case neg =>
    rw [if_pos hcz]
    exact hinv
  case pos =>
  rw [if_neg (by simp [hcz])]
  rcases check_host_unshare_guest_cases cfg vm (gfn * PAGE_SIZE) s
    with hbad | ⟨hval, hsb, hceq⟩
  case inl => exact absurd hcz hbad
  case inr =>
  obtain ⟨ph, pr, hpte⟩ := isValid_shape hval
  rw [pfn_of_mul] at hpte
  have hgst : pkvm_getstate pr = PKVM_PAGE_SHARED_BORROWED := by
    rw [pfn_of_mul, hpte, guest_state_unrestricted] at hsb
    exact hsb
  have halign : ph % PAGE_SIZE = 0 := hinv.2 vm hvm gfn hgfn ph pr hpte
  have hphi : hyp_pfn_to_phys (pfn_of ph) = ph := by
    unfold hyp_pfn_to_phys pfn_of
    rw [hP] at halign ⊢
    omega
  have hmaps : guestMapsPhys (s.guestPt vm gfn) (pfn_of ph) := by
    rw [hpte]
    exact hphi.symm
  have hpa : (__check_host_unshare_guest cfg vm (gfn * PAGE_SIZE) s).2
      = ph := by
    rw [hceq]
    show (s.guestPt vm (pfn_of (gfn * PAGE_SIZE))).physOf = ph
    rw [pfn_of_mul, hpte]
    rfl
  have hhostchk : __host_check_page_state_range cfg.mem
      (pfn_of ph * PAGE_SIZE) (1 * PAGE_SIZE) PKVM_PAGE_SHARED_OWNED s
      = 0 := by
    have h2 := congrArg Prod.fst hceq
    rw [hcz] at h2
    show __host_check_page_state_range cfg.mem (hyp_pfn_to_phys (pfn_of ph))
      (1 * PAGE_SIZE) PKVM_PAGE_SHARED_OWNED s = 0
    rw [hphi]
    have h3 : __host_check_page_state_range cfg.mem
        (s.guestPt vm (pfn_of (gfn * PAGE_SIZE))).physOf PAGE_SIZE
        PKVM_PAGE_SHARED_OWNED s = 0 := h2.symm
    rw [pfn_of_mul, hpte] at h3
    exact h3
  have hunm : guest_stage2_unmap vm (gfn * PAGE_SIZE) PAGE_SIZE s =
      (0, { s with guestPt := guestUpd s vm gfn .zero }) := by
    rw [guest_stage2_unmap_one, pfn_of_mul]
  have hfin : (__host_set_page_state_range
      (__check_host_unshare_guest cfg vm (gfn * PAGE_SIZE) s).2 PAGE_SIZE
      PKVM_PAGE_OWNED
      (guest_stage2_unmap vm (gfn * PAGE_SIZE) PAGE_SIZE s).2).2 =
      { s with
        guestPt := guestUpd s vm gfn .zero
        hostPT := if Nat.land (s.hostState (pfn_of ph)) PKVM_NOPAGE ≠ 0 then
            updRange s.hostPT (pfn_of ph) (PAGE_SIZE / PAGE_SIZE)
              fun _ => .valid PKVM_HOST_MEM_PROT
          else s.hostPT
        hostState := updRange s.hostState (pfn_of ph)
          (PAGE_SIZE / PAGE_SIZE) fun _ => PKVM_PAGE_OWNED } := by
    rw [hpa, hunm, __host_set_page_state_range_eval]
  rw [hfin]
  rcases host_check_elim cfg.mem hcfg (by norm_num) hhostchk with hL | hR
  case inr =>
    -- the page is outside declared memory: every memory page is untouched
    have hnm := hR 0 (by norm_num)
    rw [show pfn_of ph + 0 = pfn_of ph from rfl] at hnm
    constructor
    · intro p hp
      have hpq : p ≠ pfn_of ph := by
        intro he
        rw [he, hnm] at hp
        exact absurd hp (by decide)
      refine pageInv_transfer ?_ ?_ ?_ (hinv.1 p hp)
      · show updRange s.hostState (pfn_of ph) (PAGE_SIZE / PAGE_SIZE)
          (fun _ => PKVM_PAGE_OWNED) p = s.hostState p
        rw [show PAGE_SIZE / PAGE_SIZE = 1 from rfl]
        exact updRange_out _ _ _ _ _ (by omega)
      · exact rfl
      · intro g ipa2 hg2 hipa2
        rcases guestUpd_cases s vm gfn .zero g ipa2
          with ⟨hgv, hslot, hupd⟩ | hupd
        · right
          constructor
          · rw [hgv, hslot, hpte]
            intro hm
            exact hpq (mapsPhys_valid_pfn hm).symm
          · show ¬ guestMapsPhys (guestUpd s vm gfn .zero g ipa2) p
            rw [hupd]
            exact fun hm => hm
        · left
          exact hupd
    · refine guestPtesAligned_upd ?_ hinv.2
      intro g ipa2 hg2 hipa2
      rcases guestUpd_cases s vm gfn .zero g ipa2
        with ⟨hgv, hslot, hupd⟩ | hupd
      · right
        intro ph2 pr2 hpte2
        have hpte2' : guestUpd s vm gfn .zero g ipa2 = .valid ph2 pr2 :=
          hpte2
        rw [hupd] at hpte2'
        exact absurd hpte2' (by simp)
      · left
        exact hupd
  case inl =>
  obtain ⟨hmemp, hhostSO⟩ := hL 0 (by norm_num)
  rw [show pfn_of ph + 0 = pfn_of ph from rfl] at hmemp hhostSO
  obtain ⟨hsole, hhyp, hpat⟩ := inv_guest_mapping cfg s hinv hvm hgfn hmemp
    hmaps
  constructor
  · intro p hp
    by_cases hpq : p = pfn_of ph
    case neg =>
      refine pageInv_transfer ?_ ?_ ?_ (hinv.1 p hp)
      · show updRange s.hostState (pfn_of ph) (PAGE_SIZE / PAGE_SIZE)
          (fun _ => PKVM_PAGE_OWNED) p = s.hostState p
        rw [show PAGE_SIZE / PAGE_SIZE = 1 from rfl]
        exact updRange_out _ _ _ _ _ (by omega)
      · exact rfl
      · intro g ipa2 hg2 hipa2
        rcases guestUpd_cases s vm gfn .zero g ipa2
          with ⟨hgv, hslot, hupd⟩ | hupd
        · right
          constructor
          · rw [hgv, hslot, hpte]
            intro hm
            exact hpq (mapsPhys_valid_pfn hm).symm
          · show ¬ guestMapsPhys (guestUpd s vm gfn .zero g ipa2) p
            rw [hupd]
            exact fun hm => hm
        · left
          exact hupd
    case pos =>
    subst p
    refine Or.inr (Or.inl ⟨?_, hhyp, ?_⟩)
    · show updRange s.hostState (pfn_of ph) (PAGE_SIZE / PAGE_SIZE)
        (fun _ => PKVM_PAGE_OWNED) (pfn_of ph) = PKVM_PAGE_OWNED
      rw [show PAGE_SIZE / PAGE_SIZE = 1 from rfl]
      exact updRange_in _ _ _ _ _ (by omega)
    · intro g hg ipa2 hipa2
      rcases guestUpd_cases s vm gfn .zero g ipa2
        with ⟨hgv, hslot, hupd⟩ | hupd
      · show ¬ guestMapsPhys (guestUpd s vm gfn .zero g ipa2) (pfn_of ph)
        rw [hupd]
        exact fun hm => hm
      · show ¬ guestMapsPhys (guestUpd s vm gfn .zero g ipa2) (pfn_of ph)
        rw [hupd]
        intro hm
        obtain ⟨he1, he2⟩ := hsole.2.2 g hg ipa2 hipa2 hm
        rw [he1, he2] at hupd
        rw [he1, he2] at hm
        rw [guestUpd_same_in] at hupd
        rw [← hupd] at hm
        exact hm
  · refine guestPtesAligned_upd ?_ hinv.2
    intro g ipa2 hg2 hipa2
    rcases guestUpd_cases s vm gfn .zero g ipa2
      with ⟨hgv, hslot, hupd⟩ | hupd
    · right
      intro ph2 pr2 hpte2
      have hpte2' : guestUpd s vm gfn .zero g ipa2 = .valid ph2 pr2 := hpte2
      rw [hupd] at hpte2'
      exact absurd hpte2' (by simp)
    · left
      exact hupd

/-! ### Invariant preservation: host donate guest -/

theorem inv_host_donate_guest (cfg : Config) (hcfg : ValidCfg cfg)
    (pfn gfn vm : Nat) (s : SysState) (hinv : Inv cfg s)
    (hvm : vm < cfg.nrGuests) (hgfn : gfn < cfg.ipaLimit) :
    Inv cfg (__pkvm_host_donate_guest cfg pfn gfn vm s).2 := by
  have hP : PAGE_SIZE = 4096 := rfl
  show Inv cfg ((if check_donation cfg (host_guest_donate_tx pfn gfn vm) s
        ≠ 0 then
      (check_donation cfg (host_guest_donate_tx pfn gfn vm) s, s)
    else __do_donate cfg (host_guest_donate_tx pfn gfn vm) s).2)
  by_cases hc : check_donation cfg (host_guest_donate_tx pfn gfn vm) s = 0
  case neg =>
    rw [if_pos hc]
    exact hinv
  case pos =>
  rw [if_neg (by simp [hc])]
  have hc' : (if __host_check_page_state_range cfg.mem (pfn * PAGE_SIZE)
        (1 * PAGE_SIZE) PKVM_PAGE_OWNED s ≠ 0 then
        __host_check_page_state_range cfg.mem (pfn * PAGE_SIZE)
          (1 * PAGE_SIZE) PKVM_PAGE_OWNED s
      else guest_ack_donation cfg.mem (gfn * PAGE_SIZE)
        (host_guest_donate_tx pfn gfn vm) s) = 0 := hc
  have hreq := (ite_int_eq_zero hc').1
  have hack := (ite_int_eq_zero hc').2
  have hack2 : (if ¬ addr_is_memory cfg.mem (pfn * PAGE_SIZE) = true then
      (-EPERM : Int)
    else __guest_check_page_state_range vm (gfn * PAGE_SIZE) (1 * PAGE_SIZE)
      PKVM_NOPAGE s) = 0 := hack
  have hmem_addr : addr_is_memory cfg.mem (pfn * PAGE_SIZE) = true := by
    by_contra hbad
    rw [if_pos (by simp [hbad])] at hack2
    norm_num [EPERM] at hack2
  have hguestchk : __guest_check_page_state_range vm (gfn * PAGE_SIZE)
      (1 * PAGE_SIZE) PKVM_NOPAGE s = 0 := by
    rw [if_neg (by simp [hmem_addr])] at hack2
    exact hack2
  have hg0 := guest_check_elim hguestchk 0 (by norm_num)
  rw [show gfn + 0 = gfn from rfl] at hg0
  rcases host_check_elim cfg.mem hcfg (by norm_num) hreq with hL | hR
  case inr =>
    have h0 := hR 0 (by norm_num)
    rw [show pfn + 0 = pfn from rfl] at h0
    rw [isMemPfn_eq, hmem_addr] at h0
    exact absurd h0 (by decide)
  case inl =>
  obtain ⟨hm0, hst0⟩ := hL 0 (by norm_num)
  rw [show pfn + 0 = pfn from rfl] at hm0 hst0
  obtain ⟨hhyp, hng⟩ := inv_host_owned cfg s hinv hm0 hst0
  have hset := host_stage2_set_owner_eval cfg.mem (pfn * PAGE_SIZE)
    (1 * PAGE_SIZE) 3 s (by decide)
  have hini : host_initiate_donation cfg.mem
      (host_guest_donate_tx pfn gfn vm) s =
      (0, gfn * PAGE_SIZE,
        { s with
          hostPT := updRange s.hostPT pfn 1 fun _ => .annot 3
          hostState := if addr_is_memory cfg.mem (pfn * PAGE_SIZE)
              = true then
              updRange s.hostState pfn 1 fun _ => PKVM_NOPAGE
            else s.hostState }) := by
    show ((host_stage2_set_owner_locked cfg.mem (pfn * PAGE_SIZE)
        (1 * PAGE_SIZE) 3 s).1, gfn * PAGE_SIZE,
      (host_stage2_set_owner_locked cfg.mem (pfn * PAGE_SIZE)
        (1 * PAGE_SIZE) 3 s).2) = _
    rw [hset, pfn_of_mul, size_div_pages]
    rfl
  have hdo : (__do_donate cfg (host_guest_donate_tx pfn gfn vm) s).2 =
      (guest_complete_donation cfg (gfn * PAGE_SIZE)
        (host_guest_donate_tx pfn gfn vm)
        { s with
          hostPT := updRange s.hostPT pfn 1 fun _ => .annot 3
          hostState := if addr_is_memory cfg.mem (pfn * PAGE_SIZE)
              = true then
              updRange s.hostState pfn 1 fun _ => PKVM_NOPAGE
            else s.hostState }).2 := by
    show (if (host_initiate_donation cfg.mem
          (host_guest_donate_tx pfn gfn vm) s).1 ≠ 0 then
        ((host_initiate_donation cfg.mem
            (host_guest_donate_tx pfn gfn vm) s).1,
          (host_initiate_donation cfg.mem
            (host_guest_donate_tx pfn gfn vm) s).2.2)
      else guest_complete_donation cfg
        (host_initiate_donation cfg.mem
          (host_guest_donate_tx pfn gfn vm) s).2.1
        (host_guest_donate_tx pfn gfn vm)
        (host_initiate_donation cfg.mem
          (host_guest_donate_tx pfn gfn vm) s).2.2).2 = _
    rw [hini, if_neg (by simp)]
  have hcd : guest_complete_donation cfg (gfn * PAGE_SIZE)
      (host_guest_donate_tx pfn gfn vm)
      { s with
        hostPT := updRange s.hostPT pfn 1 fun _ => .annot 3
        hostState := if addr_is_memory cfg.mem (pfn * PAGE_SIZE)
            = true then
            updRange s.hostState pfn 1 fun _ => PKVM_NOPAGE
          else s.hostState } =
      (if pkvm_ipa_range_has_pvmfw cfg vm (gfn * PAGE_SIZE)
          (gfn * PAGE_SIZE + 1 * PAGE_SIZE) = true then
        (if (!pkvm_hyp_vcpu_is_protected cfg vm) = true then
          ((-EPERM : Int),
            { s with
              hostPT := updRange s.hostPT pfn 1 fun _ => .annot 3
              hostState := if addr_is_memory cfg.mem (pfn * PAGE_SIZE)
                  = true then
                  updRange s.hostState pfn 1 fun _ => PKVM_NOPAGE
                else s.hostState
              psciCount := s.psciCount + 1 - 1 })
        else guest_stage2_map vm (gfn * PAGE_SIZE) (1 * PAGE_SIZE)
          (pfn * PAGE_SIZE) (pkvm_mkstate KVM_PGTABLE_PROT_RWX
            PKVM_PAGE_OWNED)
          { s with
            hostPT := updRange s.hostPT pfn 1 fun _ => .annot 3
            hostState := if addr_is_memory cfg.mem (pfn * PAGE_SIZE)
                = true then
                updRange s.hostState pfn 1 fun _ => PKVM_NOPAGE
              else s.hostState
            psciCount := s.psciCount + 1 })
      else guest_stage2_map vm (gfn * PAGE_SIZE) (1 * PAGE_SIZE)
        (pfn * PAGE_SIZE) (pkvm_mkstate KVM_PGTABLE_PROT_RWX
          PKVM_PAGE_OWNED)
        { s with
          hostPT := updRange s.hostPT pfn 1 fun _ => .annot 3
          hostState := if addr_is_memory cfg.mem (pfn * PAGE_SIZE)
              = true then
              updRange s.hostState pfn 1 fun _ => PKVM_NOPAGE
            else s.hostState
          psciCount := s.psciCount + 1 }) := rfl
  by_cases hfw : pkvm_ipa_range_has_pvmfw cfg vm (gfn * PAGE_SIZE)
      (gfn * PAGE_SIZE + 1 * PAGE_SIZE) = true
  case pos =>
    by_cases hpro : pkvm_hyp_vcpu_is_protected cfg vm = true
    case neg =>
      -- pvmfw range targeted by an unprotected VM: the commit phase fails
      -- after the host-side owner update; the page is left ownerless.
      have hfin : (__do_donate cfg (host_guest_donate_tx pfn gfn vm) s).2 =
          { s with
            hostPT := updRange s.hostPT pfn 1 fun _ => .annot 3
            hostState := if addr_is_memory cfg.mem (pfn * PAGE_SIZE)
                = true then
                updRange s.hostState pfn 1 fun _ => PKVM_NOPAGE
              else s.hostState
            psciCount := s.psciCount + 1 - 1 } := by
        rw [hdo, hcd, if_pos hfw, if_pos (by simp [hpro])]
      rw [hfin]
      constructor
      · intro p hp
        by_cases hpq : p = pfn
        case neg =>
          refine pageInv_transfer ?_ ?_ ?_ (hinv.1 p hp)
          · show (if addr_is_memory cfg.mem (pfn * PAGE_SIZE) = true then
                updRange s.hostState pfn 1 fun _ => PKVM_NOPAGE
              else s.hostState) p = s.hostState p
            rw [if_pos hmem_addr]
            exact updRange_out _ _ _ _ _ (by omega)
          · exact rfl
          · exact fun g ipa2 hg2 hipa2 => Or.inl rfl
        case pos =>
        subst p
        refine Or.inl ⟨?_, hhyp, ?_⟩
        · show (if addr_is_memory cfg.mem (pfn * PAGE_SIZE) = true then
              updRange s.hostState pfn 1 fun _ => PKVM_NOPAGE
            else s.hostState) pfn = PKVM_NOPAGE
          rw [if_pos hmem_addr]
          exact updRange_in _ _ _ _ _ (by omega)
        · exact noGuestMaps_upd (fun g ipa2 hg2 hipa2 => Or.inl rfl) hng
      · exact fun g hg ipa2 hipa2 ph2 pr2 hpte2 =>
          hinv.2 g hg ipa2 hipa2 ph2 pr2 hpte2
    case pos =>
      have hfin : (__do_donate cfg (host_guest_donate_tx pfn gfn vm) s).2 =
          { s with
            hostPT := updRange s.hostPT pfn 1 fun _ => .annot 3
            hostState := if addr_is_memory cfg.mem (pfn * PAGE_SIZE)
                = true then
                updRange s.hostState pfn 1 fun _ => PKVM_NOPAGE
              else s.hostState
            guestPt := guestUpd s vm gfn (.valid (pfn * PAGE_SIZE)
              (pkvm_mkstate KVM_PGTABLE_PROT_RWX PKVM_PAGE_OWNED))
            psciCount := s.psciCount + 1 } := by
        rw [hdo, hcd, if_pos hfw, if_neg (by simp [hpro]),
          guest_stage2_map_one, pfn_of_mul]
        rfl
      rw [hfin]
      constructor
      · intro p hp
        by_cases hpq : p = pfn
        case neg =>
          refine pageInv_transfer ?_ ?_ ?_ (hinv.1 p hp)
          · show (if addr_is_memory cfg.mem (pfn * PAGE_SIZE) = true then
                updRange s.hostState pfn 1 fun _ => PKVM_NOPAGE
              else s.hostState) p = s.hostState p
            rw [if_pos hmem_addr]
            exact updRange_out _ _ _ _ _ (by omega)
          · exact rfl
          · intro g ipa2 hg2 hipa2
            rcases guestUpd_cases s vm gfn
              (.valid (pfn * PAGE_SIZE)
                (pkvm_mkstate KVM_PGTABLE_PROT_RWX PKVM_PAGE_OWNED)) g ipa2
              with ⟨hgv, hslot, hupd⟩ | hupd
            · right
              constructor
              · rw [hgv, hslot]
                exact guest_state_nopage_not_valid hg0 p
              · show ¬ guestMapsPhys (guestUpd s vm gfn
                  (.valid (pfn * PAGE_SIZE)
                    (pkvm_mkstate KVM_PGTABLE_PROT_RWX PKVM_PAGE_OWNED))
                  g ipa2) p
                rw [hupd]
                intro hm
                have := mapsPhys_valid_pfn hm
                rw [pfn_of_mul] at this
                exact hpq this.symm
            · exact Or.inl hupd
        case pos =>
        subst p
        refine Or.inr (Or.inr (Or.inr (Or.inl
          ⟨?_, hhyp, vm, hvm, gfn, hgfn, ?_, ?_⟩)))
        · show (if addr_is_memory cfg.mem (pfn * PAGE_SIZE) = true then
              updRange s.hostState pfn 1 fun _ => PKVM_NOPAGE
            else s.hostState) pfn = PKVM_NOPAGE
          rw [if_pos hmem_addr]
          exact updRange_in _ _ _ _ _ (by omega)
        · show guestUpd s vm gfn (.valid (pfn * PAGE_SIZE)
            (pkvm_mkstate KVM_PGTABLE_PROT_RWX PKVM_PAGE_OWNED)) vm gfn = _
          rw [guestUpd_same_in]
          rfl
        · refine guestSole_intro hvm hgfn ?_ hng
          intro g ipa2 hg2 hipa2
          rcases guestUpd_cases s vm gfn
            (.valid (pfn * PAGE_SIZE)
              (pkvm_mkstate KVM_PGTABLE_PROT_RWX PKVM_PAGE_OWNED)) g ipa2
            with ⟨hgv, hslot, hupd⟩ | hupd
          · exact Or.inl ⟨hgv, hslot⟩
          · exact Or.inr (Or.inl hupd)
      · refine guestPtesAligned_upd ?_ hinv.2
        intro g ipa2 hg2 hipa2
        rcases guestUpd_cases s vm gfn
          (.valid (pfn * PAGE_SIZE)
            (pkvm_mkstate KVM_PGTABLE_PROT_RWX PKVM_PAGE_OWNED)) g ipa2
          with ⟨hgv, hslot, hupd⟩ | hupd
        · right
          intro ph2 pr2 hpte2
          have hpte2' : guestUpd s vm gfn (.valid (pfn * PAGE_SIZE)
              (pkvm_mkstate KVM_PGTABLE_PROT_RWX PKVM_PAGE_OWNED)) g ipa2
              = .valid ph2 pr2 := hpte2
          rw [hupd] at hpte2'
          rw [GuestPTE.valid.injEq] at hpte2'
          rw [← hpte2'.1, hP]
          omega
        · exact Or.inl hupd
  case neg =>
    have hfin : (__do_donate cfg (host_guest_donate_tx pfn gfn vm) s).2 =
        { s with
          hostPT := updRange s.hostPT pfn 1 fun _ => .annot 3
          hostState := if addr_is_memory cfg.mem (pfn * PAGE_SIZE)
              = true then
              updRange s.hostState pfn 1 fun _ => PKVM_NOPAGE
            else s.hostState
          guestPt := guestUpd s vm gfn (.valid (pfn * PAGE_SIZE)
            (pkvm_mkstate KVM_PGTABLE_PROT_RWX PKVM_PAGE_OWNED))
          psciCount := s.psciCount + 1 } := by
      rw [hdo, hcd, if_neg hfw, guest_stage2_map_one, pfn_of_mul]
      rfl
    rw [hfin]
    constructor
    · intro p hp
      by_cases hpq : p = pfn
      case neg =>
        refine pageInv_transfer ?_ ?_ ?_ (hinv.1 p hp)
        · show (if addr_is_memory cfg.mem (pfn * PAGE_SIZE) = true then
              updRange s.hostState pfn 1 fun _ => PKVM_NOPAGE
            else s.hostState) p = s.hostState p
          rw [if_pos hmem_addr]
          exact updRange_out _ _ _ _ _ (by omega)
        · exact rfl
        · intro g ipa2 hg2 hipa2
          rcases guestUpd_cases s vm gfn
            (.valid (pfn * PAGE_SIZE)
              (pkvm_mkstate KVM_PGTABLE_PROT_RWX PKVM_PAGE_OWNED)) g ipa2
            with ⟨hgv, hslot, hupd⟩ | hupd
          · right
            constructor
            · rw [hgv, hslot]
              exact guest_state_nopage_not_valid hg0 p
            · show ¬ guestMapsPhys (guestUpd s vm gfn
                (.valid (pfn * PAGE_SIZE)
                  (pkvm_mkstate KVM_PGTABLE_PROT_RWX PKVM_PAGE_OWNED))
                g ipa2) p
              rw [hupd]
              intro hm
              have := mapsPhys_valid_pfn hm
              rw [pfn_of_mul] at this
              exact hpq this.symm
          · exact Or.inl hupd
      case pos =>
      subst p
      refine Or.inr (Or.inr (Or.inr (Or.inl
        ⟨?_, hhyp, vm, hvm, gfn, hgfn, ?_, ?_⟩)))
      · show (if addr_is_memory cfg.mem (pfn * PAGE_SIZE) = true then
            updRange s.hostState pfn 1 fun _ => PKVM_NOPAGE
          else s.hostState) pfn = PKVM_NOPAGE
        rw [if_pos hmem_addr]
        exact updRange_in _ _ _ _ _ (by omega)
      · show guestUpd s vm gfn (.valid (pfn * PAGE_SIZE)
          (pkvm_mkstate KVM_PGTABLE_PROT_RWX PKVM_PAGE_OWNED)) vm gfn = _
        rw [guestUpd_same_in]
        rfl
      · refine guestSole_intro hvm hgfn ?_ hng
        intro g ipa2 hg2 hipa2
        rcases guestUpd_cases s vm gfn
          (.valid (pfn * PAGE_SIZE)
            (pkvm_mkstate KVM_PGTABLE_PROT_RWX PKVM_PAGE_OWNED)) g ipa2
          with ⟨hgv, hslot, hupd⟩ | hupd
        · exact Or.inl ⟨hgv, hslot⟩
        · exact Or.inr (Or.inl hupd)
    · refine guestPtesAligned_upd ?_ hinv.2
      intro g ipa2 hg2 hipa2
      rcases guestUpd_cases s vm gfn
        (.valid (pfn * PAGE_SIZE)
          (pkvm_mkstate KVM_PGTABLE_PROT_RWX PKVM_PAGE_OWNED)) g ipa2
        with ⟨hgv, hslot, hupd⟩ | hupd
      · right
        intro ph2 pr2 hpte2
        have hpte2' : guestUpd s vm gfn (.valid (pfn * PAGE_SIZE)
            (pkvm_mkstate KVM_PGTABLE_PROT_RWX PKVM_PAGE_OWNED)) g ipa2
            = .valid ph2 pr2 := hpte2
        rw [hupd] at hpte2'
        rw [GuestPTE.valid.injEq] at hpte2'
        rw [← hpte2'.1, hP]
        omega
      · exact Or.inl hupd

/-! ### Invariant preservation: returning a guest page to the host

Common state shape of `__pkvm_guest_relinquish_to_host` and
`__pkvm_host_reclaim_page`: the guest slot is zapped and the page is handed
back to the host (when the physical address is declared memory). -/

theorem inv_zap_and_own (cfg : Config) (vm idx : Nat)
    (hvm : vm < cfg.nrGuests) (hidx : idx < cfg.ipaLimit)
    (s : SysState) (hinv : Inv cfg s)
    (ph pr psci2 : Nat) (hpte : s.guestPt vm idx = .valid ph pr) :
    Inv cfg
      { s with
        hostPT := updRange s.hostPT (pfn_of ph) (PAGE_SIZE / PAGE_SIZE)
          fun _ => .valid (default_host_prot (addr_is_memory cfg.mem ph))
        hostState := if addr_is_memory cfg.mem ph = true then
            updRange s.hostState (pfn_of ph) (PAGE_SIZE / PAGE_SIZE)
              fun _ => PKVM_PAGE_OWNED
          else s.hostState
        guestPt := guestUpd s vm idx .zero
        psciCount := psci2 } := by
  have hP : PAGE_SIZE = 4096 := rfl
  have halign : ph % PAGE_SIZE = 0 := hinv.2 vm hvm idx hidx ph pr hpte
  have hphi : hyp_pfn_to_phys (pfn_of ph) = ph := by
    unfold hyp_pfn_to_phys pfn_of
    rw [hP] at halign ⊢
    omega
  have hmaps : guestMapsPhys (s.guestPt vm idx) (pfn_of ph) := by
    rw [hpte]
    exact hphi.symm
  by_cases hmemp : isMemPfn cfg.mem (pfn_of ph) = true
  case pos =>
    obtain ⟨hsole, hhyp, -⟩ := inv_guest_mapping cfg s hinv hvm hidx hmemp
      hmaps
    have hmem_addr : addr_is_memory cfg.mem ph = true := by
      rw [← hphi]
      exact hmemp
    constructor
    · intro p hp
      by_cases hpq : p = pfn_of ph
      case neg =>
        refine pageInv_transfer ?_ ?_ ?_ (hinv.1 p hp)
        · show (if addr_is_memory cfg.mem ph = true then
              updRange s.hostState (pfn_of ph) (PAGE_SIZE / PAGE_SIZE)
                fun _ => PKVM_PAGE_OWNED
            else s.hostState) p = s.hostState p
          rw [if_pos hmem_addr, show PAGE_SIZE / PAGE_SIZE = 1 from rfl]
          exact updRange_out _ _ _ _ _ (by omega)
        · exact rfl
        · intro g ipa2 hg2 hipa2
          rcases guestUpd_cases s vm idx .zero g ipa2
            with ⟨hgv, hslot, hupd⟩ | hupd
          · right
            constructor
            · rw [hgv, hslot, hpte]
              intro hm
              exact hpq (mapsPhys_valid_pfn hm).symm
            · show ¬ guestMapsPhys (guestUpd s vm idx .zero g ipa2) p
              rw [hupd]
              exact fun hm => hm
          · left
            exact hupd
      case pos =>
      subst p
      refine Or.inr (Or.inl ⟨?_, hhyp, ?_⟩)
      · show (if addr_is_memory cfg.mem ph = true then
            updRange s.hostState (pfn_of ph) (PAGE_SIZE / PAGE_SIZE)
              fun _ => PKVM_PAGE_OWNED
          else s.hostState) (pfn_of ph) = PKVM_PAGE_OWNED
        rw [if_pos hmem_addr, show PAGE_SIZE / PAGE_SIZE = 1 from rfl]
        exact updRange_in _ _ _ _ _ (by omega)
      · intro g hg ipa2 hipa2
        rcases guestUpd_cases s vm idx .zero g ipa2
          with ⟨hgv, hslot, hupd⟩ | hupd
        · show ¬ guestMapsPhys (guestUpd s vm idx .zero g ipa2) (pfn_of ph)
          rw [hupd]
          exact fun hm => hm
        · show ¬ guestMapsPhys (guestUpd s vm idx .zero g ipa2) (pfn_of ph)
          rw [hupd]
          intro hm
          obtain ⟨he1, he2⟩ := hsole.2.2 g hg ipa2 hipa2 hm
          rw [he1, he2] at hupd
          rw [he1, he2] at hm
          rw [guestUpd_same_in] at hupd
          rw [← hupd] at hm
          exact hm
    · refine guestPtesAligned_upd ?_ hinv.2
      intro g ipa2 hg2 hipa2
      rcases guestUpd_cases s vm idx .zero g ipa2
        with ⟨hgv, hslot, hupd⟩ | hupd
      · right
        intro ph2 pr2 hpte2
        have hpte2' : guestUpd s vm idx .zero g ipa2 = .valid ph2 pr2 :=
          hpte2
        rw [hupd] at hpte2'
        exact absurd hpte2' (by simp)
      · left
        exact hupd
  case neg =>
    have hmf : addr_is_memory cfg.mem ph = false := by
      rw [← hphi]
      simpa using hmemp
    constructor
    · intro p hp
      have hpq : p ≠ pfn_of ph := by
        intro he
        rw [he] at hp
        exact hmemp hp
      refine pageInv_transfer ?_ ?_ ?_ (hinv.1 p hp)
      · show (if addr_is_memory cfg.mem ph = true then
            updRange s.hostState (pfn_of ph) (PAGE_SIZE / PAGE_SIZE)
              fun _ => PKVM_PAGE_OWNED
          else s.hostState) p = s.hostState p
        rw [if_neg (by simp [hmf])]
      · exact rfl
      · intro g ipa2 hg2 hipa2
        rcases guestUpd_cases s vm idx .zero g ipa2
          with ⟨hgv, hslot, hupd⟩ | hupd
        · right
          constructor
          · rw [hgv, hslot, hpte]
            intro hm
            exact hpq (mapsPhys_valid_pfn hm).symm
          · show ¬ guestMapsPhys (guestUpd s vm idx .zero g ipa2) p
            rw [hupd]
            exact fun hm => hm
        · left
          exact hupd
    · refine guestPtesAligned_upd ?_ hinv.2
      intro g ipa2 hg2 hipa2
      rcases guestUpd_cases s vm idx .zero g ipa2
        with ⟨hgv, hslot, hupd⟩ | hupd
      · right
        intro ph2 pr2 hpte2
        have hpte2' : guestUpd s vm idx .zero g ipa2 = .valid ph2 pr2 :=
          hpte2
        rw [hupd] at hpte2'
        exact absurd hpte2' (by simp)
      · left
        exact hupd

/-- `__pkvm_guest_relinquish_to_host` preserves the invariant. -/
theorem inv_guest_relinquish (cfg : Config) (vm ipa : Nat)
    (hvm : vm < cfg.nrGuests) (hipa : pfn_of ipa < cfg.ipaLimit)
    (s : SysState) (hinv : Inv cfg s) :
    Inv cfg (__pkvm_guest_relinquish_to_host cfg vm ipa s).2.2 := by
  by_cases hval : (s.guestPt vm (pfn_of ipa)).isValid = true
  case neg =>
    have hfin : __pkvm_guest_relinquish_to_host cfg vm ipa s =
        (0, 0, s) := by
      unfold __pkvm_guest_relinquish_to_host
      simp only []
      rw [if_pos hval]
    rw [hfin]
    exact hinv
  case pos =>
  obtain ⟨ph, pr, hpte⟩ := isValid_shape hval
  have hphOf : (s.guestPt vm (pfn_of ipa)).physOf = ph := by
    rw [hpte]
    rfl
  by_cases hpro : pkvm_hyp_vcpu_is_protected cfg vm = true
  case pos =>
    by_cases hst : pkvm_getstate (s.guestPt vm (pfn_of ipa)).protOf =
        PKVM_PAGE_OWNED
    case neg =>
      have hfin : __pkvm_guest_relinquish_to_host cfg vm ipa s =
          (-EPERM, 0, s) := by
        unfold __pkvm_guest_relinquish_to_host
        simp only []
        rw [if_neg (by simp [hval])]
        rw [if_pos (by rw [if_pos hpro]; exact hst)]
      rw [hfin]
      exact hinv
    case pos =>
    by_cases hph : (s.guestPt vm (pfn_of ipa)).physOf = 0
    case pos =>
      have hfin : __pkvm_guest_relinquish_to_host cfg vm ipa s =
          (0, (s.guestPt vm (pfn_of ipa)).physOf,
            psci_mem_protect_dec 1 (hyp_poison_page
              (s.guestPt vm (pfn_of ipa)).physOf s)) := by
        unfold __pkvm_guest_relinquish_to_host
        simp only []
        rw [if_neg (by simp [hval])]
        rw [if_neg (by rw [if_pos hpro]; simp [hst])]
        rw [if_pos hst]
        rw [if_neg (by simp [hph])]
      rw [hfin]
      constructor
      · intro p hp
        refine pageInv_transfer ?_ ?_ ?_ (hinv.1 p hp)
        · exact rfl
        · exact rfl
        · exact fun g ipa2 hg2 hipa2 => Or.inl rfl
      · exact fun g hg ipa2 hipa2 ph2 pr2 hpte2 =>
          hinv.2 g hg ipa2 hipa2 ph2 pr2 hpte2
    case neg =>
      have hset := host_stage2_set_owner_eval cfg.mem ph PAGE_SIZE
        ComponentId.host.ownerId
        (psci_mem_protect_dec 1 (hyp_poison_page ph s)) (by decide)
      have hfin : __pkvm_guest_relinquish_to_host cfg vm ipa s =
          (0, ph, { s with
            hostPT := updRange s.hostPT (pfn_of ph) (PAGE_SIZE / PAGE_SIZE)
              fun _ => .valid (default_host_prot (addr_is_memory cfg.mem ph))
            hostState := if addr_is_memory cfg.mem ph = true then
                updRange s.hostState (pfn_of ph) (PAGE_SIZE / PAGE_SIZE)
                  fun _ => PKVM_PAGE_OWNED
              else s.hostState
            guestPt := guestUpd s vm (pfn_of ipa) .zero
            psciCount := s.psciCount - 1 }) := by
        unfold __pkvm_guest_relinquish_to_host
        simp only []
        rw [if_neg (by simp [hval])]
        rw [if_neg (by rw [if_pos hpro]; simp [hst])]
        rw [if_pos hst]
        rw [if_pos hph]
        rw [hphOf]
        rw [hset]
        rw [guest_stage2_unmap_one]
        rfl
      rw [hfin]
      exact inv_zap_and_own cfg vm (pfn_of ipa) hvm hipa s hinv ph pr
        (s.psciCount - 1) hpte
  case neg =>
    by_cases hst : pkvm_getstate (s.guestPt vm (pfn_of ipa)).protOf =
        PKVM_PAGE_SHARED_BORROWED
    case neg =>
      have hfin : __pkvm_guest_relinquish_to_host cfg vm ipa s =
          (-EPERM, 0, s) := by
        unfold __pkvm_guest_relinquish_to_host
        simp only []
        rw [if_neg (by simp [hval])]
        rw [if_pos (by rw [if_neg hpro]; exact hst)]
      rw [hfin]
      exact hinv
    case pos =>
    have hst0 : pkvm_getstate (s.guestPt vm (pfn_of ipa)).protOf
        ≠ PKVM_PAGE_OWNED := by
      rw [hst]
      decide
    by_cases hph : (s.guestPt vm (pfn_of ipa)).physOf = 0
    case pos =>
      have hfin : __pkvm_guest_relinquish_to_host cfg vm ipa s =
          (0, (s.guestPt vm (pfn_of ipa)).physOf, s) := by
        unfold __pkvm_guest_relinquish_to_host
        simp only []
        rw [if_neg (by simp [hval])]
        rw [if_neg (by rw [if_neg hpro]; simp [hst])]
        rw [if_neg hst0]
        rw [if_neg (by simp [hph])]
      rw [hfin]
      exact hinv
    case neg =>
      have hset := host_stage2_set_owner_eval cfg.mem ph PAGE_SIZE
        ComponentId.host.ownerId s (by decide)
      have hfin : __pkvm_guest_relinquish_to_host cfg vm ipa s =
          (0, ph, { s with
            hostPT := updRange s.hostPT (pfn_of ph) (PAGE_SIZE / PAGE_SIZE)
              fun _ => .valid (default_host_prot (addr_is_memory cfg.mem ph))
            hostState := if addr_is_memory cfg.mem ph = true then
                updRange s.hostState (pfn_of ph) (PAGE_SIZE / PAGE_SIZE)
                  fun _ => PKVM_PAGE_OWNED
              else s.hostState
            guestPt := guestUpd s vm (pfn_of ipa) .zero }) := by
        unfold __pkvm_guest_relinquish_to_host
        simp only []
        rw [if_neg (by simp [hval])]
        rw [if_neg (by rw [if_neg hpro]; simp [hst])]
        rw [if_neg hst0]
        rw [if_pos hph]
        rw [hphOf]
        rw [hset]
        rw [guest_stage2_unmap_one]
        rfl
      rw [hfin]
      exact inv_zap_and_own cfg vm (pfn_of ipa) hvm hipa s hinv ph pr
        s.psciCount hpte

/-- Zapping a guest slot alone preserves the invariant, provided the
zapped mapping was not the witness of the host-shared-borrowed pattern. -/
theorem inv_zap_only (cfg : Config) (vm idx : Nat)
    (hvm : vm < cfg.nrGuests) (hidx : idx < cfg.ipaLimit)
    (s : SysState) (hinv : Inv cfg s)
    (ph pr : Nat) (hpte : s.guestPt vm idx = .valid ph pr)
    (hst128 : guest_get_page_state (s.guestPt vm idx)
      ≠ PKVM_PAGE_SHARED_OWNED) :
    Inv cfg { s with guestPt := guestUpd s vm idx .zero } := by
  have hP : PAGE_SIZE = 4096 := rfl
  have halign : ph % PAGE_SIZE = 0 := hinv.2 vm hvm idx hidx ph pr hpte
  have hphi : hyp_pfn_to_phys (pfn_of ph) = ph := by
    unfold hyp_pfn_to_phys pfn_of
    rw [hP] at halign ⊢
    omega
  have hmaps : guestMapsPhys (s.guestPt vm idx) (pfn_of ph) := by
    rw [hpte]
    exact hphi.symm
  have hGzap : ∀ p, p ≠ pfn_of ph → ∀ g ipa2, g < cfg.nrGuests →
      ipa2 < cfg.ipaLimit →
      guestUpd s vm idx .zero g ipa2 = s.guestPt g ipa2 ∨
      (¬ guestMapsPhys (s.guestPt g ipa2) p ∧
        ¬ guestMapsPhys (guestUpd s vm idx .zero g ipa2) p) := by
    intro p hpq g ipa2 hg2 hipa2
    rcases guestUpd_cases s vm idx .zero g ipa2
      with ⟨hgv, hslot, hupd⟩ | hupd
    · right
      constructor
      · rw [hgv, hslot, hpte]
        intro hm
        exact hpq (mapsPhys_valid_pfn hm).symm
      · rw [hupd]
        exact fun hm => hm
    · left
      exact hupd
  constructor
  · intro p hp
    by_cases hpq : p = pfn_of ph
    case neg =>
      refine pageInv_transfer ?_ ?_ ?_ (hinv.1 p hp)
      · exact rfl
      · exact rfl
      · exact hGzap p hpq
    case pos =>
    subst p
    obtain ⟨hsole, hhyp, hpat⟩ := inv_guest_mapping cfg s hinv hvm hidx hp
      hmaps
    have hng2 : NoGuestMaps cfg
        { s with guestPt := guestUpd s vm idx .zero } (pfn_of ph) := by
      intro g hg ipa2 hipa2
      rcases guestUpd_cases s vm idx .zero g ipa2
        with ⟨hgv, hslot, hupd⟩ | hupd
      · show ¬ guestMapsPhys (guestUpd s vm idx .zero g ipa2) (pfn_of ph)
        rw [hupd]
        exact fun hm => hm
      · show ¬ guestMapsPhys (guestUpd s vm idx .zero g ipa2) (pfn_of ph)
        rw [hupd]
        intro hm
        obtain ⟨he1, he2⟩ := hsole.2.2 g hg ipa2 hipa2 hm
        rw [he1, he2] at hupd
        rw [he1, he2] at hm
        rw [guestUpd_same_in] at hupd
        rw [← hupd] at hm
        exact hm
    rcases hpat with hB1 | hB2 | hB3
    · exact Or.inl ⟨hB1.1, hhyp, hng2⟩
    · exact Or.inr (Or.inr (Or.inr (Or.inr (Or.inr (Or.inr (Or.inl
        ⟨hB2.1, hhyp, hng2⟩))))))
    · rw [hB3.2] at hst128
      exact absurd (guest_state_valid_135 (hyp_pfn_to_phys (pfn_of ph)))
        hst128
  · refine guestPtesAligned_upd ?_ hinv.2
    intro g ipa2 hg2 hipa2
    rcases guestUpd_cases s vm idx .zero g ipa2
      with ⟨hgv, hslot, hupd⟩ | hupd
    · right
      intro ph2 pr2 hpte2
      have hpte2' : guestUpd s vm idx .zero g ipa2 = .valid ph2 pr2 := hpte2
      rw [hupd] at hpte2'
      exact absurd hpte2' (by simp)
    · left
      exact hupd

/-- `__pkvm_host_reclaim_page` preserves the invariant. -/
theorem inv_host_reclaim (cfg : Config) (vm pfn ipa : Nat)
    (hvm : vm < cfg.nrGuests) (hipa : pfn_of ipa < cfg.ipaLimit)
    (s : SysState) (hinv : Inv cfg s) :
    Inv cfg (__pkvm_host_reclaim_page cfg vm pfn ipa s).2 := by
  by_cases hval : (s.guestPt vm (pfn_of ipa)).isValid = true
  case neg =>
    have hfin : __pkvm_host_reclaim_page cfg vm pfn ipa s =
        (-EINVAL, s) := by
      unfold __pkvm_host_reclaim_page
      simp only []
      rw [if_pos hval]
    rw [hfin]
    exact hinv
  case pos =>
  obtain ⟨ph, pr, hpte⟩ := isValid_shape hval
  have hphOf : (s.guestPt vm (pfn_of ipa)).physOf = ph := by
    rw [hpte]
    rfl
  by_cases hpm : hyp_pfn_to_phys pfn = (s.guestPt vm (pfn_of ipa)).physOf
  case neg =>
    have hfin : __pkvm_host_reclaim_page cfg vm pfn ipa s =
        (-EPERM, s) := by
      unfold __pkvm_host_reclaim_page
      simp only []
      rw [if_neg (by simp [hval])]
      rw [if_pos hpm]
    rw [hfin]
    exact hinv
  case pos =>
  have hpm' : hyp_pfn_to_phys pfn = ph := hpm.trans hphOf
  by_cases hst : guest_get_page_state (s.guestPt vm (pfn_of ipa)) =
      PKVM_PAGE_OWNED
  case pos =>
    have hset := host_stage2_set_owner_eval cfg.mem ph PAGE_SIZE
      ComponentId.host.ownerId
      (psci_mem_protect_dec 1 (hyp_poison_page ph
        (guest_stage2_unmap vm ipa PAGE_SIZE s).2)) (by decide)
    have hfin : __pkvm_host_reclaim_page cfg vm pfn ipa s =
        (0, { s with
          hostPT := updRange s.hostPT (pfn_of ph) (PAGE_SIZE / PAGE_SIZE)
            fun _ => .valid (default_host_prot (addr_is_memory cfg.mem ph))
          hostState := if addr_is_memory cfg.mem ph = true then
              updRange s.hostState (pfn_of ph) (PAGE_SIZE / PAGE_SIZE)
                fun _ => PKVM_PAGE_OWNED
            else s.hostState
          guestPt := guestUpd s vm (pfn_of ipa) .zero
          psciCount := s.psciCount - 1 }) := by
      unfold __pkvm_host_reclaim_page
      simp only []
      rw [if_neg (by simp [hval])]
      rw [if_neg (fun h => h hpm)]
      rw [if_pos hst]
      rw [hpm']
      rw [hset]
      rfl
    rw [hfin]
    exact inv_zap_and_own cfg vm (pfn_of ipa) hvm hipa s hinv ph pr
      (s.psciCount - 1) hpte
  case neg =>
  by_cases hst2 : guest_get_page_state (s.guestPt vm (pfn_of ipa)) =
      PKVM_PAGE_SHARED_BORROWED ∨
      guest_get_page_state (s.guestPt vm (pfn_of ipa)) =
      PKVM_PAGE_SHARED_OWNED
  case pos =>
    have hset := host_stage2_set_owner_eval cfg.mem ph PAGE_SIZE
      ComponentId.host.ownerId (guest_stage2_unmap vm ipa PAGE_SIZE s).2
      (by decide)
    have hfin : __pkvm_host_reclaim_page cfg vm pfn ipa s =
        (0, { s with
          hostPT := updRange s.hostPT (pfn_of ph) (PAGE_SIZE / PAGE_SIZE)
            fun _ => .valid (default_host_prot (addr_is_memory cfg.mem ph))
          hostState := if addr_is_memory cfg.mem ph = true then
              updRange s.hostState (pfn_of ph) (PAGE_SIZE / PAGE_SIZE)
                fun _ => PKVM_PAGE_OWNED
            else s.hostState
          guestPt := guestUpd s vm (pfn_of ipa) .zero }) := by
      unfold __pkvm_host_reclaim_page
      simp only []
      rw [if_neg (by simp [hval])]
      rw [if_neg (fun h => h hpm)]
      rw [if_neg hst]
      rw [if_pos hst2]
      rw [hpm']
      rw [hset]
      rfl
    rw [hfin]
    exact inv_zap_and_own cfg vm (pfn_of ipa) hvm hipa s hinv ph pr
      s.psciCount hpte
  case neg =>
    have hfin : __pkvm_host_reclaim_page cfg vm pfn ipa s =
        (0, { s with guestPt := guestUpd s vm (pfn_of ipa) .zero }) := by
      unfold __pkvm_host_reclaim_page
      simp only []
      rw [if_neg (by simp [hval])]
      rw [if_neg (fun h => h hpm)]
      rw [if_neg hst]
      rw [if_neg hst2]
      rw [guest_stage2_unmap_one]
    rw [hfin]
    exact inv_zap_only cfg vm (pfn_of ipa) hvm hipa s hinv ph pr hpte
      (fun h => hst2 (Or.inr h))

/-- Every modelled operation preserves the inductive invariant. -/
theorem inv_step (cfg : Config) (hcfg : ValidCfg cfg) (s t : SysState)
    (hinv : Inv cfg s) (hstep : Step cfg s t) : Inv cfg t := by
  cases hstep with
  | host_share_hyp pfn s1 =>
      exact inv_host_share_hyp cfg hcfg pfn s hinv
  | host_unshare_hyp pfn s1 =>
      exact inv_host_unshare_hyp cfg hcfg pfn s hinv
  | guest_share_host vm ipa s1 hvm hipa =>
      exact inv_guest_share_host cfg hcfg vm ipa s hinv hvm hipa
  | guest_unshare_host vm ipa s1 hvm hipa =>
      exact inv_guest_unshare_host cfg hcfg vm ipa s hinv hvm hipa
  | host_share_ffa pfn nr_pages s1 =>
      exact inv_host_share_ffa cfg hcfg pfn nr_pages s hinv
  | host_unshare_ffa pfn nr_pages s1 hffa =>
      exact inv_host_unshare_ffa cfg hcfg pfn nr_pages s hinv hffa
  | host_share_guest pfn gfn vm prot s1 hvm hgfn =>
      exact inv_host_share_guest cfg hcfg pfn gfn vm prot s hinv hvm hgfn
  | host_unshare_guest gfn vm s1 hvm hgfn =>
      exact inv_host_unshare_guest cfg hcfg gfn vm s hinv hvm hgfn
  | host_donate_hyp pfn nr_pages accept_mmio prot s1 =>
      exact inv_host_donate_hyp cfg hcfg pfn nr_pages accept_mmio prot s
        hinv
  | hyp_donate_host pfn nr_pages s1 =>
      exact inv_hyp_donate_host cfg hcfg pfn nr_pages s hinv
  | host_donate_guest pfn gfn vm s1 hvm hgfn =>
      exact inv_host_donate_guest cfg hcfg pfn gfn vm s hinv hvm hgfn
  | guest_relinquish vm ipa s1 hvm hipa =>
      exact inv_guest_relinquish cfg vm ipa hvm hipa s hinv
  | host_reclaim vm pfn ipa s1 hvm hipa =>
      exact inv_host_reclaim cfg vm pfn ipa hvm hipa s hinv

/-- The inductive invariant holds in every reachable state. -/
theorem inv_reachable (cfg : Config) (hcfg : ValidCfg cfg) (s : SysState)
    (hreach : Reachable cfg s) : Inv cfg s := by
  have hr : Relation.ReflTransGen (Step cfg) (initState cfg) s := hreach
  clear hreach
  induction hr with
  | refl => exact inv_initState cfg
  | tail hr1 hstep ih => exact inv_step cfg hcfg _ _ ih hstep

/-- C1: Single-owner invariant.  In every reachable quiescent state of the
ownership machine — reachability being closure of the boot state under the
modelled share, unshare, donate, relinquish and reclaim operations — at
most one component among the host, the hypervisor core and the guests
holds the `Owned` state for any physical page of declared memory, so in
particular each of those operations preserves single ownership. -/
theorem C1_single_owner_invariant (cfg : Config) (hcfg : ValidCfg cfg)
    (s : SysState) (hreach : Reachable cfg s) : AtMostOneOwner cfg s :=
  inv_atMostOneOwner cfg s (inv_reachable cfg hcfg s hreach)

/-- Witness for C1 at the demo configuration and its boot state. -/
theorem C1_single_owner_invariant_witness :
    AtMostOneOwner demoCfg (initState demoCfg) :=
  C1_single_owner_invariant demoCfg (by decide) (initState demoCfg)
    Relation.ReflTransGen.refl

/-! ### Claim C4 — share/unshare round trip -/

/-- Successful `__pkvm_host_share_hyp` evaluated: return 0 and the
commit-phase state. -/
theorem share_hyp_eval (cfg : Config) (pfn : Nat) (s : SysState)
    (hcs : check_share cfg (host_hyp_tx cfg.mem pfn) s = 0) :
    __pkvm_host_share_hyp cfg pfn s = (0, shareHypState cfg pfn s) := by
  have hini : host_initiate_share (host_hyp_tx cfg.mem pfn) s =
      (0, pfn * PAGE_SIZE,
        { s with
          hostPT := if Nat.land (s.hostState (pfn_of (pfn * PAGE_SIZE)))
              PKVM_NOPAGE ≠ 0 then
              updRange s.hostPT (pfn_of (pfn * PAGE_SIZE))
                (1 * PAGE_SIZE / PAGE_SIZE) fun _ => .valid PKVM_HOST_MEM_PROT
            else s.hostPT
          hostState := updRange s.hostState (pfn_of (pfn * PAGE_SIZE))
            (1 * PAGE_SIZE / PAGE_SIZE)
            fun _ => PKVM_PAGE_SHARED_OWNED }) := by
    show ((__host_set_page_state_range (pfn * PAGE_SIZE) (1 * PAGE_SIZE)
        PKVM_PAGE_SHARED_OWNED s).1, pfn * PAGE_SIZE,
      (__host_set_page_state_range (pfn * PAGE_SIZE) (1 * PAGE_SIZE)
        PKVM_PAGE_SHARED_OWNED s).2) = _
    rw [__host_set_page_state_range_eval]
  show (if check_share cfg (host_hyp_tx cfg.mem pfn) s ≠ 0 then
      (check_share cfg (host_hyp_tx cfg.mem pfn) s, s)
    else __do_share cfg (host_hyp_tx cfg.mem pfn) s) = _
  rw [if_neg (by simp [hcs])]
  show (if (host_initiate_share (host_hyp_tx cfg.mem pfn) s).1 ≠ 0 then
      ((host_initiate_share (host_hyp_tx cfg.mem pfn) s).1,
        (host_initiate_share (host_hyp_tx cfg.mem pfn) s).2.2)
    else hyp_complete_share
      (host_initiate_share (host_hyp_tx cfg.mem pfn) s).2.1
      (host_hyp_tx cfg.mem pfn)
      (default_hyp_prot cfg.mem (pfn * PAGE_SIZE))
      (host_initiate_share (host_hyp_tx cfg.mem pfn) s).2.2) = _
  rw [hini, if_neg (by simp)]
  rfl

/-- Successful `__pkvm_host_unshare_hyp` evaluated: return 0 and the
commit-phase state (host vmemmap back to `OWNED`, hyp page unmapped). -/
theorem unshare_hyp_eval (cfg : Config) (pfn : Nat) (s : SysState)
    (hcu : check_unshare cfg (host_hyp_tx cfg.mem pfn) s = 0)
    (hm : (s.hypPT pfn).isSome = true) :
    __pkvm_host_unshare_hyp cfg pfn s =
      (0, { s with
        hostPT := if Nat.land (s.hostState (pfn_of (pfn * PAGE_SIZE)))
            PKVM_NOPAGE ≠ 0 then
            updRange s.hostPT (pfn_of (pfn * PAGE_SIZE))
              (1 * PAGE_SIZE / PAGE_SIZE) fun _ => .valid PKVM_HOST_MEM_PROT
          else s.hostPT
        hostState := updRange s.hostState (pfn_of (pfn * PAGE_SIZE))
          (1 * PAGE_SIZE / PAGE_SIZE) fun _ => PKVM_PAGE_OWNED
        hypPT := updRange s.hypPT (pfn_of (pfn * PAGE_SIZE))
          (1 * PAGE_SIZE / PAGE_SIZE) fun _ => none }) := by
  have hini : host_initiate_unshare (host_hyp_tx cfg.mem pfn) s =
      (0, pfn * PAGE_SIZE,
        { s with
          hostPT := if Nat.land (s.hostState (pfn_of (pfn * PAGE_SIZE)))
              PKVM_NOPAGE ≠ 0 then
              updRange s.hostPT (pfn_of (pfn * PAGE_SIZE))
                (1 * PAGE_SIZE / PAGE_SIZE) fun _ => .valid PKVM_HOST_MEM_PROT
            else s.hostPT
          hostState := updRange s.hostState (pfn_of (pfn * PAGE_SIZE))
            (1 * PAGE_SIZE / PAGE_SIZE)
            fun _ => PKVM_PAGE_OWNED }) := by
    show ((__host_set_page_state_range (pfn * PAGE_SIZE) (1 * PAGE_SIZE)
        PKVM_PAGE_OWNED s).1, pfn * PAGE_SIZE,
      (__host_set_page_state_range (pfn * PAGE_SIZE) (1 * PAGE_SIZE)
        PKVM_PAGE_OWNED s).2) = _
    rw [__host_set_page_state_range_eval]
  show (if check_unshare cfg (host_hyp_tx cfg.mem pfn) s ≠ 0 then
      (check_unshare cfg (host_hyp_tx cfg.mem pfn) s, s)
    else __do_unshare cfg (host_hyp_tx cfg.mem pfn) s) = _
  rw [if_neg (by simp [hcu])]
  show (if (host_initiate_unshare (host_hyp_tx cfg.mem pfn) s).1 ≠ 0 then
      ((host_initiate_unshare (host_hyp_tx cfg.mem pfn) s).1,
        (host_initiate_unshare (host_hyp_tx cfg.mem pfn) s).2.2)
    else hyp_complete_unshare
      (host_initiate_unshare (host_hyp_tx cfg.mem pfn) s).2.1
      (host_hyp_tx cfg.mem pfn)
      (host_initiate_unshare (host_hyp_tx cfg.mem pfn) s).2.2) = _
  rw [hini, if_neg (by simp)]
  show hyp_complete_unshare (pfn * PAGE_SIZE) (host_hyp_tx cfg.mem pfn)
    { s with
      hostPT := if Nat.land (s.hostState (pfn_of (pfn * PAGE_SIZE)))
          PKVM_NOPAGE ≠ 0 then
          updRange s.hostPT (pfn_of (pfn * PAGE_SIZE))
            (1 * PAGE_SIZE / PAGE_SIZE) fun _ => .valid PKVM_HOST_MEM_PROT
        else s.hostPT
      hostState := updRange s.hostState (pfn_of (pfn * PAGE_SIZE))
        (1 * PAGE_SIZE / PAGE_SIZE) fun _ => PKVM_PAGE_OWNED } = _
  unfold hyp_complete_unshare
  rw [show txSize (host_hyp_tx cfg.mem pfn) = 1 * PAGE_SIZE from rfl]
  rw [hyp_unmap_eval]
  · simp only []
    rw [if_neg (by simp)]
    rfl
  · intro j hj
    have hj0 : j = 0 := by omega
    subst hj0
    show (s.hypPT (pfn_of (pfn * PAGE_SIZE) + 0)).isSome = true
    rw [show pfn_of (pfn * PAGE_SIZE) + 0 = pfn from by rw [pfn_of_mul, Nat.add_zero]]
    exact hm

/-- C4.  Share/unshare round trip: on a page of declared, mapped memory
where the host (initiator) holds `Owned`, the hyp (completer) has no
mapping, and no stray hyp reference exists, `__pkvm_host_share_hyp`
succeeds and a following `__pkvm_host_unshare_hyp` of the same pfn
succeeds and restores the exact pre-share system state — the host back to
`Owned`, the hyp back to `NoPage`. -/
theorem C4_share_unshare_round_trip (cfg : Config) (pfn : Nat) (s : SysState)
    (hv : ValidCfg cfg) {i : Nat} (hi : i < cfg.mem.length)
    (hbase : (regAt cfg.mem i).base ≤ pfn * PAGE_SIZE)
    (hend : (pfn + 1) * PAGE_SIZE ≤ regEnd (regAt cfg.mem i))
    (hnomap : (regAt cfg.mem i).nomap = false)
    (howned : s.hostState pfn = PKVM_PAGE_OWNED)
    (hhyp : s.hypPT pfn = none)
    (href : s.hypRef pfn = 0) :
    (__pkvm_host_share_hyp cfg pfn s).1 = 0 ∧
    __pkvm_host_unshare_hyp cfg pfn (__pkvm_host_share_hyp cfg pfn s).2 =
      (0, s) := by
  have hP : PAGE_SIZE = 4096 := rfl
  have hcnt : (pfn * PAGE_SIZE + 1 * PAGE_SIZE - pfn * PAGE_SIZE) / PAGE_SIZE
      = 1 := by
    rw [hP]
    omega
  have haim : addr_is_memory cfg.mem (pfn * PAGE_SIZE) = true :=
    (addr_is_memory_iff cfg.mem (pfn * PAGE_SIZE) hv).mpr
      ⟨i, hi, hbase, by rw [hP] at hend ⊢; omega⟩
  have hprot : default_hyp_prot cfg.mem (pfn * PAGE_SIZE) = PAGE_HYP := by
    unfold default_hyp_prot
    rw [if_pos haim]
  have hreqO : __host_check_page_state_range cfg.mem (pfn * PAGE_SIZE)
      (1 * PAGE_SIZE) PKVM_PAGE_OWNED s = 0 := by
    apply host_check_intro_mem cfg.mem hv hi (by omega) hbase hend hnomap
    intro j hj
    have hj0 : j = 0 := by omega
    subst hj0
    simpa using howned
  have hcs : check_share cfg (host_hyp_tx cfg.mem pfn) s = 0 := by
    show (if __host_check_page_state_range cfg.mem (pfn * PAGE_SIZE)
          (1 * PAGE_SIZE) PKVM_PAGE_OWNED s ≠ 0 then
          __host_check_page_state_range cfg.mem (pfn * PAGE_SIZE)
            (1 * PAGE_SIZE) PKVM_PAGE_OWNED s
        else hyp_ack_share cfg.mem (pfn * PAGE_SIZE) (host_hyp_tx cfg.mem pfn)
          (default_hyp_prot cfg.mem (pfn * PAGE_SIZE)) s) = 0
    rw [if_neg (by rw [hreqO]; exact fun h => h rfl)]
    unfold hyp_ack_share
    rw [if_neg (by simp [hyp_virt_to_phys, haim])]
    rw [if_pos (show __hyp_ack_skip_pgtable_check (host_hyp_tx cfg.mem pfn)
      = true from rfl)]
  have hshare := share_hyp_eval cfg pfn s hcs
  have hland1 : Nat.land (s.hostState (pfn_of (pfn * PAGE_SIZE)))
      PKVM_NOPAGE = 0 := by
    rw [pfn_of_mul, howned]
    decide
  have hS1host : ∀ j, j < 1 → (shareHypState cfg pfn s).hostState (pfn + j)
      = PKVM_PAGE_SHARED_OWNED := by
    intro j hj
    have hj0 : j = 0 := by omega
    subst hj0
    show updRange s.hostState (pfn_of (pfn * PAGE_SIZE))
      (1 * PAGE_SIZE / PAGE_SIZE) (fun _ => PKVM_PAGE_SHARED_OWNED) (pfn + 0)
      = PKVM_PAGE_SHARED_OWNED
    rw [pfn_of_mul, size_div_pages]
    exact updRange_in _ _ _ _ _ (by omega)
  have hS1hyp : (shareHypState cfg pfn s).hypPT pfn =
      some (pkvm_mkstate PAGE_HYP PKVM_PAGE_SHARED_BORROWED) := by
    show updRange s.hypPT (pfn_of (pfn * PAGE_SIZE))
      ((pfn * PAGE_SIZE + 1 * PAGE_SIZE - pfn * PAGE_SIZE) / PAGE_SIZE)
      (fun _ => some (pkvm_mkstate
        (default_hyp_prot cfg.mem (pfn * PAGE_SIZE))
        PKVM_PAGE_SHARED_BORROWED)) pfn
      = some (pkvm_mkstate PAGE_HYP PKVM_PAGE_SHARED_BORROWED)
    rw [pfn_of_mul, hcnt, hprot]
    exact updRange_in _ _ _ _ _ (by omega)
  have hcu : check_unshare cfg (host_hyp_tx cfg.mem pfn)
      (shareHypState cfg pfn s) = 0 := by
    have hreq2 : __host_check_page_state_range cfg.mem (pfn * PAGE_SIZE)
        (1 * PAGE_SIZE) PKVM_PAGE_SHARED_OWNED (shareHypState cfg pfn s)
        = 0 := by
      apply host_check_intro_mem cfg.mem hv hi (by omega) hbase hend hnomap
      intro j hj
      simpa using hS1host j hj
    show (if __host_check_page_state_range cfg.mem (pfn * PAGE_SIZE)
          (1 * PAGE_SIZE) PKVM_PAGE_SHARED_OWNED (shareHypState cfg pfn s)
          ≠ 0 then
          __host_check_page_state_range cfg.mem (pfn * PAGE_SIZE)
            (1 * PAGE_SIZE) PKVM_PAGE_SHARED_OWNED (shareHypState cfg pfn s)
        else hyp_ack_unshare (pfn * PAGE_SIZE) (host_hyp_tx cfg.mem pfn)
          (shareHypState cfg pfn s)) = 0
    rw [if_neg (by rw [hreq2]; exact fun h => h rfl)]
    unfold hyp_ack_unshare
    rw [if_neg (fun h => h.2 (by
      show s.hypRef (pfn_of (pfn * PAGE_SIZE)) = 0
      rw [pfn_of_mul]
      exact href))]
    have hall : allPfns (pfn_of (pfn * PAGE_SIZE))
        (txSize (host_hyp_tx cfg.mem pfn) / PAGE_SIZE)
        (fun p => hyp_get_page_state ((shareHypState cfg pfn s).hypPT p)
          == PKVM_PAGE_SHARED_BORROWED) = true := by
      apply (allPfns_iff _ _ _).mpr
      intro j hj
      have hts : txSize (host_hyp_tx cfg.mem pfn) / PAGE_SIZE = 1 := by
        rw [show txSize (host_hyp_tx cfg.mem pfn) = 1 * PAGE_SIZE from rfl,
          size_div_pages]
      rw [hts] at hj
      have hj0 : j = 0 := by omega
      subst hj0
      show (hyp_get_page_state ((shareHypState cfg pfn s).hypPT
        (pfn_of (pfn * PAGE_SIZE) + 0)) == PKVM_PAGE_SHARED_BORROWED) = true
      rw [show pfn_of (pfn * PAGE_SIZE) + 0 = pfn from by rw [pfn_of_mul, Nat.add_zero]]
      rw [hS1hyp]
      rfl
    unfold __hyp_check_page_state_range
    rw [if_pos hall]
  have hm1 : ((shareHypState cfg pfn s).hypPT pfn).isSome = true := by
    rw [hS1hyp]
    rfl
  have hunshare := unshare_hyp_eval cfg pfn (shareHypState cfg pfn s) hcu hm1
  refine ⟨by rw [hshare], ?_⟩
  rw [hshare]
  show __pkvm_host_unshare_hyp cfg pfn (shareHypState cfg pfn s) = (0, s)
  rw [hunshare]
  have hS1h0 : (shareHypState cfg pfn s).hostState pfn
      = PKVM_PAGE_SHARED_OWNED := by
    simpa using hS1host 0 (by omega)
  have hland2 : Nat.land ((shareHypState cfg pfn s).hostState
      (pfn_of (pfn * PAGE_SIZE))) PKVM_NOPAGE = 0 := by
    rw [show pfn_of (pfn * PAGE_SIZE) = pfn from pfn_of_mul pfn, hS1h0]
    decide
  have hPT1 : (shareHypState cfg pfn s).hostPT = s.hostPT := by
    show (if Nat.land (s.hostState (pfn_of (pfn * PAGE_SIZE)))
        PKVM_NOPAGE ≠ 0 then
        updRange s.hostPT (pfn_of (pfn * PAGE_SIZE))
          (1 * PAGE_SIZE / PAGE_SIZE) fun _ => .valid PKVM_HOST_MEM_PROT
      else s.hostPT) = s.hostPT
    rw [if_neg (by simp [hland1])]
  have hHS : updRange (shareHypState cfg pfn s).hostState
      (pfn_of (pfn * PAGE_SIZE)) (1 * PAGE_SIZE / PAGE_SIZE)
      (fun _ => PKVM_PAGE_OWNED) = s.hostState := by
    funext p
    show updRange (updRange s.hostState (pfn_of (pfn * PAGE_SIZE))
      (1 * PAGE_SIZE / PAGE_SIZE) fun _ => PKVM_PAGE_SHARED_OWNED)
      (pfn_of (pfn * PAGE_SIZE)) (1 * PAGE_SIZE / PAGE_SIZE)
      (fun _ => PKVM_PAGE_OWNED) p = s.hostState p
    rw [pfn_of_mul, size_div_pages]
    by_cases hp : pfn ≤ p ∧ p < pfn + 1
    · rw [updRange_in _ _ _ _ _ hp]
      have hppfn : p = pfn := by omega
      subst hppfn
      exact howned.symm
    · rw [updRange_out _ _ _ _ _ hp, updRange_out _ _ _ _ _ hp]
  have hHY : updRange (shareHypState cfg pfn s).hypPT
      (pfn_of (pfn * PAGE_SIZE)) (1 * PAGE_SIZE / PAGE_SIZE)
      (fun _ => (none : Option Nat)) = s.hypPT := by
    funext p
    show updRange (updRange s.hypPT (pfn_of (pfn * PAGE_SIZE))
      ((pfn * PAGE_SIZE + 1 * PAGE_SIZE - pfn * PAGE_SIZE) / PAGE_SIZE)
      fun _ => some (pkvm_mkstate
        (default_hyp_prot cfg.mem (pfn * PAGE_SIZE))
        PKVM_PAGE_SHARED_BORROWED))
      (pfn_of (pfn * PAGE_SIZE)) (1 * PAGE_SIZE / PAGE_SIZE)
      (fun _ => none) p = s.hypPT p
    rw [pfn_of_mul, size_div_pages, hcnt]
    by_cases hp : pfn ≤ p ∧ p < pfn + 1
    · rw [updRange_in _ _ _ _ _ hp]
      have hppfn : p = pfn := by omega
      subst hppfn
      exact hhyp.symm
    · rw [updRange_out _ _ _ _ _ hp, updRange_out _ _ _ _ _ hp]
  rw [if_neg (by simp [hland2]), hPT1, hHS, hHY]
  rfl

/-- Witness for C4: sharing then unsharing pfn 20 from the boot state of
the demo configuration returns the boot state exactly. -/
theorem C4_share_unshare_round_trip_witness :
    (__pkvm_host_share_hyp demoCfg 20 (initState demoCfg)).1 = 0 ∧
    __pkvm_host_unshare_hyp demoCfg 20
      (__pkvm_host_share_hyp demoCfg 20 (initState demoCfg)).2 =
      (0, initState demoCfg) :=
  @C4_share_unshare_round_trip demoCfg 20 (initState demoCfg) (by decide) 0
    (by decide) (by decide) (by decide) (by decide) (by decide) (by decide)
    (by decide)

/-! ### Claim C5 — donate round trip -/

/-- Successful `__pkvm_host_donate_hyp_locked` evaluated. -/
theorem donate_hyp_locked_eval (cfg : Config) (pfn n prot : Nat)
    (s : SysState)
    (hcd : check_donation cfg (host_donate_hyp_tx pfn n prot) s = 0) :
    __pkvm_host_donate_hyp_locked cfg pfn n prot s =
      (0, donateHypState cfg pfn n prot s) := by
  have hset := host_stage2_set_owner_eval cfg.mem (pfn * PAGE_SIZE)
    (n * PAGE_SIZE) 1 s (by decide)
  have hini : host_initiate_donation cfg.mem (host_donate_hyp_tx pfn n prot)
      s = (0, pfn * PAGE_SIZE,
        { s with
          hostPT := updRange s.hostPT (pfn_of (pfn * PAGE_SIZE))
            (n * PAGE_SIZE / PAGE_SIZE) fun _ => .annot 1
          hostState := if addr_is_memory cfg.mem (pfn * PAGE_SIZE) = true then
              updRange s.hostState (pfn_of (pfn * PAGE_SIZE))
                (n * PAGE_SIZE / PAGE_SIZE) fun _ => PKVM_NOPAGE
            else s.hostState }) := by
    show ((host_stage2_set_owner_locked cfg.mem (pfn * PAGE_SIZE)
        (n * PAGE_SIZE) 1 s).1, pfn * PAGE_SIZE,
      (host_stage2_set_owner_locked cfg.mem (pfn * PAGE_SIZE)
        (n * PAGE_SIZE) 1 s).2) = _
    rw [hset]
    rfl
  show (if check_donation cfg (host_donate_hyp_tx pfn n prot) s ≠ 0 then
      (check_donation cfg (host_donate_hyp_tx pfn n prot) s, s)
    else __do_donate cfg (host_donate_hyp_tx pfn n prot) s) = _
  rw [if_neg (by simp [hcd])]
  show (if (host_initiate_donation cfg.mem (host_donate_hyp_tx pfn n prot)
      s).1 ≠ 0 then
      ((host_initiate_donation cfg.mem (host_donate_hyp_tx pfn n prot) s).1,
        (host_initiate_donation cfg.mem (host_donate_hyp_tx pfn n prot)
          s).2.2)
    else hyp_complete_donation
      (host_initiate_donation cfg.mem (host_donate_hyp_tx pfn n prot) s).2.1
      (host_donate_hyp_tx pfn n prot)
      (host_initiate_donation cfg.mem (host_donate_hyp_tx pfn n prot)
        s).2.2) = _
  rw [hini, if_neg (by simp)]
  rfl

/-- C5.  Donate round trip: on a range of `n` pages of declared, mapped
memory that the host owns, id-maps with the default protection, and that
the hyp does not map, `__pkvm_host_donate_hyp` succeeds and a following
`__pkvm_hyp_donate_host` of the same range succeeds and restores the exact
pre-donate system state — the host back to `Owned`, the hyp back to
`NoPage`. -/
theorem C5_donate_round_trip (cfg : Config) (pfn n : Nat) (s : SysState)
    (hv : ValidCfg cfg) (hn : 0 < n) {i : Nat} (hi : i < cfg.mem.length)
    (hbase : (regAt cfg.mem i).base ≤ pfn * PAGE_SIZE)
    (hend : (pfn + n) * PAGE_SIZE ≤ regEnd (regAt cfg.mem i))
    (hnomap : (regAt cfg.mem i).nomap = false)
    (howned : ∀ j, j < n → s.hostState (pfn + j) = PKVM_PAGE_OWNED)
    (hpt : ∀ j, j < n → s.hostPT (pfn + j) = .valid PKVM_HOST_MEM_PROT)
    (hhyp : ∀ j, j < n → s.hypPT (pfn + j) = none) :
    (__pkvm_host_donate_hyp cfg pfn n s).1 = 0 ∧
    __pkvm_hyp_donate_host cfg pfn n (__pkvm_host_donate_hyp cfg pfn n s).2 =
      (0, s) := by
  have hP : PAGE_SIZE = 4096 := rfl
  have hcnt : (pfn * PAGE_SIZE + n * PAGE_SIZE - pfn * PAGE_SIZE) / PAGE_SIZE
      = n := by
    rw [hP]
    omega
  have haim : addr_is_memory cfg.mem (pfn * PAGE_SIZE) = true :=
    (addr_is_memory_iff cfg.mem (pfn * PAGE_SIZE) hv).mpr
      ⟨i, hi, hbase, by rw [hP] at hend ⊢; omega⟩
  have hprot : default_hyp_prot cfg.mem (pfn * PAGE_SIZE) = PAGE_HYP := by
    unfold default_hyp_prot
    rw [if_pos haim]
  have hrim : range_is_memory cfg.mem (pfn * PAGE_SIZE)
      (pfn * PAGE_SIZE + n * PAGE_SIZE) = true :=
    (range_is_memory_iff cfg.mem (pfn * PAGE_SIZE)
        (pfn * PAGE_SIZE + n * PAGE_SIZE) hv).mpr
      ⟨i, hi, ⟨hbase, by rw [hP] at hend ⊢; omega⟩,
        ⟨by rw [hP] at hbase ⊢; omega, by rw [hP] at hend ⊢; omega⟩⟩
  have hreqO : __host_check_page_state_range cfg.mem (pfn * PAGE_SIZE)
      (n * PAGE_SIZE) PKVM_PAGE_OWNED s = 0 := by
    apply host_check_intro_mem cfg.mem hv hi hn hbase hend hnomap
    intro j hj
    simpa using howned j hj
  have hcd : check_donation cfg (host_donate_hyp_tx pfn n
      (default_hyp_prot cfg.mem (pfn * PAGE_SIZE))) s = 0 := by
    show (if __host_check_page_state_range cfg.mem (pfn * PAGE_SIZE)
          (n * PAGE_SIZE) PKVM_PAGE_OWNED s ≠ 0 then
          __host_check_page_state_range cfg.mem (pfn * PAGE_SIZE)
            (n * PAGE_SIZE) PKVM_PAGE_OWNED s
        else hyp_ack_donation (pfn * PAGE_SIZE)
          (host_donate_hyp_tx pfn n
            (default_hyp_prot cfg.mem (pfn * PAGE_SIZE))) s) = 0
    rw [if_neg (by rw [hreqO]; exact fun h => h rfl)]
    unfold hyp_ack_donation
    rw [if_pos (show __hyp_ack_skip_pgtable_check (host_donate_hyp_tx pfn n
      (default_hyp_prot cfg.mem (pfn * PAGE_SIZE))) = true from rfl)]
  have hlock := donate_hyp_locked_eval cfg pfn n
    (default_hyp_prot cfg.mem (pfn * PAGE_SIZE)) s hcd
  have hdon : __pkvm_host_donate_hyp cfg pfn n s =
      (0, donateHypState cfg pfn n
        (default_hyp_prot cfg.mem (pfn * PAGE_SIZE)) s) := by
    show (if ¬ false = true ∧ ¬ range_is_memory cfg.mem (pfn * PAGE_SIZE)
        (pfn * PAGE_SIZE + n * PAGE_SIZE) = true then ((-EPERM : Int), s)
      else __pkvm_host_donate_hyp_locked cfg pfn n
        (default_hyp_prot cfg.mem (pfn * PAGE_SIZE)) s) = _
    rw [if_neg (fun h => h.2 hrim)]
    exact hlock
  have hS1hyp : ∀ j, j < n → (donateHypState cfg pfn n
      (default_hyp_prot cfg.mem (pfn * PAGE_SIZE)) s).hypPT (pfn + j)
      = some (pkvm_mkstate PAGE_HYP PKVM_PAGE_OWNED) := by
    intro j hj
    show updRange s.hypPT (pfn_of (pfn * PAGE_SIZE))
      ((pfn * PAGE_SIZE + n * PAGE_SIZE - pfn * PAGE_SIZE) / PAGE_SIZE)
      (fun _ => some (pkvm_mkstate
        (default_hyp_prot cfg.mem (pfn * PAGE_SIZE)) PKVM_PAGE_OWNED))
      (pfn + j) = some (pkvm_mkstate PAGE_HYP PKVM_PAGE_OWNED)
    rw [pfn_of_mul, hcnt, hprot]
    exact updRange_in _ _ _ _ _ (by omega)
  have hhypchk : __hyp_check_page_state_range (pfn * PAGE_SIZE)
      (n * PAGE_SIZE) PKVM_PAGE_OWNED (donateHypState cfg pfn n
        (default_hyp_prot cfg.mem (pfn * PAGE_SIZE)) s) = 0 := by
    unfold __hyp_check_page_state_range
    rw [if_pos]
    apply (allPfns_iff _ _ _).mpr
    intro j hj
    rw [size_div_pages] at hj
    show (hyp_get_page_state ((donateHypState cfg pfn n
      (default_hyp_prot cfg.mem (pfn * PAGE_SIZE)) s).hypPT
      (pfn_of (pfn * PAGE_SIZE) + j)) == PKVM_PAGE_OWNED) = true
    rw [show pfn_of (pfn * PAGE_SIZE) + j = pfn + j from
      by rw [pfn_of_mul]]
    rw [hS1hyp j hj]
    rfl
  have hcd2 : check_donation cfg (hyp_host_donate_tx pfn n)
      (donateHypState cfg pfn n
        (default_hyp_prot cfg.mem (pfn * PAGE_SIZE)) s) = 0 := by
    show (if __hyp_check_page_state_range (pfn * PAGE_SIZE) (n * PAGE_SIZE)
          PKVM_PAGE_OWNED (donateHypState cfg pfn n
            (default_hyp_prot cfg.mem (pfn * PAGE_SIZE)) s) ≠ 0 then
          __hyp_check_page_state_range (pfn * PAGE_SIZE) (n * PAGE_SIZE)
            PKVM_PAGE_OWNED (donateHypState cfg pfn n
              (default_hyp_prot cfg.mem (pfn * PAGE_SIZE)) s)
        else host_ack_donation cfg.mem (pfn * PAGE_SIZE)
          (hyp_host_donate_tx pfn n) (donateHypState cfg pfn n
            (default_hyp_prot cfg.mem (pfn * PAGE_SIZE)) s)) = 0
    rw [if_neg (by rw [hhypchk]; exact fun h => h rfl)]
    unfold host_ack_donation __host_ack_transition
    rw [if_pos (show __host_ack_skip_pgtable_check (hyp_host_donate_tx pfn n)
      = true from rfl)]
  have hm2 : ∀ j, j < n → (((donateHypState cfg pfn n
      (default_hyp_prot cfg.mem (pfn * PAGE_SIZE)) s).hypPT
      (pfn_of (pfn * PAGE_SIZE) + j)).isSome) = true := by
    intro j hj
    rw [show pfn_of (pfn * PAGE_SIZE) + j = pfn + j from
      by rw [pfn_of_mul]]
    rw [hS1hyp j hj]
    rfl
  have hini2 : hyp_initiate_donation (hyp_host_donate_tx pfn n)
      (donateHypState cfg pfn n
        (default_hyp_prot cfg.mem (pfn * PAGE_SIZE)) s) =
      (0, pfn * PAGE_SIZE,
        { donateHypState cfg pfn n
            (default_hyp_prot cfg.mem (pfn * PAGE_SIZE)) s with
          hypPT := updRange (donateHypState cfg pfn n
            (default_hyp_prot cfg.mem (pfn * PAGE_SIZE)) s).hypPT
            (pfn_of (pfn * PAGE_SIZE)) n fun _ => none }) := by
    show ((if (kvm_pgtable_hyp_unmap (pfn * PAGE_SIZE) (n * PAGE_SIZE)
        (donateHypState cfg pfn n
          (default_hyp_prot cfg.mem (pfn * PAGE_SIZE)) s)).1
        ≠ n * PAGE_SIZE then -EFAULT else 0), pfn * PAGE_SIZE,
      (kvm_pgtable_hyp_unmap (pfn * PAGE_SIZE) (n * PAGE_SIZE)
        (donateHypState cfg pfn n
          (default_hyp_prot cfg.mem (pfn * PAGE_SIZE)) s)).2) = _
    rw [hyp_unmap_eval _ _ _ hm2]
    rw [if_neg (by simp)]
  have hset2 := host_stage2_set_owner_eval cfg.mem (pfn * PAGE_SIZE)
    (n * PAGE_SIZE) 0
    ({ donateHypState cfg pfn n
        (default_hyp_prot cfg.mem (pfn * PAGE_SIZE)) s with
      hypPT := updRange (donateHypState cfg pfn n
        (default_hyp_prot cfg.mem (pfn * PAGE_SIZE)) s).hypPT
        (pfn_of (pfn * PAGE_SIZE)) n fun _ => none }) (by decide)
  have hback : __pkvm_hyp_donate_host cfg pfn n
      (donateHypState cfg pfn n
        (default_hyp_prot cfg.mem (pfn * PAGE_SIZE)) s) =
      (0, { s with
        hostPT := updRange (updRange s.hostPT (pfn_of (pfn * PAGE_SIZE))
          (n * PAGE_SIZE / PAGE_SIZE) fun _ => .annot 1)
          (pfn_of (pfn * PAGE_SIZE)) (n * PAGE_SIZE / PAGE_SIZE)
          fun _ => .valid (default_host_prot
            (addr_is_memory cfg.mem (pfn * PAGE_SIZE)))
        hostState := if addr_is_memory cfg.mem (pfn * PAGE_SIZE) = true then
            updRange (if addr_is_memory cfg.mem (pfn * PAGE_SIZE) = true then
              updRange s.hostState (pfn_of (pfn * PAGE_SIZE))
                (n * PAGE_SIZE / PAGE_SIZE) fun _ => PKVM_NOPAGE
            else s.hostState) (pfn_of (pfn * PAGE_SIZE))
              (n * PAGE_SIZE / PAGE_SIZE) fun _ => PKVM_PAGE_OWNED
          else if addr_is_memory cfg.mem (pfn * PAGE_SIZE) = true then
            updRange s.hostState (pfn_of (pfn * PAGE_SIZE))
              (n * PAGE_SIZE / PAGE_SIZE) fun _ => PKVM_NOPAGE
          else s.hostState
        hypPT := updRange (updRange s.hypPT (pfn_of (pfn * PAGE_SIZE))
          ((pfn * PAGE_SIZE + n * PAGE_SIZE - pfn * PAGE_SIZE) / PAGE_SIZE)
          fun _ => some (pkvm_mkstate
            (default_hyp_prot cfg.mem (pfn * PAGE_SIZE)) PKVM_PAGE_OWNED))
          (pfn_of (pfn * PAGE_SIZE)) n fun _ => none }) := by
    show (if check_donation cfg (hyp_host_donate_tx pfn n)
        (donateHypState cfg pfn n
          (default_hyp_prot cfg.mem (pfn * PAGE_SIZE)) s) ≠ 0 then
        (check_donation cfg (hyp_host_donate_tx pfn n)
          (donateHypState cfg pfn n
            (default_hyp_prot cfg.mem (pfn * PAGE_SIZE)) s),
          donateHypState cfg pfn n
            (default_hyp_prot cfg.mem (pfn * PAGE_SIZE)) s)
      else __do_donate cfg (hyp_host_donate_tx pfn n)
        (donateHypState cfg pfn n
          (default_hyp_prot cfg.mem (pfn * PAGE_SIZE)) s)) = _
    rw [if_neg (by simp [hcd2])]
    show (if (hyp_initiate_donation (hyp_host_donate_tx pfn n)
        (donateHypState cfg pfn n
          (default_hyp_prot cfg.mem (pfn * PAGE_SIZE)) s)).1 ≠ 0 then
        ((hyp_initiate_donation (hyp_host_donate_tx pfn n)
          (donateHypState cfg pfn n
            (default_hyp_prot cfg.mem (pfn * PAGE_SIZE)) s)).1,
          (hyp_initiate_donation (hyp_host_donate_tx pfn n)
            (donateHypState cfg pfn n
              (default_hyp_prot cfg.mem (pfn * PAGE_SIZE)) s)).2.2)
      else host_complete_donation cfg.mem
        (hyp_initiate_donation (hyp_host_donate_tx pfn n)
          (donateHypState cfg pfn n
            (default_hyp_prot cfg.mem (pfn * PAGE_SIZE)) s)).2.1
        (hyp_host_donate_tx pfn n)
        (hyp_initiate_donation (hyp_host_donate_tx pfn n)
          (donateHypState cfg pfn n
            (default_hyp_prot cfg.mem (pfn * PAGE_SIZE)) s)).2.2) = _
    rw [hini2, if_neg (by simp)]
    show host_stage2_set_owner_locked cfg.mem (pfn * PAGE_SIZE)
      (n * PAGE_SIZE) 0
      ({ donateHypState cfg pfn n
          (default_hyp_prot cfg.mem (pfn * PAGE_SIZE)) s with
        hypPT := updRange (donateHypState cfg pfn n
          (default_hyp_prot cfg.mem (pfn * PAGE_SIZE)) s).hypPT
          (pfn_of (pfn * PAGE_SIZE)) n fun _ => none }) = _
    rw [hset2]
    rfl
  refine ⟨by rw [hdon], ?_⟩
  rw [hdon]
  show __pkvm_hyp_donate_host cfg pfn n
    (donateHypState cfg pfn n
      (default_hyp_prot cfg.mem (pfn * PAGE_SIZE)) s) = (0, s)
  rw [hback]
  have hHPT : updRange (updRange s.hostPT (pfn_of (pfn * PAGE_SIZE))
      (n * PAGE_SIZE / PAGE_SIZE) fun _ => HostPTE.annot 1)
      (pfn_of (pfn * PAGE_SIZE)) (n * PAGE_SIZE / PAGE_SIZE)
      (fun _ => HostPTE.valid (default_host_prot
        (addr_is_memory cfg.mem (pfn * PAGE_SIZE)))) = s.hostPT := by
    funext p
    rw [pfn_of_mul, size_div_pages, haim]
    by_cases hp : pfn ≤ p ∧ p < pfn + n
    · rw [updRange_in _ _ _ _ _ hp]
      rw [show p = pfn + (p - pfn) from by omega]
      rw [hpt (p - pfn) (by omega)]
      rfl
    · rw [updRange_out _ _ _ _ _ hp, updRange_out _ _ _ _ _ hp]
  have hHS : (if addr_is_memory cfg.mem (pfn * PAGE_SIZE) = true then
      updRange (if addr_is_memory cfg.mem (pfn * PAGE_SIZE) = true then
        updRange s.hostState (pfn_of (pfn * PAGE_SIZE))
          (n * PAGE_SIZE / PAGE_SIZE) fun _ => PKVM_NOPAGE
      else s.hostState) (pfn_of (pfn * PAGE_SIZE))
        (n * PAGE_SIZE / PAGE_SIZE) fun _ => PKVM_PAGE_OWNED
    else if addr_is_memory cfg.mem (pfn * PAGE_SIZE) = true then
      updRange s.hostState (pfn_of (pfn * PAGE_SIZE))
        (n * PAGE_SIZE / PAGE_SIZE) fun _ => PKVM_NOPAGE
    else s.hostState) = s.hostState := by
    rw [if_pos haim, if_pos haim]
    funext p
    rw [pfn_of_mul, size_div_pages]
    by_cases hp : pfn ≤ p ∧ p < pfn + n
    · rw [updRange_in _ _ _ _ _ hp]
      rw [show p = pfn + (p - pfn) from by omega]
      exact (howned (p - pfn) (by omega)).symm
    · rw [updRange_out _ _ _ _ _ hp, updRange_out _ _ _ _ _ hp]
  have hHY : updRange (updRange s.hypPT (pfn_of (pfn * PAGE_SIZE))
      ((pfn * PAGE_SIZE + n * PAGE_SIZE - pfn * PAGE_SIZE) / PAGE_SIZE)
      fun _ => some (pkvm_mkstate
        (default_hyp_prot cfg.mem (pfn * PAGE_SIZE)) PKVM_PAGE_OWNED))
      (pfn_of (pfn * PAGE_SIZE)) n (fun _ => (none : Option Nat))
      = s.hypPT := by
    funext p
    rw [pfn_of_mul, hcnt]
    by_cases hp : pfn ≤ p ∧ p < pfn + n
    · rw [updRange_in _ _ _ _ _ hp]
      rw [show p = pfn + (p - pfn) from by omega]
      exact (hhyp (p - pfn) (by omega)).symm
    · rw [updRange_out _ _ _ _ _ hp, updRange_out _ _ _ _ _ hp]
  rw [hHPT, hHS, hHY]

/-- Witness for C5: donating pfns 24..25 host→hyp then hyp→host from the
boot state of the demo configuration returns the boot state exactly. -/
theorem C5_donate_round_trip_witness :
    (__pkvm_host_donate_hyp demoCfg 24 2 (initState demoCfg)).1 = 0 ∧
    __pkvm_hyp_donate_host demoCfg 24 2
      (__pkvm_host_donate_hyp demoCfg 24 2 (initState demoCfg)).2 =
      (0, initState demoCfg) :=
  @C5_donate_round_trip demoCfg 24 2 (initState demoCfg) (by decide)
    (by decide) 0 (by decide) (by decide) (by decide) (by decide)
    (fun j hj => by interval_cases j <;> decide)
    (fun j hj => by interval_cases j <;> decide)
    (fun j hj => by interval_cases j <;> decide)

/-! ### Witnesses at concrete inputs -/

/-- Witness for C3 (amended): the hyp-initiated donation into the pvmfw
range of the unprotected VM 0 fails with `-EPERM` and leaves the guest
table and the psci accounting untouched. -/
theorem C3_pvmfw_guard_witness :
    (do_donate demoCfgUnprot demoHypToGuestTx demoHypOwns).1 = -EPERM ∧
    (do_donate demoCfgUnprot demoHypToGuestTx demoHypOwns).2.guestPt =
      demoHypOwns.guestPt ∧
    (do_donate demoCfgUnprot demoHypToGuestTx demoHypOwns).2.psciCount =
      demoHypOwns.psciCount :=
  C3_pvmfw_guard demoCfgUnprot demoHypToGuestTx demoHypOwns rfl (Or.inr rfl)
    (by decide)
    (fun _ j hj => by
      have h0 : j = 0 := Nat.lt_one_iff.mp hj
      subst h0
      decide)
    (by decide) rfl

/-- Witness for C6: a two-page guest-initiated share and unshare both fail
with `-E2BIG` and leave the state untouched. -/
theorem C6_guest_single_page_limit_witness :
    do_share demoCfg
      { nr_pages := 2, initiator_id := .guest, initiator_addr := 0,
        initiator_completer_addr := 0, initiator_guest := 0,
        completer_id := .host, completer_prot := PKVM_HOST_MEM_PROT,
        completer_guest := 0, completer_guest_phys := 0 } demoInit =
      (-E2BIG, demoInit) ∧
    do_unshare demoCfg
      { nr_pages := 2, initiator_id := .guest, initiator_addr := 0,
        initiator_completer_addr := 0, initiator_guest := 0,
        completer_id := .host, completer_prot := PKVM_HOST_MEM_PROT,
        completer_guest := 0, completer_guest_phys := 0 } demoInit =
      (-E2BIG, demoInit) :=
  C6_guest_single_page_limit demoCfg
    { nr_pages := 2, initiator_id := .guest, initiator_addr := 0,
      initiator_completer_addr := 0, initiator_guest := 0,
      completer_id := .host, completer_prot := PKVM_HOST_MEM_PROT,
      completer_guest := 0, completer_guest_phys := 0 } demoInit rfl
    (by decide)

/-- Witness for C7: unsharing pfn 20 while the hyp holds a reference
returns `-EBUSY` with no state change. -/
theorem C7_unshare_hyp_busy_witness :
    check_unshare demoCfg (host_hyp_tx demoCfg.mem 20) demoBusyShared
      = -EBUSY ∧
    __pkvm_host_unshare_hyp demoCfg 20 demoBusyShared =
      (-EBUSY, demoBusyShared) :=
  @C7_unshare_hyp_busy demoCfg 20 demoBusyShared (by decide) 0 (by decide)
    (by decide) (by decide) (by decide) (by decide) (by decide)

/-- Witness for C9: on the demo region list, `addr_is_memory` classifies
physical address 81920 exactly as region containment does. -/
theorem C9_find_mem_range_correct_witness :
    addr_is_memory demoCfg.mem 81920 = true ↔
      ∃ i, i < demoCfg.mem.length ∧ regContains (regAt demoCfg.mem i) 81920 :=
  (C9_find_mem_range_correct demoCfg.mem 81920 (by decide)
    (by decide)).2.2.2.1

end MemProtect
